import Mathlib

/-!
# Amino-acid study games: a shallow embedding

Two browser games of the repository are embedded here as explicit state machines:

* `memory-game.js` (namespace `MemoryGame`): the 10×6 matching grid, its selection
  buffer `selectedTiles`, the list `matchedAminoAcids`, the counter `remainingTiles`
  and the callbacks scheduled with `setTimeout`;
* `classification-game.js` (namespace `ClassificationGame`): the pool of draggable
  items, the drop zones and the completion check.

Two further parts, each with a header of its own, embed the three.js model builders with
their pointer listeners and the table sorting of `特殊氨基酸总结/script.js`.

Conventions of the embedding.

* The DOM is explicit state.  An element is a record of the attributes and classes the
  scripts read or write; a container is the list of its children in document order.
* `Math.random()` is an oracle.  One outcome is a `Rnd`, a rational `num / den` in
  `[0, 1)`; a call site that draws repeatedly reads a stream `Nat → Rnd`.
* `setTimeout(f, d)` appends the callback `f` to the list of pending timers of the
  state.  A timer event fires one pending callback.  The callback bodies read the
  module-level variables at firing time, exactly as the closures of the scripts do.
-/

/-- One outcome of `Math.random()`: the rational `num / den`, which lies in `[0, 1)`. -/
structure Rnd where
  num : Nat
  den : Nat
  lt : num < den

/-- The value of `Math.floor(Math.random() * n)` for the outcome `r`. -/
def Rnd.floorMul (r : Rnd) (n : Nat) : Nat := r.num * n / r.den

/-- The outcome `0` of `Math.random()`. -/
def Rnd.zero : Rnd := { num := 0, den := 1, lt := Nat.zero_lt_one }

/-- The stream `rand` after `n` outcomes have been consumed. -/
def dropDraws (rand : Nat → Rnd) (n : Nat) : Nat → Rnd := fun m => rand (m + n)

namespace MemoryGame

/-- An entry of the table `aminoAcids` of `memory-game.js`. -/
structure AminoAcid where
  name : String
  code3 : String
  code1 : String
deriving DecidableEq, Repr

/-- The constant `aminoAcids` of `memory-game.js` (lines 3–24). -/
def aminoAcids : List AminoAcid :=
  [ { name := "丙氨酸", code3 := "Ala", code1 := "A" },
    { name := "精氨酸", code3 := "Arg", code1 := "R" },
    { name := "天冬酰胺", code3 := "Asn", code1 := "N" },
    { name := "天冬氨酸", code3 := "Asp", code1 := "D" },
    { name := "半胱氨酸", code3 := "Cys", code1 := "C" },
    { name := "谷氨酰胺", code3 := "Gln", code1 := "Q" },
    { name := "谷氨酸", code3 := "Glu", code1 := "E" },
    { name := "甘氨酸", code3 := "Gly", code1 := "G" },
    { name := "组氨酸", code3 := "His", code1 := "H" },
    { name := "异亮氨酸", code3 := "Ile", code1 := "I" },
    { name := "亮氨酸", code3 := "Leu", code1 := "L" },
    { name := "赖氨酸", code3 := "Lys", code1 := "K" },
    { name := "甲硫氨酸", code3 := "Met", code1 := "M" },
    { name := "苯丙氨酸", code3 := "Phe", code1 := "F" },
    { name := "脯氨酸", code3 := "Pro", code1 := "P" },
    { name := "丝氨酸", code3 := "Ser", code1 := "S" },
    { name := "苏氨酸", code3 := "Thr", code1 := "T" },
    { name := "色氨酸", code3 := "Trp", code1 := "W" },
    { name := "酪氨酸", code3 := "Tyr", code1 := "Y" },
    { name := "缬氨酸", code3 := "Val", code1 := "V" } ]

/-- The objects pushed to `nameData`, `code3Data` and `code1Data` by `initGame`. -/
structure TileData where
  text : String
  type : String
  acid : String
deriving DecidableEq, Repr

/-- A tile element of the grid: `textContent`, `dataset.acid`, `dataset.type`, the
type class of its `className`, and membership of `matched` and `selected` in its
`classList`. -/
structure Tile where
  textContent : String
  acid : String
  type : String
  tileType : String
  matched : Bool
  selected : Bool
deriving DecidableEq, Repr

/-- A row of the reference table: `dataset.acid`, `className` and the three cells. -/
structure TableRow where
  acid : String
  className : String
  nameCell : String
  code3Cell : String
  code1Cell : String
deriving DecidableEq, Repr

/-- The callbacks handed to `setTimeout`: the match branch of `checkMatch` (500 ms,
closing over `acid1`), its mismatch branch (1000 ms) and the callback of
`checkGameCompletion` (500 ms). -/
inductive Timer where
  | matched (acid1 : String)
  | mismatched
  | showModal
deriving DecidableEq, Repr

/-- The module-level variables of `memory-game.js` together with the part of the DOM
the script reads and writes.  `selectedTiles` holds references to tile elements; a
reference is the position of the tile in `grid`, the children of `gameContainer`. -/
structure State where
  grid : List Tile
  selectedTiles : List Nat
  matchedAminoAcids : List String
  remainingTiles : Int
  isHardMode : Bool
  selectedCountElement : Int
  remainingTilesElement : Int
  referenceTableBody : List TableRow
  referenceTableHardMode : Bool
  easyModeActive : Bool
  hardModeActive : Bool
  successModalShow : Bool
  timers : List Timer
deriving DecidableEq, Repr

/-- The destructuring swap `[a[i], a[j]] = [a[j], a[i]]`.  Both positions exist at every
call of `shuffleArray`; otherwise the list is returned as it is. -/
def swap {α : Type} (a : List α) (i j : Nat) : List α :=
  match a[i]?, a[j]? with
  | some x, some y => (a.set i y).set j x
  | _, _ => a

/-- The loop `for (let i = newArray.length - 1; i > 0; i--)` of `shuffleArray`, entered
with loop variable `i` and with `k` outcomes of the stream already consumed. -/
def shuffleLoop {α : Type} (rand : Nat → Rnd) : Nat → Nat → List α → List α
  | 0, _, newArray => newArray
  | i + 1, k, newArray =>
      let j := (rand k).floorMul (i + 1 + 1)
      shuffleLoop rand i (k + 1) (swap newArray (i + 1) j)

/-- The function `shuffleArray` of `memory-game.js` (lines 254–261). -/
def shuffleArray {α : Type} (rand : Nat → Rnd) (array : List α) : List α :=
  shuffleLoop rand (array.length - 1) 0 array

/-- The function `updateGameInfo` (lines 238–241). -/
def updateGameInfo (s : State) : State :=
  { s with selectedCountElement := s.selectedTiles.length
           remainingTilesElement := s.remainingTiles }

/-- The function `setTableMode` (lines 148–154). -/
def setTableMode (s : State) : State :=
  if s.isHardMode then { s with referenceTableHardMode := true }
  else { s with referenceTableHardMode := false }

/-- The function `generateReferenceTable` (lines 117–145). -/
def generateReferenceTable (s : State) : State :=
  setTableMode
    { s with referenceTableBody := aminoAcids.map fun acid =>
        { acid := acid.name, className := "pending", nameCell := acid.name,
          code3Cell := acid.code3, code1Cell := acid.code1 } }

/-- Sets `className` of the first row that satisfies `tr[data-acid="acidName"]`. -/
def setRowClass (acidName className : String) : List TableRow → List TableRow
  | [] => []
  | row :: rows =>
      if row.acid = acidName then { row with className := className } :: rows
      else row :: setRowClass acidName className rows

/-- The function `updateReferenceTable` (lines 157–162). -/
def updateReferenceTable (acidName : String) (isCompleted : Bool) (s : State) : State :=
  let className := if isCompleted then "completed" else "pending"
  { s with referenceTableBody := setRowClass acidName className s.referenceTableBody }

/-- The value `undefined` read from a data array outside its bounds. -/
def TileData.undefined : TileData :=
  { text := "undefined", type := "undefined", acid := "undefined" }

/-- The object pushed to `nameData` for `acid` (line 64). -/
def nameEntry (acid : AminoAcid) : TileData :=
  { text := acid.name, type := "name", acid := acid.name }

/-- The object pushed to `code3Data` for `acid` (line 65). -/
def code3Entry (acid : AminoAcid) : TileData :=
  { text := acid.code3, type := "code3", acid := acid.name }

/-- The object pushed to `code1Data` for `acid` (line 66). -/
def code1Entry (acid : AminoAcid) : TileData :=
  { text := acid.code1, type := "code1", acid := acid.name }

/-- The index expression `row * 2 + (col % 2)` of lines 83, 87 and 91. -/
def dataIndex (row col : Nat) : Nat := row * 2 + col % 2

/-- The body of the two nested loops of `initGame` for one `row` and `col`
(lines 78–99): the tile element that is created. -/
def createTile (nameData code3Data code1Data : List TileData) (row col : Nat) : Tile :=
  let tileData :=
    if col < 2 then nameData.getD (dataIndex row col) TileData.undefined
    else if col < 4 then code3Data.getD (dataIndex row col) TileData.undefined
    else code1Data.getD (dataIndex row col) TileData.undefined
  let tileType :=
    if col < 2 then "name-tile" else if col < 4 then "code3-tile" else "code1-tile"
  { textContent := tileData.text, acid := tileData.acid, type := tileData.type,
    tileType := tileType, matched := false, selected := false }

/-- The children appended to `gameContainer` by the loops over `row < 10` and
`col < 6` of `initGame` (lines 76–107), in order of creation. -/
def createGrid (nameData code3Data code1Data : List TileData) : List Tile :=
  (List.range 10).flatMap fun row =>
    (List.range 6).map fun col => createTile nameData code3Data code1Data row col

/-- The function `initGame` of `memory-game.js` (lines 45–114).  `rand` is the stream of
outcomes of `Math.random()` read by the four calls of `shuffleArray`.  Pending timers
are not touched: the script never calls `clearTimeout`. -/
def initGame (rand : Nat → Rnd) (s : State) : State :=
  let s1 := updateGameInfo
    { s with grid := [], selectedTiles := [], matchedAminoAcids := [], remainingTiles := 60 }
  let shuffledAminoAcids := shuffleArray rand aminoAcids
  let rand1 := dropDraws rand (aminoAcids.length - 1)
  let nameData₀ := shuffledAminoAcids.map nameEntry
  let code3Data₀ := shuffledAminoAcids.map code3Entry
  let code1Data₀ := shuffledAminoAcids.map code1Entry
  let nameData := shuffleArray rand1 nameData₀
  let rand2 := dropDraws rand1 (nameData₀.length - 1)
  let code3Data := shuffleArray rand2 code3Data₀
  let rand3 := dropDraws rand2 (code3Data₀.length - 1)
  let code1Data := shuffleArray rand3 code1Data₀
  let s2 := { s1 with grid := createGrid nameData code3Data code1Data }
  let s3 := generateReferenceTable s2
  { s3 with successModalShow := false }

/-- Applies `f` to the tile at position `i` of the grid. -/
def modifyTile (f : Tile → Tile) (i : Nat) (grid : List Tile) : List Tile :=
  grid.modify f i

/-- The function `checkGameCompletion` (lines 244–251). -/
def checkGameCompletion (s : State) : State :=
  if s.remainingTiles = 0 then { s with timers := s.timers ++ [Timer.showModal] } else s

/-- The function `checkMatch` (lines 193–235): it reads the `dataset.acid` of the first
three selected tiles and schedules one of the two callbacks.  With fewer than three
selected tiles the script would throw; `handleTileClick` calls it with exactly three. -/
def checkMatch (s : State) : State :=
  match s.selectedTiles with
  | t0 :: t1 :: t2 :: _ =>
      match s.grid[t0]?, s.grid[t1]?, s.grid[t2]? with
      | some tile0, some tile1, some tile2 =>
          let acid1 := tile0.acid
          let acid2 := tile1.acid
          let acid3 := tile2.acid
          if acid1 = acid2 ∧ acid2 = acid3 then
            { s with timers := s.timers ++ [Timer.matched acid1] }
          else
            { s with timers := s.timers ++ [Timer.mismatched] }
      | _, _, _ => s
  | _ => s

/-- The function `handleTileClick` (lines 165–190) for a click on the tile at position
`tile` of the grid. -/
def handleTileClick (s : State) (tile : Nat) : State :=
  match s.grid[tile]? with
  | none => s
  | some el =>
      if el.matched then s
      else if el.selected then
        updateGameInfo
          { s with grid := modifyTile (fun t => { t with selected := false }) tile s.grid
                   selectedTiles := s.selectedTiles.filter fun selected => selected ≠ tile }
      else
        let s1 := updateGameInfo
          { s with grid := modifyTile (fun t => { t with selected := true }) tile s.grid
                   selectedTiles := s.selectedTiles ++ [tile] }
        if s1.selectedTiles.length = 3 then checkMatch s1 else s1

/-- The callback scheduled by the match branch of `checkMatch` (lines 201–224). -/
def matchedCallback (acid1 : String) (s : State) : State :=
  let grid := s.selectedTiles.foldl
    (fun grid tile => modifyTile (fun t => { t with matched := true, selected := false }) tile grid)
    s.grid
  let s1 := { s with grid := grid }
  let s2 :=
    if ¬ acid1 ∈ s1.matchedAminoAcids then
      updateReferenceTable acid1 true
        { s1 with matchedAminoAcids := s1.matchedAminoAcids ++ [acid1] }
    else s1
  let s3 := updateGameInfo { s2 with remainingTiles := s2.remainingTiles - 3 }
  let s4 := { s3 with selectedTiles := [] }
  checkGameCompletion s4

/-- The callback scheduled by the mismatch branch of `checkMatch` (lines 227–233). -/
def mismatchedCallback (s : State) : State :=
  let grid := s.selectedTiles.foldl
    (fun grid tile => modifyTile (fun t => { t with selected := false }) tile grid) s.grid
  let s1 := { s with grid := grid }
  updateGameInfo { s1 with selectedTiles := [] }

/-- The callback scheduled by `checkGameCompletion` (lines 247–249). -/
def showModalCallback (s : State) : State := { s with successModalShow := true }

/-- Runs the pending timer at position `k` and removes it from the pending list. -/
def fireTimer (s : State) (k : Nat) : State :=
  match s.timers[k]? with
  | none => s
  | some timer =>
      let s1 := { s with timers := s.timers.eraseIdx k }
      match timer with
      | Timer.matched acid1 => matchedCallback acid1 s1
      | Timer.mismatched => mismatchedCallback s1
      | Timer.showModal => showModalCallback s1

/-- The function `toggleDifficulty` (lines 264–276). -/
def toggleDifficulty (isHard : Bool) (rand : Nat → Rnd) (s : State) : State :=
  let s1 := { s with isHardMode := isHard }
  let s2 := { s1 with easyModeActive := !isHard, hardModeActive := isHard }
  initGame rand (setTableMode s2)

/-- The events of a session between two restarts: a click on the tile at a grid
position, and the firing of a pending timer. -/
inductive Event where
  | click (tile : Nat)
  | fire (k : Nat)
deriving DecidableEq, Repr

/-- The handler run for one event. -/
def step (s : State) : Event → State
  | Event.click tile => handleTileClick s tile
  | Event.fire k => fireTimer s k

/-- The handlers run for a sequence of events, first to last. -/
def run (s : State) (events : List Event) : State := events.foldl step s

/-- The page as loaded, before the script runs: the variable initialisers of lines 39–42
and an empty DOM. -/
def State.loaded : State :=
  { grid := [], selectedTiles := [], matchedAminoAcids := [], remainingTiles := 60,
    isHardMode := false, selectedCountElement := 0, remainingTilesElement := 60,
    referenceTableBody := [], referenceTableHardMode := false, easyModeActive := true,
    hardModeActive := false, successModalShow := false, timers := [] }

/-- The session after the `initGame()` call of line 285 when every draw is `0`. -/
def State.start : State := initGame (fun _ => Rnd.zero) State.loaded

/-- The tile element created from one entry of a data array, with the type class
`tileType` in its `className` (lines 95–99). -/
def toTile (tileType : String) (d : TileData) : Tile :=
  { textContent := d.text, acid := d.acid, type := d.type, tileType := tileType,
    matched := false, selected := false }

/-- The sixty tiles of a fresh grid, listed by type and in the order of `aminoAcids`. -/
def referenceTiles : List Tile :=
  aminoAcids.map (fun acid => toTile "name-tile" (nameEntry acid)) ++
    (aminoAcids.map (fun acid => toTile "code3-tile" (code3Entry acid)) ++
      aminoAcids.map (fun acid => toTile "code1-tile" (code1Entry acid)))

/-- A grid position holds a tile that carries the class `matched`. -/
def MatchedAt (grid : List Tile) (tile : Nat) : Prop :=
  ∃ el, grid[tile]? = some el ∧ el.matched = true

/-- Whether the tile at position `tile` of the grid carries the class `matched`. -/
def isMatched (s : State) (tile : Nat) : Bool :=
  match s.grid[tile]? with
  | some el => el.matched
  | none => false

/-- The positions of the tiles of the grid that carry the class `matched`. -/
def matchedPositions (s : State) : List Nat :=
  (List.range s.grid.length).filter fun tile => isMatched s tile

/-- Whether handling the event `e` in state `s` schedules the callback of
`checkGameCompletion`, that is whether the success modal is triggered at this event: the
pending `showModal` callbacks become more. -/
def triggersModal (s : State) (e : Event) : Bool :=
  decide (s.timers.count Timer.showModal < (step s e).timers.count Timer.showModal)

end MemoryGame

namespace ClassificationGame

/-- An entry of the table `aminoAcids` of `classification-game.js`. -/
structure AminoAcid where
  name : String
  category : String
  fullName : String
deriving DecidableEq, Repr

/-- The constant `aminoAcids` of `classification-game.js` (lines 3–33). -/
def aminoAcids : List AminoAcid :=
  [ { name := "甘氨酸", category := "A", fullName := "甘氨酸(α-氨基乙酸)" },
    { name := "丙氨酸", category := "A", fullName := "丙氨酸(α-氨基丙酸)" },
    { name := "缬氨酸", category := "A", fullName := "缬氨酸(β-叔戊基-α-氨酸)" },
    { name := "亮氨酸", category := "A", fullName := "亮氨酸(α-氨基-β-异丁基丙酸)" },
    { name := "异亮氨酸", category := "A", fullName := "异亮氨酸(α-氨基-γ-甲基戊酸)" },
    { name := "脯氨酸", category := "A", fullName := "脯氨酸(α-氨基-β-甲基戊酸)" },
    { name := "甲硫氨酸", category := "A", fullName := "甲硫氨酸(α-氨基-γ-甲硫基丁酸)" },
    { name := "苯丙氨酸", category := "B", fullName := "苯丙氨酸(α-氨基-β-苯基丙酸)" },
    { name := "酪氨酸", category := "B", fullName := "酪氨酸(α-氨基-β-对羟基苯丙酸)" },
    { name := "色氨酸", category := "B", fullName := "色氨酸(α-氨基-β-吲哚基丙酸)" },
    { name := "丝氨酸", category := "C", fullName := "丝氨酸(α-氨基-β-羟基丙酸)" },
    { name := "苏氨酸", category := "C", fullName := "苏氨酸(α-氨基-β-羟基丁酸)" },
    { name := "半胱氨酸", category := "C", fullName := "半胱氨酸(α-氨基-β-巯基丙酸)" },
    { name := "天冬酰胺", category := "C", fullName := "天冬酰胺" },
    { name := "谷氨酰胺", category := "C", fullName := "谷氨酰胺" },
    { name := "赖氨酸", category := "D", fullName := "赖氨酸(α-ε-二氨基己酸)" },
    { name := "精氨酸", category := "D", fullName := "精氨酸(α-氨基-δ-胍基戊酸)" },
    { name := "组氨酸", category := "D", fullName := "组氨酸(α-氨基-β-咪唑基丙酸)" },
    { name := "天冬氨酸", category := "E", fullName := "天冬氨酸(α-氨基丁二酸)" },
    { name := "谷氨酸", category := "E", fullName := "谷氨酸(α-氨基戊二酸)" } ]

/-- A `div.amino-acid` element.  `id` is the identity of the element object; the other
fields are `textContent`, the attributes `data-category` and `title`, and membership of
`correct`, `placed` and `incorrect` in `classList`.  The classes `dragging` and
`highlight` are styling that no code reads and are left out. -/
structure Element where
  id : Nat
  textContent : String
  category : String
  title : String
  correct : Bool
  placed : Bool
  incorrect : Bool
deriving DecidableEq, Repr

/-- An element of the node list `dropZones`: the attribute `data-category` of its parent
element (`none` when the attribute is absent) and its children. -/
structure DropZone where
  category : Option String
  children : List Element
deriving DecidableEq, Repr

/-- The callbacks handed to `setTimeout`: the one of `drop` that removes `incorrect`
from the dragged element (500 ms) and the one of `checkGameCompletion` (500 ms). -/
inductive Timer where
  | removeIncorrect (id : Nat)
  | showModal
deriving DecidableEq, Repr

/-- The part of the DOM that `classification-game.js` reads and writes, the pending
timers, and the identity given to the next element that is created. -/
structure State where
  aminoAcidsContainer : List Element
  dropZones : List DropZone
  successModalShow : Bool
  timers : List Timer
  nextId : Nat
deriving DecidableEq, Repr

/-- The two entries `drop` reads from `e.dataTransfer`. -/
structure DataTransfer where
  textPlain : String
  category : String
deriving DecidableEq, Repr

/-- The comparator `() => Math.random() - 0.5` at the outcome `r`: whether its result is
positive, that is whether `r > 1/2`. -/
def comparatorPositive (r : Rnd) : Bool := decide (r.den < 2 * r.num)

/-- One insertion of `Array.prototype.sort`, which the engine provides.  It is modelled
as an insertion sort that calls the comparator once per comparison: `x` moves left past
the elements of the sorted prefix, given from its last element to its first, as long as
the comparator is positive.  `k` counts the outcomes consumed; the result is in the same
reversed order. -/
def sortInsert {α : Type} (rand : Nat → Rnd) (x : α) : List α → Nat → List α × Nat
  | [], k => ([x], k)
  | y :: ys, k =>
      if comparatorPositive (rand k) then
        match sortInsert rand x ys (k + 1) with
        | (inserted, k') => (y :: inserted, k')
      else (x :: y :: ys, k + 1)

/-- The insertions of the elements of `rest` into the sorted prefix `sorted` (kept
reversed), after `k` outcomes have been consumed. -/
def sortLoop {α : Type} (rand : Nat → Rnd) : List α → List α → Nat → List α
  | [], sorted, _ => sorted.reverse
  | x :: rest, sorted, k =>
      match sortInsert rand x sorted k with
      | (inserted, k') => sortLoop rand rest inserted k'

/-- The expression `[...array].sort(() => Math.random() - 0.5)` of line 53. -/
def randomSort {α : Type} (rand : Nat → Rnd) (array : List α) : List α :=
  sortLoop rand array [] 0

/-- The element created for `acid` by the body of the `forEach` of `initGame`
(lines 57–62). -/
def createElement (id : Nat) (acid : AminoAcid) : Element :=
  { id := id, textContent := acid.name, category := acid.category, title := acid.fullName,
    correct := false, placed := false, incorrect := false }

/-- The elements created by `shuffledAminoAcids.forEach` (lines 56–69), the first of them
with identity `id`. -/
def createElements : Nat → List AminoAcid → List Element
  | _, [] => []
  | id, acid :: rest => createElement id acid :: createElements (id + 1) rest

/-- The function `initGame` of `classification-game.js` (lines 43–73).  Pending timers
are not touched: the script never calls `clearTimeout`. -/
def initGame (rand : Nat → Rnd) (s : State) : State :=
  let shuffledAminoAcids := randomSort rand aminoAcids
  { aminoAcidsContainer := createElements s.nextId shuffledAminoAcids
    dropZones := s.dropZones.map fun zone => { zone with children := [] }
    successModalShow := false
    timers := s.timers
    nextId := s.nextId + shuffledAminoAcids.length }

/-- The function `dragStart` (lines 76–82): the data stored in `e.dataTransfer` for the
dragged element. -/
def dragStart (target : Element) : DataTransfer :=
  { textPlain := target.textContent, category := target.category }

/-- Every `.amino-acid` element of the document: the children of `aminoAcidsContainer`
followed by the children of the drop zones. -/
def allElements (s : State) : List Element :=
  s.aminoAcidsContainer ++ s.dropZones.flatMap fun zone => zone.children

/-- The result of `document.querySelectorAll('.amino-acid:not(.placed)')`. -/
def unplacedElements (s : State) : List Element :=
  (allElements s).filter fun el => !el.placed

/-- The result of `document.querySelectorAll('.amino-acid.placed')`. -/
def placedElements (s : State) : List Element :=
  (allElements s).filter fun el => el.placed

/-- The function `checkGameCompletion` (lines 131–141). -/
def checkGameCompletion (s : State) : State :=
  let totalAminoAcids := aminoAcids.length
  let placedAminoAcids := (placedElements s).length
  if placedAminoAcids = totalAminoAcids then
    { s with timers := s.timers ++ [Timer.showModal] }
  else s

/-- Applies `f` to the element object with identity `id`, wherever it is in the
document. -/
def updateElement (id : Nat) (f : Element → Element) (s : State) : State :=
  let update := fun (el : Element) => if el.id = id then f el else el
  { s with aminoAcidsContainer := s.aminoAcidsContainer.map update
           dropZones := s.dropZones.map fun zone =>
             { zone with children := zone.children.map update } }

/-- The call `this.appendChild(el)` for the drop zone at position `zone`: the element
leaves its current parent and becomes the last child of the zone. -/
def appendChild (zone : Nat) (el : Element) (s : State) : State :=
  let remove := fun (children : List Element) => children.filter fun child => child.id ≠ el.id
  let removed := s.dropZones.map fun z => { z with children := remove z.children }
  { s with aminoAcidsContainer := remove s.aminoAcidsContainer
           dropZones := removed.modify (fun z => { z with children := z.children ++ [el] }) zone }

/-- The function `drop` (lines 101–128) for a drop on the zone at position `zone` of
`dropZones` with drag data `dataTransfer`. -/
def drop (s : State) (dataTransfer : DataTransfer) (zone : Nat) : State :=
  match s.dropZones[zone]? with
  | none => s
  | some this =>
      let aminoAcidName := dataTransfer.textPlain
      let aminoAcidCategory := dataTransfer.category
      let dropZoneCategory := this.category
      match (unplacedElements s).find? fun el => el.textContent = aminoAcidName with
      | none => s
      | some draggedElement =>
          if some aminoAcidCategory = dropZoneCategory then
            checkGameCompletion
              (appendChild zone { draggedElement with correct := true, placed := true } s)
          else
            let s1 := updateElement draggedElement.id (fun el => { el with incorrect := true }) s
            { s1 with timers := s1.timers ++ [Timer.removeIncorrect draggedElement.id] }

/-- Runs the pending timer at position `k` and removes it from the pending list. -/
def fireTimer (s : State) (k : Nat) : State :=
  match s.timers[k]? with
  | none => s
  | some timer =>
      let s1 := { s with timers := s.timers.eraseIdx k }
      match timer with
      | Timer.removeIncorrect id => updateElement id (fun el => { el with incorrect := false }) s1
      | Timer.showModal => { s1 with successModalShow := true }

/-- The events of a session between two restarts: the user drags the element that
displays `name` and drops it on the zone at position `zone`; a pending timer fires. -/
inductive Event where
  | dragDrop (name : String) (zone : Nat)
  | fire (k : Nat)
deriving DecidableEq, Repr

/-- The handlers run for one event.  A drag starts on an element of the document, which
`dragStart` reads; with no element of that name there is no drag. -/
def step (s : State) : Event → State
  | Event.dragDrop name zone =>
      match (allElements s).find? fun el => el.textContent = name with
      | none => s
      | some target => drop s (dragStart target) zone
  | Event.fire k => fireTimer s k

/-- The handlers run for a sequence of events, first to last. -/
def run (s : State) (events : List Event) : State := events.foldl step s

/-- Whether handling `e` in state `s` reaches the `setTimeout` of `checkGameCompletion`,
that is whether the success modal is triggered at this event. -/
def triggersSuccess (s : State) : Event → Bool
  | Event.dragDrop name zone =>
      decide ((step s (Event.dragDrop name zone)).timers = s.timers ++ [Timer.showModal])
  | Event.fire _ => false

/-- The number of events of the sequence at which the success modal is triggered. -/
def triggerCount (s : State) : List Event → Nat
  | [] => 0
  | e :: events => (if triggersSuccess s e then 1 else 0) + triggerCount (step s e) events

/-- The entry of `aminoAcids` that an element displays: its text, `data-category` and
`title`. -/
def Element.acid (el : Element) : AminoAcid :=
  { name := el.textContent, category := el.category, fullName := el.title }

/-- The states of a session: the result of `initGame`, called on any state with any
outcomes of the comparator, and the states that events lead to from there. -/
inductive Reachable : State → Prop where
  | init (rand : Nat → Rnd) (s : State) : Reachable (initGame rand s)
  | step {s : State} (e : Event) : Reachable s → Reachable (step s e)

/-- The shape of the document in every state of a session: the item elements display the
entries of `aminoAcids`, each once; they are distinct objects; the children of the pool
are unplaced; the children of a drop zone are placed, `correct` and of the category of
the zone. -/
structure Inv (s : State) : Prop where
  perm : ((allElements s).map Element.acid).Perm aminoAcids
  ids : ((allElements s).map Element.id).Nodup
  pool : ∀ el ∈ s.aminoAcidsContainer, el.placed = false
  zones : ∀ zone ∈ s.dropZones, ∀ el ∈ zone.children,
    el.placed = true ∧ el.correct = true ∧ zone.category = some el.category

/-- The item `acid` sits in a drop zone of its own category, marked `placed` and
`correct`. -/
def PlacedCorrectly (s : State) (acid : AminoAcid) : Prop :=
  ∃ zone ∈ s.dropZones, zone.category = some acid.category ∧
    ∃ el ∈ zone.children, el.acid = acid ∧ el.placed = true ∧ el.correct = true

/-- The names displayed by the placed elements. -/
def placedNames (s : State) : List String := (placedElements s).map Element.textContent

/-- Whether the element object with identity `id` is among the placed elements. -/
def isPlaced (s : State) (id : Nat) : Bool :=
  (placedElements s).any fun el => el.id = id

/-- Whether the event drops the item `acid` on a zone of the category of `acid`. -/
def correctDropOf (zones : List DropZone) (acid : AminoAcid) : Event → Bool
  | Event.dragDrop name zone =>
      decide (name = acid.name ∧ zones[zone]?.map DropZone.category = some (some acid.category))
  | Event.fire _ => false

/-- A page as loaded, before the script runs: five empty drop zones, one for each of the
categories `A` to `E`. -/
def State.loaded : State :=
  { aminoAcidsContainer := []
    dropZones := ["A", "B", "C", "D", "E"].map fun c => { category := some c, children := [] }
    successModalShow := false
    timers := []
    nextId := 0 }

/-- The session after the `initGame()` call of line 157 when every draw is `0`. -/
def State.start : State := initGame (fun _ => Rnd.zero) State.loaded

/-- A session in which the 20 items are dropped correctly, with two wrong drops, a repeated
drop and a timer firing in between. -/
def sampleSession : List Event :=
  [ Event.dragDrop "谷氨酸" 4, Event.dragDrop "甘氨酸" 1, Event.dragDrop "甘氨酸" 0,
    Event.fire 0, Event.dragDrop "丙氨酸" 0, Event.dragDrop "缬氨酸" 0,
    Event.dragDrop "亮氨酸" 0, Event.dragDrop "异亮氨酸" 0, Event.dragDrop "脯氨酸" 0,
    Event.dragDrop "甲硫氨酸" 0, Event.dragDrop "苯丙氨酸" 1, Event.dragDrop "酪氨酸" 3,
    Event.dragDrop "酪氨酸" 1, Event.dragDrop "色氨酸" 1, Event.dragDrop "丝氨酸" 2,
    Event.dragDrop "苏氨酸" 2, Event.dragDrop "甘氨酸" 0, Event.dragDrop "半胱氨酸" 2,
    Event.dragDrop "天冬酰胺" 2, Event.dragDrop "谷氨酰胺" 2, Event.dragDrop "赖氨酸" 3,
    Event.dragDrop "精氨酸" 3, Event.dragDrop "组氨酸" 3, Event.dragDrop "天冬氨酸" 4 ]

/-- The number of entries of `aminoAcids` with category tag `c`. -/
def categoryCount (c : String) : Nat :=
  (aminoAcids.filter fun acid => acid.category = c).length

end ClassificationGame

/-! ## The structure models

The files `alpha-helix.js`, `beta-sheet.js`, `beta-turn.js`, `super-secondary.js` and
`script.js` build scenes with the library three.js and wire a tooltip to them.  Namespace
`Three` holds the part of the library state the scripts read and write; a namespace per
file holds its builders, the positions they compute and its pointer listeners.

* In the namespaces of the files JavaScript numbers are exact rationals, which is enough
  for the counts, the indices and the shape of the formulas; `Math.cos`, `Math.sin` and
  `Math.PI` come from a structure `JSMath`, and `getPoint` of the spline class from a
  structure `CatmullRomCurve3`.  Where the rounding of the arithmetic matters, the
  positions are computed over the doubles of the part `Float64` further down.
* `raycaster.intersectObjects` is an oracle: a pointer move carries the list of the
  positions of the children its ray hits, nearest first.
-/

/-- The functions and the constant of the global `Math` that the model builders call.
JavaScript numbers are idealised as exact rationals, and the structure carries the exact
laws of cosine and sine that the theorems rely on. -/
structure JSMath where
  PI : ℚ
  cos : ℚ → ℚ
  sin : ℚ → ℚ
  cos_zero : cos 0 = 1
  sin_zero : sin 0 = 0
  cos_sq_add_sin_sq : ∀ a : ℚ, cos a ^ 2 + sin a ^ 2 = 1

/-- A structure of type `JSMath`, which shows that its laws are consistent: the rational
parametrisation of the unit circle. -/
def JSMath.rational : JSMath where
  PI := 355 / 113
  cos a := (1 - a ^ 2) / (1 + a ^ 2)
  sin a := 2 * a / (1 + a ^ 2)
  cos_zero := by norm_num
  sin_zero := by norm_num
  cos_sq_add_sin_sq a := by
    have h : (1 + a ^ 2 : ℚ) ≠ 0 := by positivity
    field_simp
    ring

/-- The value of `Math.round(x)`. -/
def jsRound (x : ℚ) : ℤ := ⌊x + 1 / 2⌋

/-- The value of `Math.floor(x)`. -/
def jsFloor (x : ℚ) : ℤ := ⌊x⌋

namespace Three

/-- A `THREE.Vector3`. -/
structure Vector3 where
  x : ℚ
  y : ℚ
  z : ℚ
deriving DecidableEq, Repr

/-- A curve class of the library with its method `getPoint(t)`, for the curve through the
given control points.  The library is taken as given; the structure carries the one law
the theorems rely on: at the parameter `k / (l - 1)` of the `k`-th of `l` control points
the curve passes through that control point, as a Catmull-Rom spline does. -/
structure CatmullRomCurve3 where
  getPoint : List Vector3 → ℚ → Vector3
  getPoint_knot : ∀ (points : List Vector3) (k : Nat) (p : Vector3), points[k]? = some p →
    getPoint points (k / (points.length - 1 : ℚ)) = p

/-- The point at parameter `t` of the polyline through `points`, every segment of which
takes the same share of the parameter interval. -/
def polylinePoint (points : List Vector3) (t : ℚ) : Vector3 :=
  let p := (points.length - 1 : ℚ) * t
  let intPoint := (jsFloor p).toNat
  let weight := p - intPoint
  let p1 := points.getD intPoint { x := 0, y := 0, z := 0 }
  let p2 := points.getD (intPoint + 1) p1
  { x := p1.x + weight * (p2.x - p1.x)
    y := p1.y + weight * (p2.y - p1.y)
    z := p1.z + weight * (p2.z - p1.z) }

/-- A structure of type `CatmullRomCurve3`, which shows that its law is consistent: the
polyline through the control points. -/
def CatmullRomCurve3.polyline : CatmullRomCurve3 where
  getPoint := polylinePoint
  getPoint_knot points k p h := by
    have hlt : k < points.length := (List.getElem?_eq_some_iff.1 h).1
    have hval : (points.length - 1 : ℚ) * (k / (points.length - 1 : ℚ)) = k := by
      by_cases h0 : (points.length - 1 : ℚ) = 0
      · have hl : (points.length : ℚ) = 1 := by linarith
        have hl1 : points.length = 1 := by exact_mod_cast hl
        have hk : k = 0 := by omega
        simp [h0, hk]
      · field_simp
    unfold polylinePoint
    simp only [hval, jsFloor, Int.floor_natCast, Int.toNat_ofNat, sub_self, zero_mul, add_zero]
    rw [List.getD_eq_getElem?_getD, h]
    rfl

/-- The square of the distance of a point from the y axis. -/
def Vector3.distanceSqToYAxis (p : Vector3) : ℚ := p.x ^ 2 + p.z ^ 2

/-- A material object: its constructor, its `color` as a hexadecimal number, its `emissive`
colour (`none` for the line materials, which have no such property) and the property
`originalColor` that the shell of `alpha-helix.js` adds (`none` while undefined).  The
other parameters of the constructors are styling and are left out. -/
structure Material where
  type : String
  color : Nat
  emissive : Option Nat
  originalColor : Option Nat
deriving DecidableEq, Repr

/-- The material made by `new THREE.MeshPhongMaterial({ color })`; its `emissive` colour is
black by default. -/
def meshPhongMaterial (color : Nat) : Material :=
  { type := "MeshPhongMaterial", color := color, emissive := some 0x000000,
    originalColor := none }

/-- The material made by `new THREE.LineBasicMaterial({ color })`. -/
def lineBasicMaterial (color : Nat) : Material :=
  { type := "LineBasicMaterial", color := color, emissive := none, originalColor := none }

/-- The material made by `new THREE.LineDashedMaterial({ color })`. -/
def lineDashedMaterial (color : Nat) : Material :=
  { type := "LineDashedMaterial", color := color, emissive := none, originalColor := none }

/-- The object a builder assigns to `userData`. -/
structure UserData where
  type : String
  info : String
deriving DecidableEq, Repr

/-- A pickable child of the scene, a `THREE.Mesh` or a `THREE.Line`: its constructor, a
reference to its material (the position of the material among the material objects), its
`userData` (`none` for the empty object it has by default) and the property `currentHex`
that the shells add (`none` while undefined).  The geometry is given by the functions of
the builders that compute positions. -/
structure Object3D where
  type : String
  material : Nat
  userData : Option UserData
  currentHex : Option Nat
deriving DecidableEq, Repr

/-- The value of `object.userData && object.userData.info` when it is truthy, that is a
non-empty description. -/
def Object3D.info (object : Object3D) : Option String :=
  match object.userData with
  | some userData => if userData.info = "" then none else some userData.info
  | none => none

/-- The pickable children of a `THREE.Scene`, in the order of the `scene.add` calls, and
the material objects they refer to.  Lights are children too, but a ray never hits them. -/
structure Scene where
  children : List Object3D
  materials : List Material
deriving DecidableEq, Repr

/-- A scene without pickable children. -/
def Scene.empty : Scene := { children := [], materials := [] }

/-- The call `scene.add(object)` for a new object with an existing material. -/
def Scene.add (scene : Scene) (type : String) (material : Nat)
    (userData : Option UserData) : Scene :=
  { scene with children := scene.children ++
      [{ type := type, material := material, userData := userData, currentHex := none }] }

/-- The call `scene.add(object)` for a new object with a material made for it. -/
def Scene.addNew (scene : Scene) (type : String) (material : Material)
    (userData : Option UserData) : Scene :=
  { children := scene.children ++
      [{ type := type, material := scene.materials.length, userData := userData,
         currentHex := none }]
    materials := scene.materials ++ [material] }

/-- The state of a viewport shell: the scene, the style `display` and the text of the
tooltip element, and the variable `intersectedObject` (`hoveredObject` in `beta-turn.js`
and `super-secondary.js`), a reference to a child of the scene by its position.  The
position of the tooltip is styling and is left out. -/
structure Viewport where
  scene : Scene
  tooltipDisplay : String
  tooltipTextContent : String
  intersectedObject : Option Nat
deriving DecidableEq, Repr

/-- The state of the shell when `setupThreeJSEnvironment` returns and the builder has
filled the scene. -/
def Viewport.ofScene (scene : Scene) : Viewport :=
  { scene := scene, tooltipDisplay := "none", tooltipTextContent := "",
    intersectedObject := none }

end Three

namespace AlphaHelix
open Three

/-- The constant `radius` of `createAlphaHelix` (line 201). -/
def radius : ℚ := 2.3

/-- The constant `aminoAcidsPerTurn` (line 202). -/
def aminoAcidsPerTurn : ℚ := 3.6

/-- The constant `pitchPerTurn` (line 203). -/
def pitchPerTurn : ℚ := 5.4

/-- The constant `aminoAcidHeight` (line 204). -/
def aminoAcidHeight : ℚ := 1.5

/-- The constant `totalAminoAcids` (line 205). -/
def totalAminoAcids : Nat := 18

/-- The constant `totalHeight` (line 206). -/
def totalHeight : ℚ := totalAminoAcids * aminoAcidHeight

/-- The constant `turns` (line 207). -/
def turns : ℚ := totalAminoAcids / aminoAcidsPerTurn

/-- The constant `segments` (line 208). -/
def segments : Nat := totalAminoAcids * 10

/-- The angle computed on line 226 for the loop variable `i`. -/
def backboneAngle (M : JSMath) (i : Nat) : ℚ :=
  let t : ℚ := i / segments
  2 * M.PI * turns * t

/-- The point pushed to `backbonePoints` by the body of the loop of lines 224–231 for the
loop variable `i`, over exact rationals; `Float64.AlphaHelix.backbonePoint` is the point
in double arithmetic. -/
def backbonePoint (M : JSMath) (i : Nat) : Vector3 :=
  let t : ℚ := i / segments
  let angle := backboneAngle M i
  let x := radius * M.cos angle
  let y := totalHeight * (t - 0.5)
  let z := radius * M.sin angle
  { x := x, y := y, z := z }

/-- The array `backbonePoints` after the loop `for (let i = 0; i <= segments; i++)`. -/
def backbonePoints (M : JSMath) : List Vector3 :=
  (List.range (segments + 1)).map (backbonePoint M)

/-- The constant `segmentsPerAminoAcid` (line 244). -/
def segmentsPerAminoAcid : ℚ := segments / totalAminoAcids

/-- The curve parameter `t` of residue `i` (lines 246–247). -/
def residueParameter (i : Nat) : ℚ :=
  let segmentIndex := jsRound (i * segmentsPerAminoAcid)
  segmentIndex / segments

/-- The position of residue `i`: `backboneCurve.getPoint(t)` (line 248), copied to
`residue.position` (line 252), over exact rationals; `Float64.AlphaHelix.residuePosition`
is the position in double arithmetic. -/
def residuePosition (C : CatmullRomCurve3) (M : JSMath) (i : Nat) : Vector3 :=
  C.getPoint (backbonePoints M) (residueParameter i)

/-- The positions of the array `residues` after the loop of lines 245–259. -/
def residuePositions (C : CatmullRomCurve3) (M : JSMath) : List Vector3 :=
  (List.range totalAminoAcids).map (residuePosition C M)

/-- The parameter `t` of the side chain of residue `i` (line 264). -/
def sidechainParameter (i : Nat) : ℚ := i / totalAminoAcids

/-- The angle of the side chain of residue `i` (line 265). -/
def sidechainAngle (M : JSMath) (i : Nat) : ℚ := 2 * M.PI * turns * sidechainParameter i

/-- The function `createAlphaHelix` of `alpha-helix.js` (lines 199–317): the objects it
adds to the scene, with the five materials it shares among them. -/
def createAlphaHelix (scene : Scene) : Scene :=
  let backboneMaterial := scene.materials.length
  let residueMaterial := scene.materials.length + 1
  let sidechainMaterial := scene.materials.length + 2
  let hbondMaterial := scene.materials.length + 3
  let axisMaterial := scene.materials.length + 4
  let scene0 : Scene :=
    { scene with materials := scene.materials ++
        [meshPhongMaterial 0x3498db, meshPhongMaterial 0xe74c3c, meshPhongMaterial 0x2ecc71,
         lineDashedMaterial 0xf39c12, meshPhongMaterial 0x9b59b6] }
  let scene1 := scene0.add "Mesh" backboneMaterial
    (some { type := "backbone",
            info := "肽链骨架：由α碳原子、氨基和羧基组成的主链，形成螺旋结构的基本框架。" })
  let scene2 := (List.range totalAminoAcids).foldl
    (fun scene i => scene.add "Mesh" residueMaterial
      (some { type := "residue",
              info := "氨基酸残基 " ++ toString (i + 1) ++
                "：构成蛋白质的基本单元，在α螺旋中每3.6个残基完成一个完整螺旋周期。" }))
    scene1
  let residuesLength := totalAminoAcids
  let scene3 := (List.range residuesLength).foldl
    (fun scene _ => scene.add "Mesh" sidechainMaterial
      (some { type := "sidechain",
              info := "氨基酸侧链：R基团，指向螺旋外侧，决定了氨基酸的特性和功能。" }))
    scene2
  let scene4 := ((List.range residuesLength).drop 4).foldl
    (fun scene i => scene.add "Line" hbondMaterial
      (some { type := "hbond",
              info := "氢键：氨基酸" ++ toString (i - 3) ++ "的C=O与氨基酸" ++ toString (i + 1) ++
                "的N-H形成氢键，稳定α螺旋结构。" }))
    scene3
  scene4.add "Mesh" axisMaterial
    (some { type := "axis",
            info := "螺旋轴：α螺旋的中心轴，每3.6个氨基酸完成一圈，螺距为0.54nm，每个氨基酸轴向高度0.15nm。" })

/-- The first part of the `mousemove` listener (lines 91–97): the highlighted object gets
the saved colour back, if a truthy one is saved, and the tooltip is hidden. -/
def resetHighlight (v : Viewport) : Viewport :=
  match v.intersectedObject with
  | none => v
  | some intersectedObject =>
      let materials :=
        match v.scene.children[intersectedObject]? with
        | some object =>
            v.scene.materials.modify
              (fun material =>
                match material.originalColor with
                | some originalColor =>
                    if originalColor = 0 then material
                    else { material with color := originalColor }
                | none => material)
              object.material
        | none => v.scene.materials
      { v with scene := { v.scene with materials := materials }
               intersectedObject := none
               tooltipDisplay := "none" }

/-- The `mousemove` listener of `alpha-helix.js` (lines 78–120) for a pointer move whose
ray hits the children at the positions `intersects`, nearest first. -/
def mousemove (v : Viewport) (intersects : List Nat) : Viewport :=
  let v1 := resetHighlight v
  match intersects with
  | [] => v1
  | first :: _ =>
      match v1.scene.children[first]? with
      | none => v1
      | some object =>
          match object.info with
          | none => v1
          | some info =>
              let materials := v1.scene.materials.modify
                (fun material =>
                  let saved :=
                    match material.originalColor with
                    | some originalColor =>
                        if originalColor = 0 then some material.color else some originalColor
                    | none => some material.color
                  { material with originalColor := saved, color := 0xffff00 })
                object.material
              { scene := { v1.scene with materials := materials }
                tooltipDisplay := "block"
                tooltipTextContent := info
                intersectedObject := some first }

/-- Whether the child at position `i` is shown highlighted: its material has the yellow
colour `0xffff00`. -/
def isHighlighted (v : Viewport) (i : Nat) : Bool :=
  match v.scene.children[i]? with
  | some object =>
      match v.scene.materials[object.material]? with
      | some material => material.color = 0xffff00
      | none => false
  | none => false

/-- The viewport of `alpha-helix.js` after `initAlphaHelixModel`. -/
def viewport : Viewport := Viewport.ofScene (createAlphaHelix Scene.empty)

end AlphaHelix

namespace BetaSheet
open Three

/-- The function `createBetaSheet` of `beta-sheet.js` (lines 191–325): the objects it adds
to the scene, each with a material of its own. -/
def createBetaSheet (scene : Scene) : Scene :=
  let strands := 4
  let scene1 := (List.range strands).foldl
    (fun scene i =>
      let sceneStrand := scene.addNew "Mesh"
        (meshPhongMaterial (if i % 2 = 0 then 0x3f51b5 else 0x1a237e))
        (some { type := "strand",
                info := "β折叠链：" ++ (if i % 2 = 0 then "正向" else "反向") ++
                  "排列的肽链，呈伸展状态。" })
      let residuesPerStrand := 8
      (List.range residuesPerStrand).foldl
        (fun scene j =>
          let sceneResidue := scene.addNew "Mesh" (meshPhongMaterial 0xe74c3c)
            (some { type := "residue",
                    info := "氨基酸残基：构成β折叠的基本单元，相邻残基间距约为0.35nm。" })
          if 0 < j ∧ j < residuesPerStrand - 1 then
            sceneResidue.addNew "Mesh" (meshPhongMaterial 0x2ecc71)
              (some { type := "sidechain",
                      info := "氨基酸侧链：R基团，在β折叠中交替朝向折叠平面的上下两侧。" })
          else sceneResidue)
        sceneStrand)
    scene
  (List.range (strands - 1)).foldl
    (fun scene _ =>
      let hbondsPerStrand := 4
      (List.range hbondsPerStrand).foldl
        (fun scene _ => scene.addNew "Line" (lineDashedMaterial 0xf39c12)
          (some { type := "hbond",
                  info := "氢键：在β折叠中，相邻肽链间通过氢键连接稳定结构。" }))
        scene)
    scene1

end BetaSheet

namespace BetaTurn
open Three

/-- The colour of the residue at position `i` of the turn (lines 82–94). -/
def residueColor (i : Nat) : Nat :=
  if i = 0 then 0x4caf50 else if i = 1 then 0xe91e63 else if i = 2 then 0xff9800
  else 0x2196f3

/-- The description of the residue at position `i` of the turn (lines 82–94). -/
def residueInfo (i : Nat) : String :=
  if i = 0 then "第一个残基：通常提供C=O基团形成氢键"
  else if i = 1 then "第二个残基：通常是脯氨酸，其刚性环状结构有助于形成转角"
  else if i = 2 then "第三个残基：通常是甘氨酸，其灵活性有助于形成转角"
  else "第四个残基：通常提供N-H基团形成氢键"

/-- The function `createBetaTurn` of `beta-turn.js` (lines 40–147): the objects it adds to
the scene, each with a material of its own. -/
def createBetaTurn (scene : Scene) : Scene :=
  let scene1 := scene.addNew "Line" (lineBasicMaterial 0x3f51b5)
    (some { type := "backbone",
            info := "β转角骨架：连接两个β链的转角结构，通常由4个氨基酸残基组成" })
  let turnResidues := 4
  let scene2 := (List.range turnResidues).foldl
    (fun scene i =>
      let sceneResidue := scene.addNew "Mesh" (meshPhongMaterial (residueColor i))
        (some { type := "residue", info := residueInfo i })
      if i ≠ 2 then
        sceneResidue.addNew "Mesh" (meshPhongMaterial 0xffffff)
          (some { type := "sideChain",
                  info := if i = 1 then "脯氨酸侧链：形成环状结构，限制了主链的旋转自由度"
                          else "氨基酸侧链：R基团，决定了氨基酸的特性" })
      else sceneResidue)
    scene1
  scene2.addNew "Line" (lineDashedMaterial 0xffeb3b)
    (some { type := "hydrogenBond",
            info := "氢键：连接第一个残基的C=O与第四个残基的N-H，稳定β转角结构" })

/-- The first part of the `mousemove` listener (lines 223–229): the emissive colour of the
hovered object is set back to `currentHex` and the tooltip is hidden.  `setHex` of an
undefined value gives black. -/
def resetHighlight (v : Viewport) : Viewport :=
  match v.intersectedObject with
  | none => v
  | some hoveredObject =>
      let materials :=
        match v.scene.children[hoveredObject]? with
        | some object =>
            v.scene.materials.modify
              (fun material =>
                if material.emissive.isSome then
                  { material with emissive := some (object.currentHex.getD 0) }
                else material)
              object.material
        | none => v.scene.materials
      { v with scene := { v.scene with materials := materials }
               intersectedObject := none
               tooltipDisplay := "none" }

/-- The highlighting of lines 238–242 with the emissive colour `hex`, for the object at
position `first`: when its material has an emissive colour, the object becomes the hovered
object, `currentHex` saves that colour and the material gets `hex`. -/
def highlight (hex : Nat) (first : Nat) (object : Object3D) (v : Viewport) : Viewport :=
  match v.scene.materials[object.material]? with
  | some material =>
      match material.emissive with
      | some emissive =>
          { v with
            scene :=
              { children := v.scene.children.modify
                  (fun object => { object with currentHex := some emissive }) first
                materials := v.scene.materials.modify
                  (fun material => { material with emissive := some hex }) object.material }
            intersectedObject := some first }
      | none => v
  | none => v

/-- The `mousemove` listener of `beta-turn.js` (lines 212–255) for a pointer move whose ray
hits the children at the positions `intersects`, nearest first. -/
def mousemove (v : Viewport) (intersects : List Nat) : Viewport :=
  let v1 := resetHighlight v
  match intersects with
  | [] => v1
  | first :: _ =>
      match v1.scene.children[first]? with
      | none => v1
      | some object =>
          match object.info with
          | none => v1
          | some info =>
              let v2 := highlight 0x333333 first object v1
              { v2 with tooltipTextContent := info, tooltipDisplay := "block" }

/-- The `mouseleave` listener of `beta-turn.js` (lines 258–264). -/
def mouseleave (v : Viewport) : Viewport :=
  let v1 :=
    match v.intersectedObject with
    | none => v
    | some hoveredObject =>
        match v.scene.children[hoveredObject]? with
        | some object =>
            match v.scene.materials[object.material]? with
            | some material =>
                if material.emissive.isSome then
                  { v with
                    scene := { v.scene with
                      materials := v.scene.materials.modify
                        (fun material =>
                          { material with emissive := some (object.currentHex.getD 0) })
                        object.material }
                    intersectedObject := none }
                else v
            | none => v
        | none => v
  { v1 with tooltipDisplay := "none" }

/-- Whether the child at position `i` is shown highlighted: its material has the emissive
colour `0x333333`. -/
def isHighlighted (v : Viewport) (i : Nat) : Bool :=
  match v.scene.children[i]? with
  | some object =>
      match v.scene.materials[object.material]? with
      | some material => material.emissive = some 0x333333
      | none => false
  | none => false

/-- The viewport of `beta-turn.js` after `initBetaTurnModel`. -/
def viewport : Viewport := Viewport.ofScene (createBetaTurn Scene.empty)

end BetaTurn

namespace SuperSecondary
open Three

/-- The constant `alphaHeight` of `createSuperSecondaryStructure` (line 44). -/
def alphaHeight : ℚ := 6

/-- The constant `alphaRadius` (line 45). -/
def alphaRadius : ℚ := 1

/-- The constant `turns` (line 68). -/
def turns : ℚ := 2

/-- The constant `segments` (line 69). -/
def segments : Nat := 50

/-- The point pushed to `helixPoints` by the body of the loop of lines 71–79 for the loop
variable `i`.  The constant `z = alphaRadius * Math.cos(angle)` of line 76 is computed and
not used, so it is left out here: the vector is built from `x`, `y` and `x2`. -/
def helixPoint (M : JSMath) (i : Nat) : Vector3 :=
  let t : ℚ := i / segments
  let angle := 2 * M.PI * turns * t
  let x : ℚ := 0
  let y := alphaHeight * (t - 0.5)
  let x2 := alphaRadius * M.sin angle
  { x := x, y := y, z := x2 }

/-- The array `helixPoints` after the loop `for (let i = 0; i <= segments; i++)`. -/
def helixPoints (M : JSMath) : List Vector3 :=
  (List.range (segments + 1)).map (helixPoint M)

/-- The function `createSuperSecondaryStructure` of `super-secondary.js` (lines 40–191):
the objects it adds to the scene, each with a material of its own. -/
def createSuperSecondaryStructure (scene : Scene) : Scene :=
  let scene1 := scene.addNew "Line" (lineBasicMaterial 0x1a237e)
    (some { type := "betaStrand",
            info := "β折叠链：第一条β链，通常与第二条β链平行排列，形成βαβ单元" })
  let scene2 := scene1.addNew "Line" (lineBasicMaterial 0x3f51b5)
    (some { type := "alphaHelix",
            info := "α螺旋：连接两条β链的螺旋结构，是βαβ单元的核心组成部分" })
  let scene3 := scene2.addNew "Line" (lineBasicMaterial 0x1a237e)
    (some { type := "betaStrand",
            info := "β折叠链：第二条β链，通常与第一条β链平行排列，形成βαβ单元" })
  let scene4 := scene3.addNew "Line" (lineDashedMaterial 0x757575)
    (some { type := "connector",
            info := "连接肽：连接β折叠和α螺旋的短肽段，通常没有规则的二级结构" })
  let scene5 := scene4.addNew "Line" (lineDashedMaterial 0x757575)
    (some { type := "connector",
            info := "连接肽：连接α螺旋和β折叠的短肽段，通常没有规则的二级结构" })
  let positions : List ℚ := [0.3, 0.7]
  let scene6 := (List.range 2).foldl
    (fun scene _ =>
      positions.foldl
        (fun scene _ => scene.addNew "Mesh" (meshPhongMaterial 0x4caf50)
          (some { type := "residue",
                  info := "β折叠残基：在β链上的氨基酸残基，通常呈伸展构象" }))
        scene)
    scene5
  let helixPositions : List ℚ := [0.25, 0.5, 0.75]
  helixPositions.foldl
    (fun scene _ => scene.addNew "Mesh" (meshPhongMaterial 0xff9800)
      (some { type := "residue",
              info := "α螺旋残基：在α螺旋上的氨基酸残基，呈螺旋排列" }))
    scene6

/-- The `mousemove` listener of `super-secondary.js` (lines 258–301), which has the text of
the one of `beta-turn.js`. -/
def mousemove (v : Viewport) (intersects : List Nat) : Viewport :=
  let v1 := BetaTurn.resetHighlight v
  match intersects with
  | [] => v1
  | first :: _ =>
      match v1.scene.children[first]? with
      | none => v1
      | some object =>
          match object.info with
          | none => v1
          | some info =>
              let v2 := BetaTurn.highlight 0x333333 first object v1
              { v2 with tooltipTextContent := info, tooltipDisplay := "block" }

/-- The viewport of `super-secondary.js` after `initSuperSecondaryModel`. -/
def viewport : Viewport := Viewport.ofScene (createSuperSecondaryStructure Scene.empty)

end SuperSecondary

namespace Script
open Three

namespace AlphaHelix

/-- The constant `radius` of `createAlphaHelix` in `script.js` (line 329). -/
def radius : ℚ := 2

/-- The constant `height` (line 330). -/
def height : ℚ := 10

/-- The constant `turns` (line 331). -/
def turns : ℚ := 3

/-- The constant `segments` (line 332). -/
def segments : Nat := 100

/-- The constant `residuesPerTurn` (line 353). -/
def residuesPerTurn : ℚ := 3.6

/-- The constant `totalResidues` (line 354). -/
def totalResidues : Nat := (jsFloor (turns * residuesPerTurn)).toNat

/-- The parameter `t` of residue `i` (line 357). -/
def residueParameter (i : Nat) : ℚ := i / totalResidues

/-- The angle of residue `i` (line 358). -/
def residueAngle (M : JSMath) (i : Nat) : ℚ := 2 * M.PI * turns * residueParameter i

/-- The position of residue `i` (lines 359–361 and 367). -/
def residuePosition (M : JSMath) (i : Nat) : Vector3 :=
  let t := residueParameter i
  let angle := residueAngle M i
  let x := radius * M.cos angle
  let y := height * (t - 0.5)
  let z := radius * M.sin angle
  { x := x, y := y, z := z }

end AlphaHelix

/-- The function `createAlphaHelix` of `script.js` (lines 327–448): the objects it adds to
the scene, each with a material of its own. -/
def createAlphaHelix (scene : Scene) : Scene :=
  let scene1 := scene.addNew "Line" (lineBasicMaterial 0x1a237e)
    (some { type := "backbone",
            info := "螺旋骨架：右手螺旋结构，每3.6个氨基酸完成一个完整螺旋周期" })
  let scene2 := (List.range AlphaHelix.totalResidues).foldl
    (fun scene i =>
      let sceneResidue := scene.addNew "Mesh" (meshPhongMaterial 0x3f51b5)
        (some { type := "residue", info := "氨基酸残基：每个螺旋周期包含3.6个氨基酸残基" })
      if i % 2 = 0 then
        sceneResidue.addNew "Mesh" (meshPhongMaterial 0xe91e63)
          (some { type := "sidechain", info := "侧链：氨基酸的R基团指向螺旋外侧" })
      else sceneResidue)
    scene1
  let scene3 := (List.range (AlphaHelix.totalResidues - 4)).foldl
    (fun scene _ => scene.addNew "Line" (lineDashedMaterial 0x00bcd4)
      (some { type := "hbond",
              info := "氢键：每个氨基酸的C=O与其前第4位的N-H形成氢键，稳定螺旋结构" }))
    scene2
  scene3.addNew "Line" (lineDashedMaterial 0x757575)
    (some { type := "axis",
            info := "螺旋轴：α螺旋围绕中心轴旋转，每个完整螺旋的轴向距离为0.54nm" })

/-- The function `createBetaSheet` of `script.js` (lines 454–562): the objects it adds to
the scene, each with a material of its own.  No `userData` is assigned. -/
def createBetaSheet (scene : Scene) : Scene :=
  let strands := 4
  let scene1 := (List.range strands).foldl
    (fun scene i =>
      let sceneStrand := scene.addNew "Mesh"
        (meshPhongMaterial (if i % 2 = 0 then 0x3f51b5 else 0x1a237e)) none
      let residuesPerStrand := 8
      (List.range residuesPerStrand).foldl
        (fun scene _ =>
          let sceneResidue := scene.addNew "Mesh" (meshPhongMaterial 0x4caf50) none
          sceneResidue.addNew "Mesh" (meshPhongMaterial 0xff9800) none)
        sceneStrand)
    scene
  (List.range (strands - 1)).foldl
    (fun scene _ =>
      let residuesPerStrand := 8
      ((List.range residuesPerStrand).filter fun j => j % 2 = 0).foldl
        (fun scene _ => scene.addNew "Line" (lineDashedMaterial 0x00bcd4) none)
        scene)
    scene1

/-- The colour of the residue at position `i` of the turn in `script.js` (lines 630–637). -/
def residueColor (i : Nat) : Nat :=
  if i = 1 then 0xe91e63 else if i = 2 then 0x9c27b0 else 0x3f51b5

/-- The function `createBetaTurn` of `script.js` (lines 594–706): the objects it adds to
the scene, each with a material of its own.  No `userData` is assigned. -/
def createBetaTurn (scene : Scene) : Scene :=
  let scene1 := scene.addNew "Line" (lineBasicMaterial 0x3f51b5) none
  let turnResidues := 4
  let scene2 := (List.range turnResidues).foldl
    (fun scene i => scene.addNew "Mesh" (meshPhongMaterial (residueColor i)) none)
    scene1
  let scene3 := scene2.addNew "Line" (lineDashedMaterial 0x00bcd4) none
  let scene4 := scene3.addNew "Line" (lineBasicMaterial 0x1a237e) none
  let scene5 := scene4.addNew "Line" (lineBasicMaterial 0x1a237e) none
  let scene6 := (List.range 3).foldl
    (fun scene _ => scene.addNew "Mesh" (meshPhongMaterial 0x3f51b5) none)
    scene5
  (List.range 3).foldl
    (fun scene _ => scene.addNew "Mesh" (meshPhongMaterial 0x3f51b5) none)
    scene6

namespace SuperSecondary

/-- The constant `alphaHeight` of `createSuperSecondaryStructure` in `script.js`
(line 716). -/
def alphaHeight : ℚ := 6

/-- The constant `alphaRadius` (line 717). -/
def alphaRadius : ℚ := 1

/-- The constant `turns` (line 736). -/
def turns : ℚ := 2

/-- The constant `segments` (line 737). -/
def segments : Nat := 50

/-- The point pushed to `helixPoints` by the body of the loop of lines 739–747 for the
loop variable `i`.  The constant `z = alphaRadius * Math.cos(angle)` of line 744 is
computed and not used, so it is left out here: the vector is built from `x`, `y` and
`x2`. -/
def helixPoint (M : JSMath) (i : Nat) : Vector3 :=
  let t : ℚ := i / segments
  let angle := 2 * M.PI * turns * t
  let x : ℚ := 0
  let y := alphaHeight * (t - 0.5)
  let x2 := alphaRadius * M.sin angle
  { x := x, y := y, z := x2 }

/-- The array `helixPoints` after the loop `for (let i = 0; i <= segments; i++)`. -/
def helixPoints (M : JSMath) : List Vector3 :=
  (List.range (segments + 1)).map (helixPoint M)

/-- The constant `residuesPerTurn` (line 830). -/
def residuesPerTurn : ℚ := 3.6

/-- The constant `totalResidues` (line 831). -/
def totalResidues : Nat := (jsFloor (turns * residuesPerTurn)).toNat

end SuperSecondary

/-- The function `createSuperSecondaryStructure` of `script.js` (lines 712–847): the
objects it adds to the scene, each with a material of its own.  No `userData` is
assigned. -/
def createSuperSecondaryStructure (scene : Scene) : Scene :=
  let scene1 := scene.addNew "Line" (lineBasicMaterial 0x1a237e) none
  let scene2 := scene1.addNew "Line" (lineBasicMaterial 0x3f51b5) none
  let scene3 := scene2.addNew "Line" (lineBasicMaterial 0x1a237e) none
  let scene4 := scene3.addNew "Line" (lineDashedMaterial 0x757575) none
  let scene5 := scene4.addNew "Line" (lineDashedMaterial 0x757575) none
  let scene6 := (List.range 5).foldl
    (fun scene _ =>
      let sceneResidue1 := scene.addNew "Mesh" (meshPhongMaterial 0x3f51b5) none
      sceneResidue1.addNew "Mesh" (meshPhongMaterial 0x3f51b5) none)
    scene5
  (List.range SuperSecondary.totalResidues).foldl
    (fun scene _ => scene.addNew "Mesh" (meshPhongMaterial 0x3f51b5) none)
    scene6

/-- The `mousemove` listener of `script.js` (lines 196–236) for a pointer move whose ray
hits the children at the positions `intersects`, nearest first.  The first part is the one
of `beta-turn.js`; the nearest object is assigned to `intersectedObject` before its
description is tested. -/
def mousemove (v : Viewport) (intersects : List Nat) : Viewport :=
  let v1 := BetaTurn.resetHighlight v
  match intersects with
  | [] => v1
  | first :: _ =>
      let v2 := { v1 with intersectedObject := some first }
      match v2.scene.children[first]? with
      | none => v2
      | some object =>
          match object.info with
          | none => v2
          | some info =>
              let v3 :=
                match v2.scene.materials[object.material]? with
                | some material =>
                    match material.emissive with
                    | some emissive =>
                        { v2 with
                          scene :=
                            { children := v2.scene.children.modify
                                (fun object => { object with currentHex := some emissive })
                                first
                              materials := v2.scene.materials.modify
                                (fun material => { material with emissive := some 0x555555 })
                                object.material } }
                    | none => v2
                | none => v2
              { v3 with tooltipTextContent := info, tooltipDisplay := "block" }

/-- The `mouseout` listener of `script.js` (lines 239–245). -/
def mouseout (v : Viewport) : Viewport :=
  { BetaTurn.resetHighlight v with intersectedObject := none, tooltipDisplay := "none" }

/-- Whether the child at position `i` is shown highlighted: its material has the emissive
colour `0x555555`. -/
def isHighlighted (v : Viewport) (i : Nat) : Bool :=
  match v.scene.children[i]? with
  | some object =>
      match v.scene.materials[object.material]? with
      | some material => material.emissive = some 0x555555
      | none => false
  | none => false

/-- The viewport of the α-helix model of `script.js` after `initAlphaHelixModel`. -/
def alphaHelixViewport : Viewport := Viewport.ofScene (createAlphaHelix Scene.empty)

end Script

/-- The nearest primitive of a pick list that has a non-empty description, in the words of
the specification: the first position of the list whose child has one. -/
def nearestDescribed (v : Three.Viewport) (intersects : List Nat) : Option Nat :=
  intersects.find? (fun i =>
    match v.scene.children[i]? with
    | some object => object.info.isSome
    | none => false)

namespace MemoryGame

/-- The number of tiles of the grid that do not carry the class `matched`. -/
def unmatchedCount (s : State) : Nat :=
  (s.grid.filter fun tile => !tile.matched).length

/-- The loop of `shuffleArray` on a store of array objects: the swaps write to the array
object with reference `newArray`. -/
def shuffleLoopInStore {α : Type} (rand : Nat → Rnd) (newArray : Nat) :
    Nat → Nat → List (List α) → List (List α)
  | 0, _, store => store
  | i + 1, k, store =>
      let j := (rand k).floorMul (i + 1 + 1)
      shuffleLoopInStore rand newArray i (k + 1)
        (store.modify (fun a => swap a (i + 1) j) newArray)

/-- The function `shuffleArray` on a store of array objects, where `array` is a reference
to the argument: `[...array]` allocates the copy `newArray` behind the arrays that exist,
the swaps of the loop write to that copy, and the reference to it is returned together
with the store. -/
def shuffleArrayInStore {α : Type} (rand : Nat → Rnd) (store : List (List α)) (array : Nat) :
    List (List α) × Nat :=
  let newArray := store.length
  let store1 := store ++ [store.getD array []]
  (shuffleLoopInStore rand newArray ((store.getD array []).length - 1) 0 store1, newArray)

/-- The pairs `(i, j)` of the loop variable and of the index `j` chosen on line 257, for
the iterations of the loop of `shuffleArray` entered with loop variable `i` and with `k`
outcomes of the stream already consumed. -/
def shuffleChoices (rand : Nat → Rnd) : Nat → Nat → List (Nat × Nat)
  | 0, _ => []
  | i + 1, k =>
      let j := (rand k).floorMul (i + 1 + 1)
      (i + 1, j) :: shuffleChoices rand i (k + 1)

end MemoryGame

namespace AlphaHelix
open Three

/-- A hydrogen bond of `alpha-helix.js`: the two points handed to `setFromPoints` and the
description of its `userData`. -/
structure HydrogenBond where
  start : Vector3
  end_ : Vector3
  info : String
deriving DecidableEq, Repr

/-- The body of the loop of lines 291–307 for the loop variable `i`: the bond between
`residues[i - 4]` and `residues[i]`.  Reading the position of an element that the array
does not have throws. -/
def hydrogenBond (residues : List Vector3) (i : Nat) : Option HydrogenBond :=
  match residues[i - 4]?, residues[i]? with
  | some donorResidue, some acceptorResidue =>
      some { start := donorResidue
             end_ := acceptorResidue
             info := "氢键：氨基酸" ++ toString (i - 3) ++ "的C=O与氨基酸" ++ toString (i + 1) ++
               "的N-H形成氢键，稳定α螺旋结构。" }
  | _, _ => none

/-- The bonds made by `n` iterations of the loop of lines 291–307, the first with loop
variable `i`. -/
def hydrogenBondLoop (residues : List Vector3) : Nat → Nat → Option (List HydrogenBond)
  | 0, _ => some []
  | n + 1, i =>
      match hydrogenBond residues i with
      | none => none
      | some hbond => (hydrogenBondLoop residues n (i + 1)).map fun hbonds => hbond :: hbonds

/-- The bonds made by the loop `for (let i = 4; i < residues.length; i++)`. -/
def hydrogenBonds (residues : List Vector3) : Option (List HydrogenBond) :=
  hydrogenBondLoop residues (residues.length - 4) 4

end AlphaHelix

namespace BetaSheet
open Three

/-- The constant `width` of `createBetaSheet` (line 192). -/
def width : ℚ := 8

/-- The constant `strands` (line 195). -/
def strands : Nat := 4

/-- The constant `strandGap` (line 196). -/
def strandGap : ℚ := 1.2

/-- The constant `residuesPerStrand` (line 230). -/
def residuesPerStrand : Nat := 8

/-- The constant `residueSpacing` (line 231). -/
def residueSpacing : ℚ := width / (residuesPerStrand - 1)

/-- The constant `z` of strand `i` (line 202). -/
def strandZ (i : Nat) : ℚ := (i - (strands - 1) / 2) * strandGap

/-- The third argument of the call of `applyRippleEffect` for strand `i` (line 226). -/
def reverse (i : Nat) : Bool := i % 2 = 1

/-- The constant `x` of residue `j` (line 234). -/
def residueX (j : Nat) : ℚ := (j * residueSpacing) - (width / 2)

/-- The constant `rippleY` of residue `j` (line 237). -/
def residueRippleY (M : JSMath) (j : Nat) : ℚ :=
  M.sin (j * M.PI / (residuesPerStrand - 1)) * 0.5

/-- The position of residue `j` of strand `i` (line 252). -/
def residuePosition (M : JSMath) (i j : Nat) : Vector3 :=
  { x := residueX j, y := residueRippleY M j, z := strandZ i }

/-- The body of the loop of `applyRippleEffect` (lines 334–343): the value written with
`setY` for a vertex whose x coordinate is `x`. -/
def rippleHeight (M : JSMath) (width : ℚ) (reverse : Bool) (x : ℚ) : ℚ :=
  let normalizedX := (x + width / 2) / width
  let rippleY := M.sin (normalizedX * M.PI) * 0.5
  if reverse then -rippleY else rippleY

/-- The function `applyRippleEffect` (lines 327–348) on the vertices of the geometry of the
strand. -/
def applyRippleEffect (M : JSMath) (positionAttribute : List Vector3) (width : ℚ)
    (reverse : Bool) : List Vector3 :=
  positionAttribute.map fun vertex => { vertex with y := rippleHeight M width reverse vertex.x }

end BetaSheet

namespace Script.AlphaHelix
open Three

/-- The array `hbondPoints` made by the body of the loop of lines 397–429 for the loop
variable `i`. -/
def hbondPoints (M : JSMath) (i : Nat) : List Vector3 :=
  let t1 : ℚ := i / totalResidues
  let t2 : ℚ := (i + 4) / totalResidues
  let angle1 := 2 * M.PI * turns * t1
  let angle2 := 2 * M.PI * turns * t2
  let x1 := radius * M.cos angle1
  let y1 := height * (t1 - 0.5)
  let z1 := radius * M.sin angle1
  let x2 := radius * M.cos angle2
  let y2 := height * (t2 - 0.5)
  let z2 := radius * M.sin angle2
  [{ x := x1, y := y1, z := z1 }, { x := x2, y := y2, z := z2 }]

/-- The point arrays of the bonds made by the loop
`for (let i = 0; i < totalResidues - 4; i++)`. -/
def hydrogenBonds (M : JSMath) : List (List Vector3) :=
  (List.range (totalResidues - 4)).map (hbondPoints M)

end Script.AlphaHelix

/-! ## The summary tables

The file `特殊氨基酸总结/script.js` sorts the rows of a table when a header is clicked.
A table is the list of its body rows, a row the list of the texts of its cells.  The
built-in functions `trim`, `parseFloat` and `localeCompare` are parameters, and
`Array.prototype.sort` is the insertion sort of the classification game, here with a
comparator that reads its arguments. -/

namespace SpecialAminoAcids

/-- A JavaScript number as the comparator of `sortTable` sees it: `NaN`, the two
infinities, and the finite values as exact rationals. -/
inductive JSNumber where
  | nan
  | negInfinity
  | finite (q : ℚ)
  | posInfinity
deriving DecidableEq, Repr

/-- The built-in `isNaN`. -/
def JSNumber.isNaN : JSNumber → Bool
  | JSNumber.nan => true
  | _ => false

/-- The difference `a - b` of two JavaScript numbers. -/
def JSNumber.sub : JSNumber → JSNumber → JSNumber
  | JSNumber.nan, _ => JSNumber.nan
  | _, JSNumber.nan => JSNumber.nan
  | JSNumber.posInfinity, JSNumber.posInfinity => JSNumber.nan
  | JSNumber.negInfinity, JSNumber.negInfinity => JSNumber.nan
  | JSNumber.posInfinity, _ => JSNumber.posInfinity
  | JSNumber.negInfinity, _ => JSNumber.negInfinity
  | JSNumber.finite _, JSNumber.posInfinity => JSNumber.negInfinity
  | JSNumber.finite _, JSNumber.negInfinity => JSNumber.posInfinity
  | JSNumber.finite a, JSNumber.finite b => JSNumber.finite (a - b)

/-- Whether `Array.prototype.sort` takes the result `v` of the comparator as positive; it
takes `NaN` as `+0`. -/
def JSNumber.isPositive : JSNumber → Bool
  | JSNumber.posInfinity => true
  | JSNumber.finite q => decide (0 < q)
  | _ => false

/-- The built-in functions that `sortTable` calls on strings: `String.prototype.trim`,
the global `parseFloat`, and `localeCompare` for the locale `zh-CN`, whose result is a
negative number, zero or a positive number. -/
structure Builtins where
  trim : String → String
  parseFloat : String → JSNumber
  localeCompare : String → String → Int

/-- A `table` element: the attributes `data-sort-direction` and `data-sort-column`
(`none` while absent) and the rows of its body, each the list of the `textContent` of
its `td` cells. -/
structure Table where
  sortDirection : Option String
  sortColumn : Option Nat
  rows : List (List String)
deriving DecidableEq, Repr

/-- The comparator handed to `rows.sort` (lines 99–115).  Reading `textContent` of a cell
that the row does not have throws. -/
def compareRows (B : Builtins) (sortDirection : String) (columnIndex : Nat)
    (rowA rowB : List String) : Option JSNumber :=
  match rowA[columnIndex]?, rowB[columnIndex]? with
  | some textA, some textB =>
      let cellA := B.trim textA
      let cellB := B.trim textB
      let numA := B.parseFloat cellA
      let numB := B.parseFloat cellB
      if !numA.isNaN && !numB.isNaN then
        some (if sortDirection = "asc" then numA.sub numB else numB.sub numA)
      else
        some (if sortDirection = "asc" then JSNumber.finite (B.localeCompare cellA cellB)
              else JSNumber.finite (B.localeCompare cellB cellA))
  | _, _ => none

/-- One insertion of `Array.prototype.sort`, which the engine provides, modelled as in the
classification game: `x` moves left past the elements of the sorted prefix, given from its
last element to its first, as long as the comparator is positive for the element and `x`.
The result is in the same reversed order; an exception of the comparator ends the sort. -/
def sortInsert {α : Type} (comparefn : α → α → Option JSNumber) (x : α) :
    List α → Option (List α)
  | [] => some [x]
  | y :: ys =>
      match comparefn y x with
      | none => none
      | some v =>
          if v.isPositive then (sortInsert comparefn x ys).map fun inserted => y :: inserted
          else some (x :: y :: ys)

/-- The insertions of the elements of `rest` into the sorted prefix `sorted` (kept
reversed). -/
def sortLoop {α : Type} (comparefn : α → α → Option JSNumber) :
    List α → List α → Option (List α)
  | [], sorted => some sorted.reverse
  | x :: rest, sorted =>
      match sortInsert comparefn x sorted with
      | none => none
      | some inserted => sortLoop comparefn rest inserted

/-- The call `array.sort(comparefn)`. -/
def sort {α : Type} (comparefn : α → α → Option JSNumber) (array : List α) : Option (List α) :=
  sortLoop comparefn array []

/-- The function `sortTable` (lines 90–124).  The sorted rows are appended to the body one
by one, which leaves them in sorted order.  The result is `none` when the comparator
throws. -/
def sortTable (B : Builtins) (table : Table) (columnIndex : Nat) : Option Table :=
  let rows := table.rows
  let sortDirection := if table.sortDirection = some "asc" then "desc" else "asc"
  let table1 : Table :=
    { table with sortDirection := some sortDirection, sortColumn := some columnIndex }
  match sort (compareRows B sortDirection columnIndex) rows with
  | none => none
  | some sorted => some { table1 with rows := sorted }

/-- The number that the row shows in the column: `parseFloat` of the trimmed text of its
cell, `NaN` when the row has no such cell. -/
def cellNumber (B : Builtins) (columnIndex : Nat) (row : List String) : JSNumber :=
  match row[columnIndex]? with
  | some text => B.parseFloat (B.trim text)
  | none => JSNumber.nan

/-- The numeric order `a ≤ b` of two JavaScript numbers; it holds for no `NaN`. -/
def JSNumber.le : JSNumber → JSNumber → Prop
  | JSNumber.nan, _ => False
  | _, JSNumber.nan => False
  | JSNumber.negInfinity, _ => True
  | _, JSNumber.posInfinity => True
  | JSNumber.finite a, JSNumber.finite b => a ≤ b
  | JSNumber.finite _, JSNumber.negInfinity => False
  | JSNumber.posInfinity, JSNumber.negInfinity => False
  | JSNumber.posInfinity, JSNumber.finite _ => False

/-- The value of a string of decimal digits, `NaN` for any other string. -/
def parseDigits (s : String) : JSNumber :=
  if s.data ≠ [] ∧ s.data.all Char.isDigit then
    JSNumber.finite ((s.data.foldl (fun n c => 10 * n + (c.toNat - 48)) 0 : Nat) : ℚ)
  else JSNumber.nan

/-- Built-in functions for tables whose cells are strings of digits without surrounding
white space. -/
def Builtins.digits : Builtins where
  trim s := s
  parseFloat := parseDigits
  localeCompare a b := if a < b then -1 else if a = b then 0 else 1

end SpecialAminoAcids

namespace MemoryGame

/-- A session of clicks and timer firings: the three tiles of 天冬酰胺 are clicked, the
third is deselected and selected again `n` times, which schedules one more match callback
each time, and then `m` pending callbacks fire. -/
def staleSession (n m : Nat) : List Event :=
  [Event.click 0, Event.click 2, Event.click 4] ++
    ((List.replicate n [Event.click 4, Event.click 4]).flatten ++
      List.replicate m (Event.fire 0))

end MemoryGame

/-! ## Double arithmetic

JavaScript numbers are IEEE 754 doubles.  Where the rounding of the arithmetic matters, the
scripts are embedded over the type `Double` of this part: a finite double is a whole number
of units of `2⁻¹⁰⁷⁴`, the spacing of the smallest doubles, that has at most 53 significant
bits.  Sum, difference, product and quotient are the exact results rounded to the nearest
double, ties to the even significand, as the standard prescribes.  Results that are not
finite (overflow, division by zero) and the sign of zero are not modelled; no computation
embedded here comes near them.  `Math.cos` and `Math.sin`, whose results the language
leaves to the implementation, come from a structure `Math`.
-/

namespace Float64

/-- The number of binary digits of a number below `2 ^ fuel`. -/
def bitLengthSmall : Nat → Nat → Nat
  | 0, _ => 0
  | fuel + 1, n => if n = 0 then 0 else bitLengthSmall fuel (n / 2) + 1

/-- The number of binary digits of a number below `2 ^ (64 * fuel)`, taken 64 digits at a
time. -/
def bitLengthChunks : Nat → Nat → Nat
  | 0, _ => 0
  | fuel + 1, n =>
      if n < 2 ^ 64 then bitLengthSmall 64 n else bitLengthChunks fuel (n / 2 ^ 64) + 64

/-- The number of binary digits of `n`, for `n` below `2 ^ 4096`. -/
def bitLength (n : Nat) : Nat := bitLengthChunks 64 n

/-- The whole number nearest to `a / d`, the even one of two that are equally near. -/
def roundHalfEven (a d : Nat) : Nat :=
  let q := a / d
  let r := a % d
  if 2 * r < d then q else if d < 2 * r then q + 1 else if q % 2 = 0 then q else q + 1

/-- The number of units of the double nearest to `a / d` units: `a / d` rounded to 53
significant bits, and to a whole number of units where it has fewer. -/
def roundMagnitude (a d : Nat) : Nat :=
  let length := bitLength (a / d)
  if length ≤ 53 then roundHalfEven a d
  else roundHalfEven a (d * 2 ^ (length - 53)) * 2 ^ (length - 53)

/-- A finite double: the number `units · 2⁻¹⁰⁷⁴`. -/
structure Double where
  units : Int
deriving DecidableEq, Repr

/-- The number of units of the number 1. -/
def unit : Nat := 2 ^ 1074

/-- The double nearest to `n / d` units. -/
def Double.round (n : Int) (d : Nat) : Double :=
  if 0 ≤ n then { units := roundMagnitude n.natAbs d }
  else { units := -(roundMagnitude n.natAbs d : Int) }

/-- The double nearest to the number `n / d`: the value of a numeric literal. -/
def Double.ofRatio (n : Int) (d : Nat) : Double := Double.round (n * unit) d

/-- The double of a whole number, such as a loop variable. -/
def Double.ofNat (n : Nat) : Double := Double.ofRatio n 1

instance (n : Nat) : OfNat Double n := ⟨Double.ofNat n⟩

instance : OfScientific Double where
  ofScientific mantissa exponentSign decimalExponent :=
    if exponentSign then Double.ofRatio mantissa (10 ^ decimalExponent)
    else Double.ofRatio (mantissa * 10 ^ decimalExponent) 1

/-- The sum `x + y`. -/
def Double.add (x y : Double) : Double := Double.round (x.units + y.units) 1

/-- The difference `x - y`. -/
def Double.sub (x y : Double) : Double := Double.round (x.units - y.units) 1

/-- The product `x * y`. -/
def Double.mul (x y : Double) : Double := Double.round (x.units * y.units) unit

/-- The quotient `x / y` for `y` other than zero. -/
def Double.div (x y : Double) : Double :=
  if 0 ≤ y.units then Double.round (x.units * unit) y.units.natAbs
  else Double.round (-(x.units * unit)) y.units.natAbs

/-- The negation `-x`. -/
def Double.neg (x : Double) : Double := { units := -x.units }

instance : Add Double := ⟨Double.add⟩
instance : Sub Double := ⟨Double.sub⟩
instance : Mul Double := ⟨Double.mul⟩
instance : Div Double := ⟨Double.div⟩
instance : Neg Double := ⟨Double.neg⟩
instance : LE Double := ⟨fun x y => x.units ≤ y.units⟩
instance : LT Double := ⟨fun x y => x.units < y.units⟩
instance (x y : Double) : Decidable (x ≤ y) := inferInstanceAs (Decidable (x.units ≤ y.units))
instance (x y : Double) : Decidable (x < y) := inferInstanceAs (Decidable (x.units < y.units))

/-- The value of `Math.floor(x)` for `x` that is not negative, as an index. -/
def Double.floor (x : Double) : Nat := (x.units / (unit : Int)).toNat

/-- The value of `Math.round(x)`: the whole number nearest to `x`, the greater one of two
that are equally near. -/
def Double.jsRound (x : Double) : Double :=
  Double.round (Int.fdiv (2 * x.units + unit) (2 * unit) * unit) 1

/-- The double `x` is exactly the number `n / d`. -/
def Double.IsRatio (x : Double) (n : Int) (d : Nat) : Prop := x.units * d = n * unit

instance (x : Double) (n : Int) (d : Nat) : Decidable (x.IsRatio n d) :=
  inferInstanceAs (Decidable (x.units * d = n * unit))

/-- The number of `u` units differs from the number `n / d` by at most `2 ^ (-k)`. -/
def NearUnits (u : Int) (n : Int) (d : Nat) (k : Nat) : Prop :=
  (u * d - n * unit).natAbs * 2 ^ k ≤ d * unit

instance (u : Int) (n : Int) (d : Nat) (k : Nat) : Decidable (NearUnits u n d k) :=
  inferInstanceAs (Decidable ((u * d - n * unit).natAbs * 2 ^ k ≤ d * unit))

/-- The double `x` differs from the number `n / d` by at most `2 ^ (-k)`. -/
def Double.Near (x : Double) (n : Int) (d : Nat) (k : Nat) : Prop := NearUnits x.units n d k

instance (x : Double) (n : Int) (d : Nat) (k : Nat) : Decidable (x.Near n d k) :=
  inferInstanceAs (Decidable (NearUnits x.units n d k))

/-- The constant `Math.PI`, the double nearest to π. -/
def PI : Double := 3.141592653589793

/-- The functions `Math.cos` and `Math.sin`.  The language leaves their results to the
implementation, except at zero. -/
structure Math where
  cos : Double → Double
  sin : Double → Double
  cos_zero : cos 0 = 1
  sin_zero : sin 0 = 0

/-- A `THREE.Vector3` of doubles. -/
structure Vector3 where
  x : Double
  y : Double
  z : Double
deriving DecidableEq, Repr

end Float64

namespace Float64

/-- The class `CatmullRomCurve3` of the library with its method `getPoint(t)`, for the
curve through the given control points.  The library is taken as given; the structure
carries the one law the theorems rely on.  The method computes `p = (l - 1) * t` for the
number `l` of points, `intPoint = Math.floor(p)` and `weight = p - intPoint`, and
evaluates the cubic of the segment that starts at `points[intPoint]` at `weight`; where
`weight` is zero and the segment is not the one behind the last point, the value is that
control point. -/
structure CatmullRomCurve3 where
  getPoint : List Vector3 → Double → Vector3
  getPoint_knot : ∀ (points : List Vector3) (t : Double) (point : Vector3),
    Double.ofNat (points.length - 1) * t
        - Double.ofNat (Double.floor (Double.ofNat (points.length - 1) * t)) = 0 →
    Double.floor (Double.ofNat (points.length - 1) * t) + 1 < points.length →
    points[Double.floor (Double.ofNat (points.length - 1) * t)]? = some point →
    getPoint points t = point

/-- The point at parameter `t` of the polyline through `points`, computed as `getPoint`
computes its segment and weight. -/
def polylinePoint (points : List Vector3) (t : Double) : Vector3 :=
  let p := Double.ofNat (points.length - 1) * t
  let intPoint := Double.floor p
  let weight := p - Double.ofNat intPoint
  let p1 := points.getD intPoint { x := 0, y := 0, z := 0 }
  let p2 := points.getD (intPoint + 1) p1
  if weight = 0 then p1
  else { x := p1.x + weight * (p2.x - p1.x)
         y := p1.y + weight * (p2.y - p1.y)
         z := p1.z + weight * (p2.z - p1.z) }

/-- A structure of type `CatmullRomCurve3`, which shows that its law is consistent: the
polyline through the control points. -/
def CatmullRomCurve3.polyline : CatmullRomCurve3 where
  getPoint := polylinePoint
  getPoint_knot points t point hweight _ hpoint := by
    unfold polylinePoint
    simp only [hweight, if_true]
    rw [List.getD_eq_getElem?_getD, hpoint]
    rfl

/-- A structure of type `Math`, which shows that its laws are consistent: the first terms
of the two power series, in double arithmetic. -/
def Math.series : Math where
  cos x := 1 - x * x / 2
  sin x := x
  cos_zero := by decide!
  sin_zero := rfl

namespace AlphaHelix

/-- The constant `radius` of `createAlphaHelix` (line 201). -/
def radius : Double := 2.3

/-- The constant `aminoAcidsPerTurn` (line 202). -/
def aminoAcidsPerTurn : Double := 3.6

/-- The constant `pitchPerTurn` (line 203). -/
def pitchPerTurn : Double := 5.4

/-- The constant `aminoAcidHeight` (line 204). -/
def aminoAcidHeight : Double := 1.5

/-- The constant `totalAminoAcids` (line 205). -/
def totalAminoAcids : Nat := 18

/-- The constant `totalHeight` (line 206). -/
def totalHeight : Double := Double.ofNat totalAminoAcids * aminoAcidHeight

/-- The constant `turns` (line 207). -/
def turns : Double := Double.ofNat totalAminoAcids / aminoAcidsPerTurn

/-- The constant `segments` (line 208), a whole number. -/
def segments : Nat := totalAminoAcids * 10

/-- The constant `t` of line 225 for the loop variable `i`. -/
def backboneParameter (i : Nat) : Double := Double.ofNat i / Double.ofNat segments

/-- The constant `angle` of line 226 for the loop variable `i`. -/
def backboneAngle (i : Nat) : Double := 2 * PI * turns * backboneParameter i

/-- The constant `y` of line 228 for the loop variable `i`. -/
def backboneHeight (i : Nat) : Double := totalHeight * (backboneParameter i - 0.5)

/-- The point pushed to `backbonePoints` by the body of the loop of lines 224–231 for the
loop variable `i`. -/
def backbonePoint (M : Math) (i : Nat) : Vector3 :=
  let angle := backboneAngle i
  let x := radius * M.cos angle
  let y := backboneHeight i
  let z := radius * M.sin angle
  { x := x, y := y, z := z }

/-- The array `backbonePoints` after the loop `for (let i = 0; i <= segments; i++)`. -/
def backbonePoints (M : Math) : List Vector3 :=
  (List.range (segments + 1)).map (backbonePoint M)

/-- The constant `segmentsPerAminoAcid` (line 244). -/
def segmentsPerAminoAcid : Double := Double.ofNat segments / Double.ofNat totalAminoAcids

/-- The curve parameter `t` of residue `i` (lines 246–247). -/
def residueParameter (i : Nat) : Double :=
  let segmentIndex := Double.jsRound (Double.ofNat i * segmentsPerAminoAcid)
  segmentIndex / Double.ofNat segments

/-- The position of residue `i`: `backboneCurve.getPoint(t)` (line 248), copied to
`residue.position` (line 252). -/
def residuePosition (C : CatmullRomCurve3) (M : Math) (i : Nat) : Vector3 :=
  C.getPoint (backbonePoints M) (residueParameter i)

/-- The positions of the array `residues` after the loop of lines 245–259. -/
def residuePositions (C : CatmullRomCurve3) (M : Math) : List Vector3 :=
  (List.range totalAminoAcids).map (residuePosition C M)

/-- The parameter `t` of the side chain of residue `i` (line 264). -/
def sidechainParameter (i : Nat) : Double := Double.ofNat i / Double.ofNat totalAminoAcids

end AlphaHelix
end Float64

namespace BetaTurn
open Float64

/-- The constant `turnResidues` of `createBetaTurn` (line 66). -/
def turnResidues : Nat := 4

/-- The curve parameter `t` of residue `i` (line 71), in double arithmetic. -/
def turnParameter (i : Nat) : Double :=
  0.3 + (Double.ofNat i * 0.4 / (Double.ofNat turnResidues - 1))

/-- The array `turnPoints` after the loop of lines 70–73; `getPoint` is the method of the
Bézier curve of the library. -/
def turnPoints (getPoint : Double → Vector3) : List Vector3 :=
  (List.range turnResidues).map fun i => getPoint (turnParameter i)

/-- The position of the residue made for the entry `point` of `turnPoints` (line 98). -/
def residuePosition (point : Vector3) : Vector3 := point

/-- The position of the side chain made for the entry `point` at position `i` of
`turnPoints` (lines 106–118); the third residue gets none. -/
def sideChainPosition (point : Vector3) (i : Nat) : Option Vector3 :=
  if i ≠ 2 then
    let direction : Vector3 :=
      if i = 1 then { x := 0, y := -0.5, z := 0.5 } else { x := 0, y := 0, z := 1 }
    some { x := point.x + direction.x * 0.5
           y := point.y + direction.y * 0.5
           z := point.z + direction.z * 0.5 }
  else none

/-- The two points handed to `setFromPoints` for the hydrogen bond (lines 130–133). -/
def hydrogenBondPoints (turnPoints : List Vector3) : List (Option Vector3) :=
  [turnPoints[0]?, turnPoints[3]?]

end BetaTurn

namespace MemoryGame

/-- The clicks on the three tiles at the positions `tile`, `tile + 2` and `tile + 4` and
the firing of the callback that the third click schedules. -/
def matchTriple (tile : Nat) : List Event :=
  [Event.click tile, Event.click (tile + 2), Event.click (tile + 4), Event.fire 0]

/-- A session that leaves one match callback pending too many: the tiles of the eighteen
acids of the rows 0 to 8 are matched, triple by triple; the three tiles of 丙氨酸 are
clicked, and the third is deselected and selected again, which schedules a second match
callback; the first of the two callbacks fires. -/
def staleCompletion : List Event :=
  ((List.range 9).flatMap fun row => matchTriple (6 * row) ++ matchTriple (6 * row + 1)) ++
    [Event.click 54, Event.click 56, Event.click 58, Event.click 58, Event.click 58,
     Event.fire 0]

end MemoryGame

/-! ## Theorems about the matching game -/

set_option maxRecDepth 100000

namespace MemoryGame

theorem cons_set_perm {α : Type} (z y : α) :
    ∀ (zs : List α) (j : Nat), zs[j]? = some y → (y :: zs.set j z).Perm (z :: zs)
  | [], j, h => by simp at h
  | w :: ws, 0, h => by
      simp only [List.getElem?_cons_zero, Option.some.injEq] at h
      subst h
      exact List.Perm.swap _ _ _
  | w :: ws, j + 1, h => by
      simp only [List.getElem?_cons_succ] at h
      simp only [List.set_cons_succ]
      exact ((List.Perm.swap w y _).trans ((cons_set_perm z y ws j h).cons w)).trans
        (List.Perm.swap z w _)

theorem set_set_perm_lt {α : Type} :
    ∀ (a : List α) (i j : Nat) (x y : α), a[i]? = some x → a[j]? = some y → i < j →
      ((a.set i y).set j x).Perm a
  | [], _, _, _, _, hi, _, _ => by simp at hi
  | z :: zs, 0, 0, _, _, _, _, hij => by omega
  | z :: zs, 0, j + 1, x, y, hi, hj, _ => by
      simp only [List.getElem?_cons_zero, Option.some.injEq] at hi
      simp only [List.getElem?_cons_succ] at hj
      subst hi
      simpa only [List.set_cons_zero, List.set_cons_succ] using cons_set_perm z y zs j hj
  | z :: zs, i + 1, 0, _, _, _, _, hij => by omega
  | z :: zs, i + 1, j + 1, x, y, hi, hj, hij => by
      simp only [List.getElem?_cons_succ] at hi hj
      simp only [List.set_cons_succ]
      exact (set_set_perm_lt zs i j x y hi hj (by omega)).cons z

theorem swap_perm {α : Type} (a : List α) (i j : Nat) : (swap a i j).Perm a := by
  unfold swap
  split
  · rename_i x y hi hj
    rcases Nat.lt_trichotomy i j with h | h | h
    · exact set_set_perm_lt a i j x y hi hj h
    · subst h
      rw [hi] at hj
      simp only [Option.some.injEq] at hj
      subst hj
      rw [List.set_set]
      have hlt : i < a.length := (List.getElem?_eq_some_iff.1 hi).1
      have hset : a.set i x = a := by
        apply List.ext_getElem?
        intro m
        rw [List.getElem?_set]
        by_cases hm : i = m
        · subst hm; simp [hlt, hi]
        · simp [hm]
      rw [hset]
    · have hlt : j < a.length := (List.getElem?_eq_some_iff.1 hj).1
      have hlt2 : i < a.length := (List.getElem?_eq_some_iff.1 hi).1
      rw [List.set_comm _ _ _ (by omega)]
      exact set_set_perm_lt a j i y x hj hi h
  · exact List.Perm.refl a

theorem shuffleLoop_perm {α : Type} (rand : Nat → Rnd) :
    ∀ (i k : Nat) (a : List α), (shuffleLoop rand i k a).Perm a
  | 0, _, a => List.Perm.refl a
  | i + 1, k, a => (shuffleLoop_perm rand i (k + 1) _).trans (swap_perm a _ _)

theorem shuffleArray_perm {α : Type} (rand : Nat → Rnd) (array : List α) :
    (shuffleArray rand array).Perm array :=
  shuffleLoop_perm rand _ 0 array

theorem length_eq_twenty {α : Type} (l : List α) (h : l.length = 20) :
    ∃ a0 a1 a2 a3 a4 a5 a6 a7 a8 a9 a10 a11 a12 a13 a14 a15 a16 a17 a18 a19,
      l = [a0, a1, a2, a3, a4, a5, a6, a7, a8, a9, a10, a11, a12, a13, a14, a15, a16, a17, a18, a19] := by
  match l, h with
  | [a0, a1, a2, a3, a4, a5, a6, a7, a8, a9, a10, a11, a12, a13, a14, a15, a16, a17, a18, a19], _ =>
    exact ⟨a0, a1, a2, a3, a4, a5, a6, a7, a8, a9, a10, a11, a12, a13, a14, a15, a16, a17, a18, a19, rfl⟩

theorem createGrid_length (nd c3 c1 : List TileData) : (createGrid nd c3 c1).length = 60 := rfl

theorem createGrid_get (nd c3 c1 : List TileData) (row col : Nat) (hr : row < 10) (hc : col < 6) :
    (createGrid nd c3 c1)[row * 6 + col]? = some (createTile nd c3 c1 row col) := by
  interval_cases row <;> interval_cases col <;> rfl

theorem createGrid_filter_name (nd c3 c1 : List TileData) (h : nd.length = 20) :
    (createGrid nd c3 c1).filter (fun t => t.tileType = "name-tile") = nd.map (toTile "name-tile") := by
  obtain ⟨a0, a1, a2, a3, a4, a5, a6, a7, a8, a9, a10, a11, a12, a13, a14, a15, a16, a17, a18, a19, rfl⟩ := length_eq_twenty nd h
  rfl


theorem createGrid_perm (nd c3 c1 : List TileData) (hn : nd.length = 20) (h3 : c3.length = 20)
    (h1 : c1.length = 20) :
    (createGrid nd c3 c1).Perm
      (nd.map (toTile "name-tile") ++ (c3.map (toTile "code3-tile") ++ c1.map (toTile "code1-tile"))) := by
  obtain ⟨a0, a1, a2, a3, a4, a5, a6, a7, a8, a9, a10, a11, a12, a13, a14, a15, a16, a17, a18, a19, rfl⟩ := length_eq_twenty nd hn
  obtain ⟨b0, b1, b2, b3, b4, b5, b6, b7, b8, b9, b10, b11, b12, b13, b14, b15, b16, b17, b18, b19, rfl⟩ := length_eq_twenty c3 h3
  obtain ⟨c0, c1, c2, c3, c4, c5, c6, c7, c8, c9, c10, c11, c12, c13, c14, c15, c16, c17, c18, c19, rfl⟩ := length_eq_twenty c1 h1
  refine (List.filter_append_perm (fun t => decide (t.tileType = "name-tile")) _).symm.trans ?_
  refine List.Perm.append (List.Perm.of_eq rfl) ?_
  refine (List.filter_append_perm (fun t => decide (t.tileType = "code3-tile")) _).symm.trans ?_
  exact List.Perm.append (List.Perm.of_eq rfl) (List.Perm.of_eq rfl)

theorem setTableMode_grid (s : State) : (setTableMode s).grid = s.grid := by
  unfold setTableMode; split <;> rfl

theorem initGame_grid_eq (rand : Nat → Rnd) (s : State) :
    ∃ rand1 rand2 rand3 : Nat → Rnd,
      (initGame rand s).grid =
        createGrid (shuffleArray rand1 ((shuffleArray rand aminoAcids).map nameEntry))
          (shuffleArray rand2 ((shuffleArray rand aminoAcids).map code3Entry))
          (shuffleArray rand3 ((shuffleArray rand aminoAcids).map code1Entry)) :=
  ⟨dropDraws rand (aminoAcids.length - 1),
    dropDraws (dropDraws rand (aminoAcids.length - 1))
      (((shuffleArray rand aminoAcids).map nameEntry).length - 1),
    dropDraws (dropDraws (dropDraws rand (aminoAcids.length - 1))
      (((shuffleArray rand aminoAcids).map nameEntry).length - 1))
      (((shuffleArray rand aminoAcids).map code3Entry).length - 1),
    by simp only [initGame, generateReferenceTable, setTableMode_grid]⟩

theorem shuffled_entries_perm (rand rand1 : Nat → Rnd) (f : AminoAcid → TileData) :
    (shuffleArray rand1 ((shuffleArray rand aminoAcids).map f)).Perm (aminoAcids.map f) :=
  (shuffleArray_perm rand1 _).trans ((shuffleArray_perm rand aminoAcids).map f)

theorem shuffled_entries_length (rand rand1 : Nat → Rnd) (f : AminoAcid → TileData) :
    (shuffleArray rand1 ((shuffleArray rand aminoAcids).map f)).length = 20 := by
  have h := (shuffled_entries_perm rand rand1 f).length_eq
  rw [List.length_map] at h
  exact h.trans rfl

theorem initGame_grid_perm (rand : Nat → Rnd) (s : State) :
    (initGame rand s).grid.Perm referenceTiles := by
  obtain ⟨rand1, rand2, rand3, hgrid⟩ := initGame_grid_eq rand s
  rw [hgrid]
  refine (createGrid_perm _ _ _ (shuffled_entries_length rand rand1 nameEntry)
    (shuffled_entries_length rand rand2 code3Entry)
    (shuffled_entries_length rand rand3 code1Entry)).trans ?_
  unfold referenceTiles
  refine List.Perm.append ?_ (List.Perm.append ?_ ?_)
  · simpa [List.map_map] using (shuffled_entries_perm rand rand1 nameEntry).map (toTile "name-tile")
  · simpa [List.map_map] using
      (shuffled_entries_perm rand rand2 code3Entry).map (toTile "code3-tile")
  · simpa [List.map_map] using
      (shuffled_entries_perm rand rand3 code1Entry).map (toTile "code1-tile")

theorem referenceTiles_filter :
    ∀ acid ∈ aminoAcids,
      referenceTiles.filter (fun t => t.acid = acid.name ∧ t.type = "name")
          = [toTile "name-tile" (nameEntry acid)] ∧
      referenceTiles.filter (fun t => t.acid = acid.name ∧ t.type = "code3")
          = [toTile "code3-tile" (code3Entry acid)] ∧
      referenceTiles.filter (fun t => t.acid = acid.name ∧ t.type = "code1")
          = [toTile "code1-tile" (code1Entry acid)] := by
  decide

theorem getD_mem {α : Type} (l : List α) (i : Nat) (d : α) (h : i < l.length) : l.getD i d ∈ l := by
  rw [List.getD_eq_getElem _ _ h]
  exact List.getElem_mem h

theorem createTile_type (nd c3 c1 : List TileData) (hn : nd.length = 20) (h3 : c3.length = 20)
    (h1 : c1.length = 20) (hnt : ∀ d ∈ nd, d.type = "name") (h3t : ∀ d ∈ c3, d.type = "code3")
    (h1t : ∀ d ∈ c1, d.type = "code1") (row col : Nat) (hr : row < 10) :
    (createTile nd c3 c1 row col).type
        = (if col < 2 then "name" else if col < 4 then "code3" else "code1") ∧
    (createTile nd c3 c1 row col).tileType
        = (if col < 2 then "name-tile" else if col < 4 then "code3-tile" else "code1-tile") := by
  have hidx : dataIndex row col < 20 := by unfold dataIndex; omega
  refine ⟨?_, rfl⟩
  unfold createTile
  by_cases h2 : col < 2
  · simp only [h2, if_true]
    exact hnt _ (getD_mem _ _ _ (by omega))
  · by_cases h4 : col < 4
    · simp only [h2, h4, if_true, if_false]
      exact h3t _ (getD_mem _ _ _ (by omega))
    · simp only [h2, h4, if_false]
      exact h1t _ (getD_mem _ _ _ (by omega))

theorem shuffled_entries_type (rand rand1 : Nat → Rnd) (f : AminoAcid → TileData) (ty : String)
    (hf : ∀ acid, (f acid).type = ty) :
    ∀ d ∈ shuffleArray rand1 ((shuffleArray rand aminoAcids).map f), d.type = ty := by
  intro d hd
  have := (shuffled_entries_perm rand rand1 f).mem_iff.1 hd
  obtain ⟨acid, _, rfl⟩ := List.mem_map.1 this
  exact hf acid

/-- C9. After `initGame`, whatever the shuffles draw, the grid holds 60 tiles; every index
`row * 2 + col % 2` read from a data array is below 20 and, over the two columns of one
type, the indices read are 0, 1, …, 19, each once; for each of the 20 acids the grid holds
exactly one tile of type `name`, one of type `code3` and one of type `code1` with that
acid as `dataset.acid`, showing its name, 3-letter code and 1-letter code; and the tile in
row `row` and column `col` has type `name` for columns 0–1, `code3` for columns 2–3 and
`code1` for columns 4–5. -/
theorem initGame_grid_layout (rand : Nat → Rnd) (s : State) :
    (initGame rand s).grid.length = 60 ∧
    (∀ row col, row < 10 → col < 6 → dataIndex row col < 20) ∧
    (∀ c ∈ [0, 2, 4],
      ((List.range 10).flatMap fun row => [dataIndex row c, dataIndex row (c + 1)])
        = List.range 20) ∧
    (∀ acid ∈ aminoAcids,
      (initGame rand s).grid.filter (fun t => t.acid = acid.name ∧ t.type = "name")
          = [toTile "name-tile" (nameEntry acid)] ∧
      (initGame rand s).grid.filter (fun t => t.acid = acid.name ∧ t.type = "code3")
          = [toTile "code3-tile" (code3Entry acid)] ∧
      (initGame rand s).grid.filter (fun t => t.acid = acid.name ∧ t.type = "code1")
          = [toTile "code1-tile" (code1Entry acid)]) ∧
    (∀ row col, row < 10 → col < 6 →
      ∃ t, (initGame rand s).grid[row * 6 + col]? = some t ∧
        t.type = (if col < 2 then "name" else if col < 4 then "code3" else "code1") ∧
        t.tileType
          = (if col < 2 then "name-tile" else if col < 4 then "code3-tile" else "code1-tile")) := by
  have hperm := initGame_grid_perm rand s
  refine ⟨hperm.length_eq.trans rfl, ?_, by decide, ?_, ?_⟩
  · intro row col hr hc
    unfold dataIndex
    omega
  · intro acid hacid
    obtain ⟨hn, h3, h1⟩ := referenceTiles_filter acid hacid
    refine ⟨?_, ?_, ?_⟩
    · exact List.perm_singleton.1 (hn ▸ hperm.filter _)
    · exact List.perm_singleton.1 (h3 ▸ hperm.filter _)
    · exact List.perm_singleton.1 (h1 ▸ hperm.filter _)
  · intro row col hr hc
    obtain ⟨rand1, rand2, rand3, hgrid⟩ := initGame_grid_eq rand s
    rw [hgrid]
    refine ⟨_, createGrid_get _ _ _ row col hr hc, ?_⟩
    exact createTile_type _ _ _ (shuffled_entries_length rand rand1 nameEntry)
      (shuffled_entries_length rand rand2 code3Entry)
      (shuffled_entries_length rand rand3 code1Entry)
      (shuffled_entries_type _ _ _ "name" (fun _ => rfl))
      (shuffled_entries_type _ _ _ "code3" (fun _ => rfl))
      (shuffled_entries_type _ _ _ "code1" (fun _ => rfl)) row col hr

/-- C2. Four clicks on four different tiles of a fresh grid, all before the 500 ms timer of
`checkMatch` fires, leave four tiles in `selectedTiles`: the click on the fourth tile is
accepted although three tiles are selected and their timer is pending. -/
theorem fourth_tile_selected :
    (run State.start [Event.click 0, Event.click 2, Event.click 4, Event.click 3]).selectedTiles
        = [0, 2, 4, 3] ∧
    (run State.start [Event.click 0, Event.click 2, Event.click 4, Event.click 3]).timers
        = [Timer.matched "天冬酰胺"] := by
  decide

/-- C3. The three tiles of one acid are clicked, the third is clicked again (deselected)
before the 500 ms timer fires, and the timer fires: `remainingTiles` drops from 60 to 57
although only two tiles become matched. -/
theorem counter_drops_without_three_matches :
    State.start.remainingTiles = 60 ∧
    (run State.start [Event.click 0, Event.click 2, Event.click 4, Event.click 4,
        Event.fire 0]).remainingTiles = 57 ∧
    matchedPositions (run State.start [Event.click 0, Event.click 2, Event.click 4,
        Event.click 4, Event.fire 0]) = [0, 2] := by
  decide

/-- C4. The three tiles of 天冬酰胺 (positions 0, 2, 4) are clicked, then the `Asp` tile of
天冬氨酸 (position 3) is clicked before the 500 ms timer fires: when the timer fires, the
tile at position 3 is marked matched together with the three others, although its
`dataset.acid` differs from theirs. -/
theorem foreign_tile_marked_matched :
    State.start.grid[3]?.map Tile.acid = some "天冬氨酸" ∧
    [0, 2, 4].map (fun tile => State.start.grid[tile]?.map Tile.acid)
        = [some "天冬酰胺", some "天冬酰胺", some "天冬酰胺"] ∧
    matchedPositions (run State.start [Event.click 0, Event.click 2, Event.click 4,
        Event.click 3, Event.fire 0]) = [0, 2, 3, 4] := by
  decide

/-- C5. Three tiles that do not match are clicked and then deselected one by one, which
leaves an empty selection buffer and the 1000 ms timer pending.  From that state the name
tile and the 3-letter tile of 丙氨酸 are clicked, the pending timer fires, and the 1-letter
tile is clicked: no tile is matched, the buffer holds the 1-letter tile alone and no timer
is pending. -/
theorem alanine_not_matched_after_stale_timer :
    [54, 56, 58].map (fun tile => State.start.grid[tile]?.map fun t => (t.textContent, t.acid))
        = [some ("丙氨酸", "丙氨酸"), some ("Ala", "丙氨酸"), some ("A", "丙氨酸")] ∧
    (run State.start [Event.click 0, Event.click 1, Event.click 2, Event.click 0,
        Event.click 1, Event.click 2]).selectedTiles = [] ∧
    (run State.start [Event.click 0, Event.click 1, Event.click 2, Event.click 0,
        Event.click 1, Event.click 2]).timers = [Timer.mismatched] ∧
    matchedPositions (run (run State.start [Event.click 0, Event.click 1, Event.click 2,
        Event.click 0, Event.click 1, Event.click 2])
      [Event.click 54, Event.click 56, Event.fire 0, Event.click 58]) = [] ∧
    (run (run State.start [Event.click 0, Event.click 1, Event.click 2,
        Event.click 0, Event.click 1, Event.click 2])
      [Event.click 54, Event.click 56, Event.fire 0, Event.click 58]).selectedTiles = [58] ∧
    (run (run State.start [Event.click 0, Event.click 1, Event.click 2,
        Event.click 0, Event.click 1, Event.click 2])
      [Event.click 54, Event.click 56, Event.fire 0, Event.click 58]).timers = [] := by
  decide

theorem isMatched_iff (s : State) (tile : Nat) :
    isMatched s tile = true ↔ MatchedAt s.grid tile := by
  unfold isMatched MatchedAt
  cases h : s.grid[tile]? with
  | none => simp
  | some el => simp

theorem matchedAt_modify {grid : List Tile} {tile : Nat} (f : Tile → Tile)
    (hf : ∀ t, t.matched = true → (f t).matched = true) (j : Nat)
    (h : MatchedAt grid tile) : MatchedAt (modifyTile f j grid) tile := by
  obtain ⟨el, hel, hm⟩ := h
  unfold MatchedAt MemoryGame.modifyTile
  rw [List.getElem?_modify, hel]
  by_cases hj : j = tile
  · exact ⟨f el, by simp [hj], hf el hm⟩
  · exact ⟨el, by simp [hj], hm⟩

theorem matchedAt_foldl_modify {tile : Nat} (f : Tile → Tile)
    (hf : ∀ t, t.matched = true → (f t).matched = true) (sel : List Nat) :
    ∀ {grid : List Tile}, MatchedAt grid tile →
      MatchedAt (sel.foldl (fun grid j => MemoryGame.modifyTile f j grid) grid) tile := by
  induction sel with
  | nil => intro grid h; exact h
  | cons j sel ih => intro grid h; exact ih (matchedAt_modify f hf j h)

@[simp] theorem updateGameInfo_grid (s : State) : (updateGameInfo s).grid = s.grid := rfl

@[simp] theorem checkGameCompletion_grid (s : State) : (checkGameCompletion s).grid = s.grid := by
  unfold checkGameCompletion; split <;> rfl

@[simp] theorem checkMatch_grid (s : State) : (checkMatch s).grid = s.grid := by
  unfold checkMatch; split
  · split
    · dsimp only; split <;> rfl
    · rfl
  · rfl

@[simp] theorem updateReferenceTable_grid (a : String) (b : Bool) (s : State) :
    (updateReferenceTable a b s).grid = s.grid := rfl

theorem handleTileClick_matched (s : State) (tile : Nat) (h : isMatched s tile = true) :
    handleTileClick s tile = s := by
  obtain ⟨el, hel, hm⟩ := (isMatched_iff s tile).1 h
  simp [handleTileClick, hel, hm]

theorem matchedAt_click {s : State} {tile : Nat} (j : Nat)
    (h : MatchedAt s.grid tile) : MatchedAt (handleTileClick s j).grid tile := by
  unfold MemoryGame.handleTileClick
  split
  · exact h
  · split
    · exact h
    · split
      · simpa using matchedAt_modify (fun t => { t with selected := false }) (fun t ht => ht) j h
      · have h1 := matchedAt_modify (fun t => { t with selected := true }) (fun t ht => ht) j h
        dsimp only
        split
        · simpa using h1
        · simpa using h1

theorem matchedAt_fire {s : State} {tile : Nat} (k : Nat)
    (h : MatchedAt s.grid tile) : MatchedAt (fireTimer s k).grid tile := by
  unfold MemoryGame.fireTimer
  split
  · exact h
  · rename_i timer _
    cases timer with
    | matched acid1 =>
        have h1 := matchedAt_foldl_modify
          (fun t => { t with matched := true, selected := false }) (fun _ _ => rfl)
          s.selectedTiles h
        simp only [matchedCallback, checkGameCompletion_grid, updateGameInfo_grid]
        split
        · simpa using h1
        · simpa using h1
    | mismatched =>
        have h1 := matchedAt_foldl_modify
          (fun t => { t with selected := false }) (fun t ht => ht) s.selectedTiles h
        simpa [mismatchedCallback] using h1
    | showModal => simpa [showModalCallback] using h

theorem matchedAt_step {s : State} {tile : Nat} (e : Event)
    (h : MatchedAt s.grid tile) : MatchedAt (step s e).grid tile := by
  cases e with
  | click j => exact matchedAt_click j h
  | fire k => exact matchedAt_fire k h

theorem matchedAt_run {tile : Nat} (events : List Event) :
    ∀ {s : State}, MatchedAt s.grid tile → MatchedAt (run s events).grid tile := by
  induction events with
  | nil => intro s h; exact h
  | cons e events ih => intro s h; exact ih (matchedAt_step e h)

/-- C10. A click on a tile that carries the class `matched` returns the session state as
it is, and after any sequence of clicks and timer firings the tile still carries the
class. -/
theorem matched_tile_is_frozen (s : State) (tile : Nat) (events : List Event)
    (h : isMatched s tile = true) :
    handleTileClick s tile = s ∧ isMatched (run s events) tile = true :=
  ⟨handleTileClick_matched s tile h, (isMatched_iff _ _).2 (matchedAt_run events ((isMatched_iff s tile).1 h))⟩

theorem matched_tile_is_frozen_witness :
    isMatched (run State.start [.click 0, .click 2, .click 4, .fire 0]) 2 = true ∧
    handleTileClick (run State.start [.click 0, .click 2, .click 4, .fire 0]) 2
      = run State.start [.click 0, .click 2, .click 4, .fire 0] ∧
    isMatched (run (run State.start [.click 0, .click 2, .click 4, .fire 0])
      [.click 2, .click 0, .click 1, .click 3, .fire 0, .click 2]) 2 = true :=
  ⟨by decide, matched_tile_is_frozen _ 2 _ (by decide)⟩

end MemoryGame

/-! ## Theorems about the classification game -/

namespace ClassificationGame

theorem sortInsert_perm {α : Type} (rand : Nat → Rnd) (x : α) :
    ∀ (sorted : List α) (k : Nat), (sortInsert rand x sorted k).1.Perm (x :: sorted)
  | [], _ => List.Perm.refl _
  | y :: ys, k => by
      have ih := sortInsert_perm rand x ys (k + 1)
      unfold sortInsert
      split
      · exact (ih.cons y).trans (List.Perm.swap x y ys)
      · exact List.Perm.refl _

theorem sortLoop_perm {α : Type} (rand : Nat → Rnd) :
    ∀ (rest sorted : List α) (k : Nat), (sortLoop rand rest sorted k).Perm (rest ++ sorted)
  | [], sorted, _ => by simp [sortLoop]
  | x :: rest, sorted, k => by
      unfold sortLoop
      refine (sortLoop_perm rand rest _ _).trans ?_
      refine (List.Perm.append_left rest (sortInsert_perm rand x sorted k)).trans ?_
      exact List.perm_middle

theorem randomSort_perm {α : Type} (rand : Nat → Rnd) (array : List α) :
    (randomSort rand array).Perm array := by
  simpa [randomSort] using sortLoop_perm rand array [] 0

theorem createElements_acid : ∀ (id : Nat) (acids : List AminoAcid),
    (createElements id acids).map Element.acid = acids
  | _, [] => rfl
  | id, acid :: rest => by
      simp only [createElements, List.map_cons, createElements_acid (id + 1) rest]
      rfl

theorem createElements_id : ∀ (id : Nat) (acids : List AminoAcid),
    (createElements id acids).map Element.id = List.range' id acids.length
  | _, [] => rfl
  | id, acid :: rest => by
      simp only [createElements, List.map_cons, createElements_id (id + 1) rest,
        List.length_cons, List.range'_succ]
      rfl

theorem createElements_fresh : ∀ (id : Nat) (acids : List AminoAcid),
    ∀ el ∈ createElements id acids,
      el.placed = false ∧ el.correct = false ∧ el.incorrect = false
  | _, [], el, h => by simp [createElements] at h
  | id, acid :: rest, el, h => by
      simp only [createElements, List.mem_cons] at h
      rcases h with rfl | h
      · exact ⟨rfl, rfl, rfl⟩
      · exact createElements_fresh (id + 1) rest el h

theorem initGame_container (rand : Nat → Rnd) (s : State) :
    (initGame rand s).aminoAcidsContainer = createElements s.nextId (randomSort rand aminoAcids) := by
  simp only [initGame]

theorem initGame_zones (rand : Nat → Rnd) (s : State) :
    ∀ zone ∈ (initGame rand s).dropZones, zone.children = [] := by
  intro zone hz
  simp only [initGame, List.mem_map] at hz
  obtain ⟨z, _, rfl⟩ := hz
  rfl

theorem flatMap_children_nil : ∀ (zones : List DropZone), (∀ zone ∈ zones, zone.children = []) →
    zones.flatMap (fun zone => zone.children) = []
  | [], _ => rfl
  | z :: zs, h => by
      simp only [List.flatMap_cons, h z (List.mem_cons_self _ _), List.nil_append]
      exact flatMap_children_nil zs (fun zone hz => h zone (List.mem_cons_of_mem _ hz))

theorem initGame_allElements (rand : Nat → Rnd) (s : State) :
    allElements (initGame rand s) = (initGame rand s).aminoAcidsContainer := by
  unfold allElements
  rw [flatMap_children_nil _ (initGame_zones rand s), List.append_nil]

theorem initGame_perm (rand : Nat → Rnd) (s : State) :
    ((initGame rand s).aminoAcidsContainer.map Element.acid).Perm aminoAcids := by
  rw [initGame_container, createElements_acid]
  exact randomSort_perm rand aminoAcids

theorem initGame_fresh (rand : Nat → Rnd) (s : State) :
    ∀ el ∈ (initGame rand s).aminoAcidsContainer,
      el.placed = false ∧ el.correct = false ∧ el.incorrect = false := by
  rw [initGame_container]
  exact createElements_fresh s.nextId (randomSort rand aminoAcids)

/-- C8. After `initGame`, from any prior state and whatever the comparator draws, the
elements of the pool display a permutation of the 20 entries of `aminoAcids` (name,
category and full name), so every entry exactly once and nothing else; every one of them
is unplaced and neither `correct` nor `incorrect`; the pool holds every item element of
the document; every drop zone is empty; and the success modal is hidden. -/
theorem initGame_pool (rand : Nat → Rnd) (s : State) :
    ((initGame rand s).aminoAcidsContainer.map Element.acid).Perm aminoAcids ∧
    (initGame rand s).aminoAcidsContainer.length = 20 ∧
    (∀ el ∈ (initGame rand s).aminoAcidsContainer,
      el.placed = false ∧ el.correct = false ∧ el.incorrect = false) ∧
    allElements (initGame rand s) = (initGame rand s).aminoAcidsContainer ∧
    placedElements (initGame rand s) = [] ∧
    (∀ zone ∈ (initGame rand s).dropZones, zone.children = []) ∧
    (initGame rand s).successModalShow = false := by
  have hperm := initGame_perm rand s
  have hfresh := initGame_fresh rand s
  refine ⟨hperm, ?_, hfresh, initGame_allElements rand s, ?_, initGame_zones rand s, ?_⟩
  · have h := hperm.length_eq
    rw [List.length_map] at h
    exact h.trans rfl
  · unfold placedElements
    rw [initGame_allElements, List.filter_eq_nil_iff]
    intro el hel
    simp [(hfresh el hel).1]
  · simp only [initGame]

theorem aminoAcids_names_nodup : (aminoAcids.map AminoAcid.name).Nodup := by decide

theorem aminoAcids_length : aminoAcids.length = 20 := rfl

theorem Inv.of_eq {s s' : State} (h : Inv s) (hc : s'.aminoAcidsContainer = s.aminoAcidsContainer)
    (hz : s'.dropZones = s.dropZones) : Inv s' := by
  have hall : allElements s' = allElements s := by unfold allElements; rw [hc, hz]
  exact ⟨hall ▸ h.perm, hall ▸ h.ids, hc ▸ h.pool, hz ▸ h.zones⟩

theorem Inv.names_nodup {s : State} (h : Inv s) :
    ((allElements s).map Element.textContent).Nodup := by
  have h1 : ((allElements s).map Element.acid).map AminoAcid.name
      = (allElements s).map Element.textContent := by
    rw [List.map_map]; rfl
  rw [← h1]
  exact (h.perm.map AminoAcid.name).nodup_iff.2 aminoAcids_names_nodup

theorem Inv.length_eq {s : State} (h : Inv s) : (allElements s).length = 20 := by
  have := h.perm.length_eq
  rw [List.length_map] at this
  exact this.trans aminoAcids_length

theorem mem_zones_placed {s : State} (h : Inv s) :
    ∀ el ∈ s.dropZones.flatMap (fun zone => zone.children), el.placed = true := by
  intro el hel
  obtain ⟨zone, hz, hmem⟩ := List.mem_flatMap.1 hel
  exact (h.zones zone hz el hmem).1

theorem Inv.unplaced_eq {s : State} (h : Inv s) :
    unplacedElements s = s.aminoAcidsContainer := by
  unfold unplacedElements allElements
  rw [List.filter_append, List.filter_eq_self.2, List.filter_eq_nil_iff.2, List.append_nil]
  · intro el hel; simp [mem_zones_placed h el hel]
  · intro el hel; simp [h.pool el hel]

theorem Inv.placed_eq {s : State} (h : Inv s) :
    placedElements s = s.dropZones.flatMap (fun zone => zone.children) := by
  unfold placedElements allElements
  rw [List.filter_append, List.filter_eq_nil_iff.2, List.filter_eq_self.2, List.nil_append]
  · intro el hel; simp [mem_zones_placed h el hel]
  · intro el hel; simp [h.pool el hel]

theorem Inv.count {s : State} (h : Inv s) :
    s.aminoAcidsContainer.length + (placedElements s).length = 20 := by
  rw [h.placed_eq, ← List.length_append]
  exact h.length_eq

theorem find?_of_nodup {α β : Type} [DecidableEq β] (f : α → β) :
    ∀ (l : List α) (a : α), (l.map f).Nodup → a ∈ l →
      l.find? (fun x => decide (f x = f a)) = some a
  | [], _, _, h => by simp at h
  | x :: xs, a, hnd, h => by
      simp only [List.map_cons, List.nodup_cons] at hnd
      by_cases hx : f x = f a
      · rcases List.mem_cons.1 h with rfl | h'
        · simp
        · exact absurd (hx ▸ List.mem_map_of_mem f h') hnd.1
      · have ha : a ∈ xs := by
          rcases List.mem_cons.1 h with rfl | h'
          · exact absurd rfl hx
          · exact h'
        simp only [List.find?_cons, hx, decide_False]
        exact find?_of_nodup f xs a hnd.2 ha

theorem find?_eq_none_of_not_mem {α β : Type} [DecidableEq β] (f : α → β) (b : β) (l : List α)
    (h : b ∉ l.map f) : l.find? (fun x => decide (f x = b)) = none := by
  rw [List.find?_eq_none]
  intro x hx
  simp only [decide_eq_true_eq]
  intro hfx
  exact h (hfx ▸ List.mem_map_of_mem f hx)

theorem Inv.find_pool {s : State} (h : Inv s) {el : Element} (hel : el ∈ s.aminoAcidsContainer) :
    (unplacedElements s).find? (fun x => decide (x.textContent = el.textContent)) = some el := by
  rw [h.unplaced_eq]
  have hnd := h.names_nodup
  unfold allElements at hnd
  rw [List.map_append] at hnd
  exact find?_of_nodup Element.textContent _ el (List.nodup_append.1 hnd).1 hel

theorem Inv.find_all {s : State} (h : Inv s) {el : Element} (hel : el ∈ allElements s) :
    (allElements s).find? (fun x => decide (x.textContent = el.textContent)) = some el :=
  find?_of_nodup Element.textContent _ el h.names_nodup hel

theorem Inv.find_zone {s : State} (h : Inv s) {el : Element}
    (hel : el ∈ s.dropZones.flatMap (fun zone => zone.children)) :
    (unplacedElements s).find? (fun x => decide (x.textContent = el.textContent)) = none := by
  rw [h.unplaced_eq]
  apply find?_eq_none_of_not_mem
  have hnd := h.names_nodup
  unfold allElements at hnd
  rw [List.map_append] at hnd
  intro hmem
  exact (List.nodup_append.1 hnd).2.2 hmem (List.mem_map_of_mem _ hel)

theorem flatMap_map_children (g : Element → Element) : ∀ (zones : List DropZone),
    (zones.map fun zone => { zone with children := zone.children.map g }).flatMap
        (fun zone => zone.children)
      = (zones.flatMap fun zone => zone.children).map g
  | [] => rfl
  | z :: zs => by
      simp only [List.map_cons, List.flatMap_cons, List.map_append, flatMap_map_children g zs]

theorem allElements_updateElement (id : Nat) (f : Element → Element) (s : State) :
    allElements (updateElement id f s)
      = (allElements s).map fun el => if el.id = id then f el else el := by
  simp only [allElements, updateElement, List.map_append, flatMap_map_children]

theorem Inv.update {s : State} (h : Inv s) (id : Nat) (f : Element → Element)
    (hacid : ∀ el, (f el).acid = el.acid) (hid : ∀ el, (f el).id = el.id)
    (hplaced : ∀ el, (f el).placed = el.placed) (hcorrect : ∀ el, (f el).correct = el.correct)
    (hcat : ∀ el, (f el).category = el.category) :
    Inv (updateElement id f s) := by
  refine ⟨?_, ?_, ?_, ?_⟩
  · rw [allElements_updateElement, List.map_map]
    have : (Element.acid ∘ fun el => if el.id = id then f el else el) = Element.acid := by
      funext el; simp only [Function.comp]; split
      · exact hacid el
      · rfl
    rw [this]; exact h.perm
  · rw [allElements_updateElement, List.map_map]
    have : (Element.id ∘ fun el => if el.id = id then f el else el) = Element.id := by
      funext el; simp only [Function.comp]; split
      · exact hid el
      · rfl
    rw [this]; exact h.ids
  · intro el hel
    simp only [updateElement, List.mem_map] at hel
    obtain ⟨e, he, rfl⟩ := hel
    split
    · rw [hplaced]; exact h.pool e he
    · exact h.pool e he
  · intro zone hz el hel
    simp only [updateElement, List.mem_map] at hz
    obtain ⟨z, hz', rfl⟩ := hz
    simp only [List.mem_map] at hel
    obtain ⟨e, he, rfl⟩ := hel
    obtain ⟨h1, h2, h3⟩ := h.zones z hz' e he
    split
    · exact ⟨(hplaced e).trans h1, (hcorrect e).trans h2, by rw [hcat]; exact h3⟩
    · exact ⟨h1, h2, h3⟩

theorem filter_id_perm : ∀ (l : List Element) (el : Element), (l.map Element.id).Nodup → el ∈ l →
    (el :: l.filter fun child => decide (child.id ≠ el.id)).Perm l
  | [], _, _, h => by simp at h
  | x :: xs, el, hnd, h => by
      simp only [List.map_cons, List.nodup_cons] at hnd
      by_cases hx : x.id = el.id
      · have hxe : x = el := by
          rcases List.mem_cons.1 h with rfl | h'
          · rfl
          · exact absurd (hx ▸ List.mem_map_of_mem Element.id h') hnd.1
        subst hxe
        have hfil : (x :: xs).filter (fun child => decide (child.id ≠ x.id)) = xs := by
          rw [List.filter_cons_of_neg (by simp)]
          rw [List.filter_eq_self]
          intro a ha
          simp only [ne_eq, decide_not, Bool.not_eq_eq_eq_not, Bool.not_true, decide_eq_false_iff_not]
          intro hax
          exact hnd.1 (hax ▸ List.mem_map_of_mem Element.id ha)
        rw [hfil]
      · have hel : el ∈ xs := by
          rcases List.mem_cons.1 h with rfl | h'
          · exact absurd rfl hx
          · exact h'
        rw [List.filter_cons_of_pos (by simpa using hx)]
        exact (List.Perm.swap x el _).trans ((filter_id_perm xs el hnd.2 hel).cons x)

theorem filter_id_self (l : List Element) (id : Nat) (h : id ∉ l.map Element.id) :
    l.filter (fun child => decide (child.id ≠ id)) = l := by
  rw [List.filter_eq_self]
  intro a ha
  simp only [ne_eq, decide_not, Bool.not_eq_eq_eq_not, Bool.not_true, decide_eq_false_iff_not]
  intro hax
  exact h (hax ▸ List.mem_map_of_mem Element.id ha)

theorem map_remove_self (id : Nat) : ∀ (zones : List DropZone),
    id ∉ (zones.flatMap fun zone => zone.children).map Element.id →
    (zones.map fun z => { z with children := z.children.filter fun child => decide (child.id ≠ id) })
      = zones
  | [], _ => rfl
  | z :: zs, h => by
      simp only [List.flatMap_cons, List.map_append, List.mem_append, not_or] at h
      simp only [List.map_cons, filter_id_self z.children id h.1, map_remove_self id zs h.2]

theorem flatMap_modify_perm (el : Element) : ∀ (zones : List DropZone) (zone : Nat),
    zone < zones.length →
    ((zones.modify (fun z => { z with children := z.children ++ [el] }) zone).flatMap
        fun zone => zone.children).Perm
      (el :: zones.flatMap fun zone => zone.children)
  | [], _, h => by simp at h
  | z :: zs, 0, _ => by
      simp only [List.modify_zero_cons, List.flatMap_cons, List.append_assoc]
      exact List.perm_middle
  | z :: zs, n + 1, h => by
      simp only [List.modify_succ_cons, List.flatMap_cons]
      refine (List.Perm.append_left z.children
        (flatMap_modify_perm el zs n (by simpa using h))).trans ?_
      exact List.perm_middle

theorem mem_modify {α : Type} (f : α → α) : ∀ (l : List α) (n : Nat) (a : α),
    a ∈ l.modify f n → a ∈ l ∨ ∃ b, l[n]? = some b ∧ a = f b
  | [], _, a, h => by simp at h
  | x :: xs, 0, a, h => by
      simp only [List.modify_zero_cons, List.mem_cons] at h
      rcases h with rfl | h
      · exact Or.inr ⟨x, by simp, rfl⟩
      · exact Or.inl (List.mem_cons_of_mem _ h)
  | x :: xs, n + 1, a, h => by
      simp only [List.modify_succ_cons, List.mem_cons] at h
      rcases h with rfl | h
      · exact Or.inl (List.mem_cons_self _ _)
      · rcases mem_modify f xs n a h with h' | ⟨b, hb, rfl⟩
        · exact Or.inl (List.mem_cons_of_mem _ h')
        · exact Or.inr ⟨b, by simpa using hb, rfl⟩

theorem allElements_appendChild_perm {s : State} (h : Inv s) {el : Element}
    (hel : el ∈ s.aminoAcidsContainer) (el' : Element) (hid : el'.id = el.id) (zone : Nat)
    (hz : zone < s.dropZones.length) :
    (appendChild zone el' s).aminoAcidsContainer
        = s.aminoAcidsContainer.filter (fun child => decide (child.id ≠ el.id)) ∧
    (appendChild zone el' s).dropZones
        = s.dropZones.modify (fun z => { z with children := z.children ++ [el'] }) zone ∧
    (el :: s.aminoAcidsContainer.filter fun child => decide (child.id ≠ el.id)).Perm
        s.aminoAcidsContainer ∧
    ((appendChild zone el' s).dropZones.flatMap fun zone => zone.children).Perm
        (el' :: s.dropZones.flatMap fun zone => zone.children) := by
  have hids := h.ids
  unfold allElements at hids
  rw [List.map_append] at hids
  obtain ⟨hc, _, hdisj⟩ := List.nodup_append.1 hids
  have hnot : el.id ∉ (s.dropZones.flatMap fun zone => zone.children).map Element.id :=
    fun hmem => hdisj (List.mem_map_of_mem Element.id hel) hmem
  have hzones : (appendChild zone el' s).dropZones
      = s.dropZones.modify (fun z => { z with children := z.children ++ [el'] }) zone := by
    simp only [appendChild, hid]
    rw [map_remove_self el.id s.dropZones hnot]
  refine ⟨by simp only [appendChild, hid], hzones, filter_id_perm _ el hc hel, ?_⟩
  rw [hzones]
  exact flatMap_modify_perm el' s.dropZones zone hz

theorem Inv.append {s : State} (h : Inv s) {el : Element}
    (hel : el ∈ s.aminoAcidsContainer) {zone : Nat} {this : DropZone}
    (hz : s.dropZones[zone]? = some this) (hcat : some el.category = this.category) :
    Inv (appendChild zone { el with correct := true, placed := true } s) := by
  have hlt : zone < s.dropZones.length := (List.getElem?_eq_some_iff.1 hz).1
  obtain ⟨hc, hzs, hp1, hp2⟩ :=
    allElements_appendChild_perm h hel { el with correct := true, placed := true } rfl zone hlt
  have hall : ∀ {β : Type} (g : Element → β),
      g { el with correct := true, placed := true } = g el →
      ((allElements (appendChild zone
        { el with correct := true, placed := true } s)).map g).Perm ((allElements s).map g) := by
    intro β g hg
    unfold allElements
    rw [hc]
    refine ((List.Perm.append_left _ hp2).map g).trans ?_
    refine (List.perm_middle.map g).trans ?_
    rw [List.map_cons, hg, ← List.map_cons, ← List.cons_append]
    exact (List.Perm.append_right _ hp1).map g
  refine ⟨(hall Element.acid rfl).trans h.perm, (hall Element.id rfl).nodup_iff.2 h.ids, ?_, ?_⟩
  · intro e he
    rw [hc] at he
    exact h.pool e (List.mem_filter.1 he).1
  · intro z hzm e he
    rw [hzs] at hzm
    rcases mem_modify _ _ _ _ hzm with hz' | ⟨b, hb, rfl⟩
    · exact h.zones z hz' e he
    · rw [hz] at hb
      cases hb
      simp only [List.mem_append, List.mem_singleton] at he
      rcases he with he | rfl
      · exact h.zones this (List.getElem?_mem hz) e he
      · exact ⟨rfl, rfl, hcat.symm⟩

theorem Inv.completion {s : State} (h : Inv s) :
    Inv (checkGameCompletion s) := by
  unfold checkGameCompletion
  dsimp only
  split
  · exact h.of_eq rfl rfl
  · exact h

theorem Inv.init (rand : Nat → Rnd) (s : State) : Inv (initGame rand s) := by
  have hall := initGame_allElements rand s
  refine ⟨by rw [hall]; exact initGame_perm rand s, ?_, fun el hel => (initGame_fresh rand s el hel).1, ?_⟩
  · rw [hall, initGame_container, createElements_id]
    exact List.nodup_range' _ _
  · intro zone hz el hel
    rw [initGame_zones rand s zone hz] at hel
    simp at hel

/-- The result of `drop` with the drag data of an element `el` of the pool: the match
branch or the mismatch branch, by the category of the zone. -/
theorem drop_pool {s : State} (h : Inv s) {el : Element} (hel : el ∈ s.aminoAcidsContainer)
    {zone : Nat} {this : DropZone} (hz : s.dropZones[zone]? = some this) :
    drop s (dragStart el) zone =
      if some el.category = this.category then
        checkGameCompletion (appendChild zone { el with correct := true, placed := true } s)
      else
        { updateElement el.id (fun el => { el with incorrect := true }) s with
          timers := s.timers ++ [Timer.removeIncorrect el.id] } := by
  unfold drop
  simp only [hz, dragStart]
  rw [h.find_pool hel]
  rfl

theorem drop_zone_child {s : State} (h : Inv s) {el : Element}
    (hel : el ∈ s.dropZones.flatMap (fun zone => zone.children)) (zone : Nat) :
    drop s (dragStart el) zone = s := by
  unfold drop
  cases hz : s.dropZones[zone]? with
  | none => rfl
  | some this =>
      simp only [dragStart]
      rw [h.find_zone hel]

theorem drop_none (s : State) (dataTransfer : DataTransfer) (zone : Nat)
    (hz : s.dropZones[zone]? = none) : drop s dataTransfer zone = s := by
  unfold drop
  rw [hz]

/-- The three outcomes of a drag-and-drop event in a state of a session. -/
theorem step_dragDrop_cases {s : State} (h : Inv s) (name : String) (zone : Nat) :
    step s (Event.dragDrop name zone) = s ∨
    ∃ el this, el ∈ s.aminoAcidsContainer ∧ el.textContent = name ∧
      s.dropZones[zone]? = some this ∧
      ((some el.category = this.category ∧
        step s (Event.dragDrop name zone) =
          checkGameCompletion (appendChild zone { el with correct := true, placed := true } s)) ∨
       (some el.category ≠ this.category ∧
        step s (Event.dragDrop name zone) =
          { updateElement el.id (fun el => { el with incorrect := true }) s with
            timers := s.timers ++ [Timer.removeIncorrect el.id] })) := by
  have hstep : step s (Event.dragDrop name zone) =
      match (allElements s).find? (fun el => decide (el.textContent = name)) with
      | none => s
      | some target => drop s (dragStart target) zone := rfl
  rw [hstep]
  cases hfind : (allElements s).find? (fun el => decide (el.textContent = name)) with
  | none => exact Or.inl rfl
  | some target =>
      simp only []
      have hmem : target ∈ allElements s := List.mem_of_find?_eq_some hfind
      have hname : target.textContent = name := by
        simpa using List.find?_some hfind
      cases hz : s.dropZones[zone]? with
      | none => exact Or.inl (drop_none s _ zone hz)
      | some this =>
          rcases List.mem_append.1 hmem with hpool | hzone
          · refine Or.inr ⟨target, this, hpool, hname, rfl, ?_⟩
            rw [drop_pool h hpool hz]
            by_cases hcat : some target.category = this.category
            · exact Or.inl ⟨hcat, by rw [if_pos hcat]⟩
            · exact Or.inr ⟨hcat, by rw [if_neg hcat]⟩
          · exact Or.inl (drop_zone_child h hzone zone)

theorem Inv.incorrect {s : State} (h : Inv s) (id : Nat) (b : Bool) (timers : List Timer) :
    Inv { updateElement id (fun el => { el with incorrect := b }) s with timers := timers } :=
  (h.update id (fun el => { el with incorrect := b }) (fun _ => rfl) (fun _ => rfl)
    (fun _ => rfl) (fun _ => rfl) (fun _ => rfl)).of_eq rfl rfl

theorem Inv.fire {s : State} (h : Inv s) (k : Nat) : Inv (fireTimer s k) := by
  unfold fireTimer
  split
  · exact h
  · rename_i timer _
    cases timer with
    | removeIncorrect id => exact h.incorrect id false _
    | showModal => exact h.of_eq rfl rfl

theorem Inv.after_step {s : State} (h : Inv s) (e : Event) : Inv (step s e) := by
  cases e with
  | fire k => exact h.fire k
  | dragDrop name zone =>
      rcases step_dragDrop_cases h name zone with heq | ⟨el, this, hel, _, hz, ⟨hcat, heq⟩ | ⟨_, heq⟩⟩
      · rw [heq]; exact h
      · rw [heq]; exact (h.append hel hz hcat).completion
      · rw [heq]; exact h.incorrect el.id true _

theorem Inv.after_run {s : State} (h : Inv s) (events : List Event) : Inv (run s events) := by
  induction events generalizing s with
  | nil => exact h
  | cons e events ih => exact ih (h.after_step e)

theorem Reachable.inv {s : State} (h : Reachable s) : Inv s := by
  induction h with
  | init rand s => exact Inv.init rand s
  | step e _ ih => exact ih.after_step e

theorem checkGameCompletion_container (s : State) :
    (checkGameCompletion s).aminoAcidsContainer = s.aminoAcidsContainer := by
  unfold checkGameCompletion; dsimp only; split <;> rfl

theorem checkGameCompletion_dropZones (s : State) :
    (checkGameCompletion s).dropZones = s.dropZones := by
  unfold checkGameCompletion; dsimp only; split <;> rfl

theorem Inv.not_mem_zone_ids {s : State} (h : Inv s) {el : Element}
    (hel : el ∈ s.aminoAcidsContainer) :
    el.id ∉ (s.dropZones.flatMap fun zone => zone.children).map Element.id := by
  have hids := h.ids
  unfold allElements at hids
  rw [List.map_append] at hids
  exact fun hmem => (List.nodup_append.1 hids).2.2 (List.mem_map_of_mem Element.id hel) hmem

theorem map_update_self (id : Nat) (f : Element → Element) : ∀ (zones : List DropZone),
    id ∉ (zones.flatMap fun zone => zone.children).map Element.id →
    (zones.map fun z =>
        { z with children := z.children.map fun el => if el.id = id then f el else el })
      = zones
  | [], _ => rfl
  | z :: zs, h => by
      simp only [List.flatMap_cons, List.map_append, List.mem_append, not_or] at h
      have hz : (z.children.map fun el => if el.id = id then f el else el) = z.children := by
        conv => rhs; rw [← List.map_id z.children]
        apply List.map_congr_left
        intro a ha
        have : a.id ≠ id := fun hax => h.1 (hax ▸ List.mem_map_of_mem Element.id ha)
        simp [this]
      simp only [List.map_cons, hz, map_update_self id f zs h.2]

theorem Inv.updateElement_dropZones {s : State} (h : Inv s) {el : Element}
    (hel : el ∈ s.aminoAcidsContainer) (f : Element → Element) :
    (updateElement el.id f s).dropZones = s.dropZones := by
  simp only [updateElement]
  exact map_update_self el.id f s.dropZones (h.not_mem_zone_ids hel)

/-- C1. In every state of a session, for every unplaced item element `el` and every drop
zone `this`, `drop` with the drag data of `el` makes `el` a placed element if and only if
the category of `el` equals the category of the zone.  When they are equal, `el` with the
classes `correct` and `placed` becomes the last child of the zone, leaves the unplaced
elements and is the one element added to the placed elements.  When they differ, the
placed elements and the drop zones are unchanged and `el`, now `incorrect`, is still among
the unplaced elements. -/
theorem drop_places_iff_category {s : State} (hs : Reachable s) (el : Element)
    (hel : el ∈ unplacedElements s) (zone : Nat) (this : DropZone)
    (hz : s.dropZones[zone]? = some this) :
    (isPlaced (drop s (dragStart el) zone) el.id = true ↔ some el.category = this.category) ∧
    (some el.category = this.category →
      (drop s (dragStart el) zone).dropZones[zone]?
        = some { this with
            children := this.children ++ [{ el with correct := true, placed := true }] } ∧
      (∀ x ∈ unplacedElements (drop s (dragStart el) zone), x.id ≠ el.id) ∧
      (placedElements (drop s (dragStart el) zone)).Perm
        ({ el with correct := true, placed := true } :: placedElements s)) ∧
    (some el.category ≠ this.category →
      placedElements (drop s (dragStart el) zone) = placedElements s ∧
      (drop s (dragStart el) zone).dropZones = s.dropZones ∧
      { el with incorrect := true } ∈ unplacedElements (drop s (dragStart el) zone)) := by
  have h := hs.inv
  have hpool : el ∈ s.aminoAcidsContainer := h.unplaced_eq ▸ hel
  have hdrop := drop_pool h hpool hz
  have hlt : zone < s.dropZones.length := (List.getElem?_eq_some_iff.1 hz).1
  have hmatch : some el.category = this.category →
      isPlaced (drop s (dragStart el) zone) el.id = true ∧
      (drop s (dragStart el) zone).dropZones[zone]?
        = some { this with
            children := this.children ++ [{ el with correct := true, placed := true }] } ∧
      (∀ x ∈ unplacedElements (drop s (dragStart el) zone), x.id ≠ el.id) ∧
      (placedElements (drop s (dragStart el) zone)).Perm
        ({ el with correct := true, placed := true } :: placedElements s) := by
    intro hcat
    rw [hdrop, if_pos hcat]
    have hinv' := (h.append hpool hz hcat).completion
    obtain ⟨hc, hzs, _, hp2⟩ :=
      allElements_appendChild_perm h hpool { el with correct := true, placed := true } rfl zone hlt
    have hperm : (placedElements (checkGameCompletion
        (appendChild zone { el with correct := true, placed := true } s))).Perm
        ({ el with correct := true, placed := true } :: placedElements s) := by
      rw [hinv'.placed_eq, h.placed_eq, checkGameCompletion_dropZones]
      exact hp2
    refine ⟨?_, ?_, ?_, hperm⟩
    · unfold isPlaced
      rw [List.any_eq_true]
      exact ⟨_, hperm.mem_iff.2 (List.mem_cons_self _ _), by simp⟩
    · rw [checkGameCompletion_dropZones, hzs, List.getElem?_modify, hz]
      simp
    · intro x hx
      rw [hinv'.unplaced_eq, checkGameCompletion_container, hc] at hx
      simpa using (List.mem_filter.1 hx).2
  have hmismatch : some el.category ≠ this.category →
      isPlaced (drop s (dragStart el) zone) el.id = false ∧
      placedElements (drop s (dragStart el) zone) = placedElements s ∧
      (drop s (dragStart el) zone).dropZones = s.dropZones ∧
      { el with incorrect := true } ∈ unplacedElements (drop s (dragStart el) zone) := by
    intro hcat
    rw [hdrop, if_neg hcat]
    have hinv' : Inv { updateElement el.id (fun el => { el with incorrect := true }) s with
        timers := s.timers ++ [Timer.removeIncorrect el.id] } := h.incorrect el.id true _
    have hzones : ({ updateElement el.id (fun el => { el with incorrect := true }) s with
        timers := s.timers ++ [Timer.removeIncorrect el.id] } : State).dropZones = s.dropZones :=
      h.updateElement_dropZones hpool _
    have hplaced : placedElements { updateElement el.id (fun el => { el with incorrect := true }) s
        with timers := s.timers ++ [Timer.removeIncorrect el.id] } = placedElements s := by
      rw [hinv'.placed_eq, h.placed_eq, hzones]
    refine ⟨?_, hplaced, hzones, ?_⟩
    · unfold isPlaced
      rw [hplaced, h.placed_eq, Bool.eq_false_iff]
      intro hany
      rw [List.any_eq_true] at hany
      obtain ⟨x, hx, hxid⟩ := hany
      simp only [decide_eq_true_eq] at hxid
      exact h.not_mem_zone_ids hpool (hxid ▸ List.mem_map_of_mem Element.id hx)
    · rw [hinv'.unplaced_eq]
      simp only [updateElement, List.mem_map]
      exact ⟨el, hpool, by simp⟩
  refine ⟨⟨?_, fun hcat => (hmatch hcat).1⟩, fun hcat => (hmatch hcat).2, fun hcat => (hmismatch hcat).2⟩
  intro hp
  by_contra hcat
  rw [(hmismatch hcat).1] at hp
  exact Bool.false_ne_true hp

theorem drop_places_iff_category_witness :
    (isPlaced (drop State.start (dragStart (createElement 0
        { name := "甘氨酸", category := "A", fullName := "甘氨酸(α-氨基乙酸)" })) 0) 0 = true
      ↔ some "A" = some "A") ∧
    placedElements (drop State.start (dragStart (createElement 0
        { name := "甘氨酸", category := "A", fullName := "甘氨酸(α-氨基乙酸)" })) 1)
      = placedElements State.start :=
  ⟨(drop_places_iff_category (Reachable.init _ _) (createElement 0
        { name := "甘氨酸", category := "A", fullName := "甘氨酸(α-氨基乙酸)" })
      (by decide) 0 { category := some "A", children := [] } (by decide)).1,
   ((drop_places_iff_category (Reachable.init _ _) (createElement 0
        { name := "甘氨酸", category := "A", fullName := "甘氨酸(α-氨基乙酸)" })
      (by decide) 1 { category := some "B", children := [] } (by decide)).2.2 (by decide)).1⟩

theorem placedNames_length (s : State) : (placedNames s).length = (placedElements s).length := by
  simp [placedNames]

theorem checkGameCompletion_placed (s : State) :
    placedElements (checkGameCompletion s) = placedElements s := by
  unfold placedElements allElements
  rw [checkGameCompletion_container, checkGameCompletion_dropZones]

theorem placedElements_congr {s s' : State} (hc : s'.aminoAcidsContainer = s.aminoAcidsContainer)
    (hz : s'.dropZones = s.dropZones) : placedElements s' = placedElements s := by
  unfold placedElements allElements
  rw [hc, hz]

theorem placedNames_update {s : State} (h : Inv s) (id : Nat) (b : Bool) :
    placedNames (updateElement id (fun el => { el with incorrect := b }) s) = placedNames s := by
  unfold placedNames
  have h' : Inv (updateElement id (fun el => { el with incorrect := b }) s) :=
    (h.incorrect id b s.timers).of_eq rfl rfl
  rw [h'.placed_eq, h.placed_eq]
  simp only [updateElement, flatMap_map_children, List.map_map]
  apply List.map_congr_left
  intro a _
  simp only [Function.comp]
  split <;> rfl

theorem placedNames_incorrect {s : State} (h : Inv s) (id : Nat) (b : Bool) (timers : List Timer) :
    placedNames { updateElement id (fun el => { el with incorrect := b }) s with timers := timers }
      = placedNames s := by
  have hcongr : placedElements
      { updateElement id (fun el => { el with incorrect := b }) s with timers := timers }
      = placedElements (updateElement id (fun el => { el with incorrect := b }) s) :=
    placedElements_congr rfl rfl
  have hupd := placedNames_update h id b
  unfold placedNames at hupd ⊢
  rw [hcongr, hupd]

theorem placedNames_fireTimer {s : State} (h : Inv s) (k : Nat) :
    placedNames (fireTimer s k) = placedNames s := by
  unfold fireTimer
  split
  · rfl
  · rename_i timer _
    cases timer with
    | removeIncorrect id =>
        have h1 : Inv { s with timers := s.timers.eraseIdx k } := h.of_eq rfl rfl
        exact (placedNames_update h1 id false).trans rfl
    | showModal => rfl

theorem append_singleton_ne {α : Type} (l : List α) (a : α) : l ≠ l ++ [a] := by
  intro h
  have := congrArg List.length h
  simp at this

/-- What one event does to the placed elements and whether it triggers the success modal:
either the displayed names of the placed elements stay the same and nothing is triggered,
or the event drops a pool element on a zone of its category, which adds its name, and the
modal is triggered exactly when the placed elements are then 20. -/
theorem step_effect {s : State} (h : Inv s) (e : Event) :
    (placedNames (step s e) = placedNames s ∧ triggersSuccess s e = false) ∨
    (∃ el ∈ s.aminoAcidsContainer, (placedNames (step s e)).Perm (el.textContent :: placedNames s) ∧
      triggersSuccess s e = decide ((placedElements (step s e)).length = 20)) := by
  cases e with
  | fire k => exact Or.inl ⟨placedNames_fireTimer h k, rfl⟩
  | dragDrop name zone =>
      rcases step_dragDrop_cases h name zone with heq | ⟨el, this, hel, _, hz, ⟨hcat, heq⟩ | ⟨_, heq⟩⟩
      · refine Or.inl ⟨by rw [heq], ?_⟩
        simp only [triggersSuccess, heq, decide_eq_false_iff_not]
        exact append_singleton_ne _ _
      · refine Or.inr ⟨el, hel, ?_, ?_⟩
        · have hlt : zone < s.dropZones.length := (List.getElem?_eq_some_iff.1 hz).1
          obtain ⟨_, _, _, hp2⟩ := allElements_appendChild_perm h hel
            { el with correct := true, placed := true } rfl zone hlt
          rw [heq]
          unfold placedNames
          rw [checkGameCompletion_placed, (h.append hel hz hcat).placed_eq, h.placed_eq]
          exact hp2.map Element.textContent
        · simp only [triggersSuccess]
          rw [heq, checkGameCompletion_placed]
          unfold checkGameCompletion
          dsimp only
          by_cases hlen : (placedElements
              (appendChild zone { el with correct := true, placed := true } s)).length = aminoAcids.length
          · rw [if_pos hlen]
            have h20 : (placedElements
              (appendChild zone { el with correct := true, placed := true } s)).length = 20 := hlen
            rw [h20]
            simp only [decide_True, decide_eq_true_eq]
            rfl
          · rw [if_neg hlen]
            have h20 : ¬ (placedElements
              (appendChild zone { el with correct := true, placed := true } s)).length = 20 := hlen
            simp only [h20, decide_False, decide_eq_false_iff_not]
            exact append_singleton_ne s.timers _
      · refine Or.inl ⟨by rw [heq]; exact placedNames_incorrect h el.id true _, ?_⟩
        simp only [triggersSuccess, heq, decide_eq_false_iff_not]
        intro habs
        have := List.append_cancel_left habs
        simp at this

theorem step_placed_length {s : State} (h : Inv s) (e : Event) :
    ((placedElements (step s e)).length = (placedElements s).length ∧ triggersSuccess s e = false) ∨
    ((placedElements (step s e)).length = (placedElements s).length + 1 ∧
      triggersSuccess s e = decide ((placedElements (step s e)).length = 20)) := by
  rcases step_effect h e with ⟨h1, h2⟩ | ⟨el, _, h1, h2⟩
  · exact Or.inl ⟨by rw [← placedNames_length, h1, placedNames_length], h2⟩
  · refine Or.inr ⟨?_, h2⟩
    rw [← placedNames_length, h1.length_eq, List.length_cons, placedNames_length]

theorem Inv.placed_le {s : State} (h : Inv s) : (placedElements s).length ≤ 20 := by
  have := h.count; omega

theorem run_placed_mono {s : State} (h : Inv s) (events : List Event) :
    (placedElements s).length ≤ (placedElements (run s events)).length := by
  induction events generalizing s with
  | nil => exact Nat.le_refl _
  | cons e events ih =>
      have h1 := ih (h.after_step e)
      have h2 : (placedElements s).length ≤ (placedElements (step s e)).length := by
        rcases step_placed_length h e with ⟨h, _⟩ | ⟨h, _⟩ <;> omega
      exact Nat.le_trans h2 h1

theorem triggerCount_eq {s : State} (h : Inv s) (events : List Event) :
    triggerCount s events
      = if (placedElements s).length < 20 ∧ (placedElements (run s events)).length = 20
        then 1 else 0 := by
  induction events generalizing s with
  | nil =>
      simp only [triggerCount, run, List.foldl_nil]
      rw [if_neg]; omega
  | cons e events ih =>
      have hrun : run s (e :: events) = run (step s e) events := rfl
      have hmono := run_placed_mono (h.after_step e) events
      have hle := (h.after_step e).after_run events |>.placed_le
      rw [hrun, triggerCount, ih (h.after_step e)]
      have hstep := step_placed_length h e
      generalize (placedElements s).length = n at hstep ⊢
      generalize (placedElements (step s e)).length = n' at hstep hmono ⊢
      generalize (placedElements (run (step s e) events)).length = N at hmono hle ⊢
      generalize triggersSuccess s e = t at hstep ⊢
      rcases hstep with ⟨h1, rfl⟩ | ⟨h1, rfl⟩
      · subst h1
        simp
      · by_cases h20 : n' = 20
        · have hN : N = 20 := by omega
          have hn : n < 20 := by omega
          simp [h20, hN, hn]
        · have hlt : n' < 20 ∧ n < 20 := by omega
          by_cases hN : N = 20
          · simp [h20, hN, hlt.1, hlt.2]
          · simp [h20, hN]

theorem step_pool {s : State} (h : Inv s) {el : Element} (hel : el ∈ s.aminoAcidsContainer)
    (zone : Nat) : step s (Event.dragDrop el.textContent zone) = drop s (dragStart el) zone := by
  have hstep : step s (Event.dragDrop el.textContent zone) =
      match (allElements s).find? (fun x => decide (x.textContent = el.textContent)) with
      | none => s
      | some target => drop s (dragStart target) zone := rfl
  rw [hstep, h.find_all (List.mem_append_left _ hel)]

theorem step_placed_child {s : State} (h : Inv s) {el : Element}
    (hel : el ∈ placedElements s) (zone : Nat) :
    step s (Event.dragDrop el.textContent zone) = s ∧ drop s (dragStart el) zone = s := by
  rw [h.placed_eq] at hel
  have hstep : step s (Event.dragDrop el.textContent zone) =
      match (allElements s).find? (fun x => decide (x.textContent = el.textContent)) with
      | none => s
      | some target => drop s (dragStart target) zone := rfl
  rw [hstep, h.find_all (List.mem_append_right _ hel)]
  exact ⟨drop_zone_child h hel zone, drop_zone_child h hel zone⟩

theorem names_mono_step {s : State} (h : Inv s) (e : Event) {name : String}
    (hn : name ∈ placedNames s) : name ∈ placedNames (step s e) := by
  rcases step_effect h e with ⟨h1, _⟩ | ⟨el, _, h1, _⟩
  · rw [h1]; exact hn
  · exact h1.mem_iff.2 (List.mem_cons_of_mem _ hn)

theorem names_mono_run {s : State} (h : Inv s) (events : List Event) {name : String}
    (hn : name ∈ placedNames s) : name ∈ placedNames (run s events) := by
  induction events generalizing s with
  | nil => exact hn
  | cons e events ih => exact ih (h.after_step e) (names_mono_step h e hn)

theorem map_modify_eq {α β : Type} (g : α → β) (f : α → α) (hf : ∀ a, g (f a) = g a) :
    ∀ (l : List α) (n : Nat), (l.modify f n).map g = l.map g
  | [], _ => by simp
  | x :: xs, 0 => by simp [hf]
  | x :: xs, n + 1 => by simp [map_modify_eq g f hf xs n]

theorem updateElement_categories (id : Nat) (f : Element → Element) (s : State) :
    (updateElement id f s).dropZones.map DropZone.category = s.dropZones.map DropZone.category := by
  simp only [updateElement, List.map_map]
  rfl

theorem appendChild_categories (zone : Nat) (el : Element) (s : State) :
    (appendChild zone el s).dropZones.map DropZone.category
      = s.dropZones.map DropZone.category := by
  simp only [appendChild]
  rw [map_modify_eq DropZone.category
    (fun z => { z with children := z.children ++ [el] }) (fun _ => rfl), List.map_map]
  rfl

theorem drop_categories (s : State) (dataTransfer : DataTransfer) (zone : Nat) :
    (drop s dataTransfer zone).dropZones.map DropZone.category
      = s.dropZones.map DropZone.category := by
  unfold drop
  split
  · rfl
  · dsimp only
    split
    · rfl
    · split
      · rw [checkGameCompletion_dropZones, appendChild_categories]
      · exact updateElement_categories _ _ s

theorem fireTimer_categories (s : State) (k : Nat) :
    (fireTimer s k).dropZones.map DropZone.category = s.dropZones.map DropZone.category := by
  unfold fireTimer
  split
  · rfl
  · rename_i timer _
    cases timer with
    | removeIncorrect id => exact updateElement_categories id _ _
    | showModal => rfl

theorem step_categories (s : State) (e : Event) :
    (step s e).dropZones.map DropZone.category = s.dropZones.map DropZone.category := by
  cases e with
  | fire k => exact fireTimer_categories s k
  | dragDrop name zone =>
      have hstep : step s (Event.dragDrop name zone) =
          match (allElements s).find? (fun x => decide (x.textContent = name)) with
          | none => s
          | some target => drop s (dragStart target) zone := rfl
      rw [hstep]
      split
      · rfl
      · exact drop_categories s _ zone

theorem initGame_categories (rand : Nat → Rnd) (s : State) :
    (initGame rand s).dropZones.map DropZone.category = s.dropZones.map DropZone.category := by
  simp only [initGame, List.map_map]
  rfl

theorem correctDropOf_congr {zones zones' : List DropZone}
    (h : zones'.map DropZone.category = zones.map DropZone.category) (acid : AminoAcid)
    (e : Event) : correctDropOf zones' acid e = correctDropOf zones acid e := by
  cases e with
  | fire k => rfl
  | dragDrop name zone =>
      simp only [correctDropOf, ← List.getElem?_map, h]

theorem Inv.acid_eq {s : State} (h : Inv s) {el : Element} (hel : el ∈ allElements s)
    {acid : AminoAcid} (hacid : acid ∈ aminoAcids) (hname : el.textContent = acid.name) :
    el.acid = acid := by
  have hmem : el.acid ∈ aminoAcids := h.perm.mem_iff.1 (List.mem_map_of_mem _ hel)
  exact List.inj_on_of_nodup_map aminoAcids_names_nodup hmem hacid hname

theorem step_correct {s : State} (h : Inv s) {acid : AminoAcid} (hacid : acid ∈ aminoAcids)
    {e : Event} (he : correctDropOf s.dropZones acid e = true) :
    acid.name ∈ placedNames (step s e) := by
  cases e with
  | fire k => simp [correctDropOf] at he
  | dragDrop name zone =>
      simp only [correctDropOf, decide_eq_true_eq] at he
      obtain ⟨rfl, hzone⟩ := he
      obtain ⟨el, hel, hela⟩ := List.mem_map.1 (h.perm.mem_iff.2 hacid)
      have hname : el.textContent = acid.name := by rw [← hela]; rfl
      have hcategory : el.category = acid.category := by rw [← hela]; rfl
      rcases List.mem_append.1 hel with hpool | hz
      · obtain ⟨this, hthis, hcat⟩ := Option.map_eq_some'.1 hzone
        rw [← hname, step_pool h hpool zone, drop_pool h hpool hthis,
          if_pos (by rw [hcat, hcategory])]
        have hlt : zone < s.dropZones.length := (List.getElem?_eq_some_iff.1 hthis).1
        obtain ⟨_, _, _, hp2⟩ := allElements_appendChild_perm h hpool
          { el with correct := true, placed := true } rfl zone hlt
        unfold placedNames
        rw [checkGameCompletion_placed,
          (h.append hpool hthis (by rw [hcat, hcategory])).placed_eq]
        exact List.mem_map.2 ⟨_, hp2.mem_iff.2 (List.mem_cons_self _ _), rfl⟩
      · apply names_mono_step h
        rw [← hname]
        unfold placedNames
        rw [h.placed_eq]
        exact List.mem_map_of_mem _ hz

theorem run_correct {s : State} (h : Inv s) {acid : AminoAcid} (hacid : acid ∈ aminoAcids)
    (events : List Event) (he : events.any (correctDropOf s.dropZones acid) = true) :
    acid.name ∈ placedNames (run s events) := by
  induction events generalizing s with
  | nil => simp at he
  | cons e events ih =>
      simp only [List.any_cons, Bool.or_eq_true] at he
      rcases he with he | he
      · exact names_mono_run (h.after_step e) events (step_correct h hacid he)
      · apply ih (h.after_step e)
        have hf : correctDropOf (step s e).dropZones acid = correctDropOf s.dropZones acid :=
          funext (correctDropOf_congr (step_categories s e) acid)
        rw [hf]
        exact he

theorem Inv.placedNames_nodup {s : State} (h : Inv s) : (placedNames s).Nodup := by
  unfold placedNames placedElements
  exact (h.names_nodup).sublist ((List.filter_sublist _).map _)

theorem Inv.placedIds_nodup {s : State} (h : Inv s) :
    ((placedElements s).map Element.id).Nodup := by
  unfold placedElements
  exact (h.ids).sublist ((List.filter_sublist _).map _)

theorem Inv.all_placed_of_names {s : State} (h : Inv s)
    (hall : ∀ acid ∈ aminoAcids, acid.name ∈ placedNames s) : (placedElements s).length = 20 := by
  have hsub : aminoAcids.map AminoAcid.name ⊆ placedNames s := by
    intro name hname
    obtain ⟨acid, hacid, rfl⟩ := List.mem_map.1 hname
    exact hall acid hacid
  have hle := (aminoAcids_names_nodup.subperm hsub).length_le
  rw [List.length_map, aminoAcids_length, placedNames_length] at hle
  have := h.placed_le
  omega

theorem initGame_placed_length (rand : Nat → Rnd) (s : State) :
    (placedElements (initGame rand s)).length = 0 := by
  have hc := (Inv.init rand s).count
  have hlen : (initGame rand s).aminoAcidsContainer.length = 20 := by
    have h := (initGame_perm rand s).length_eq
    rw [List.length_map] at h
    exact h.trans rfl
  omega

theorem Inv.placedCorrectly_of_full {s : State} (h : Inv s)
    (hfull : (placedElements s).length = 20) :
    ∀ acid ∈ aminoAcids, PlacedCorrectly s acid := by
  intro acid hacid
  have hcount := h.count
  have hnil : s.aminoAcidsContainer = [] := List.length_eq_zero.1 (by omega)
  obtain ⟨el, hel, hela⟩ := List.mem_map.1 (h.perm.mem_iff.2 hacid)
  unfold allElements at hel
  rw [hnil, List.nil_append] at hel
  obtain ⟨zone, hzone, hmem⟩ := List.mem_flatMap.1 hel
  obtain ⟨h1, h2, h3⟩ := h.zones zone hzone el hmem
  exact ⟨zone, hzone, by rw [h3, ← hela]; rfl, el, hmem, hela, h1, h2⟩

theorem Inv.full_of_placedCorrectly {s : State} (h : Inv s)
    (hall : ∀ acid ∈ aminoAcids, PlacedCorrectly s acid) : (placedElements s).length = 20 := by
  apply h.all_placed_of_names
  intro acid hacid
  obtain ⟨zone, hzone, _, el, hmem, hela, _, _⟩ := hall acid hacid
  unfold placedNames
  rw [h.placed_eq]
  exact List.mem_map.2 ⟨el, List.mem_flatMap.2 ⟨zone, hzone, hmem⟩, by rw [← hela]; rfl⟩

/-- The scheduling of the completion callback.  For every sequence of events after
`initGame` (drag-and-drop events, with any
timer firings in between), the success modal has been triggered at some event of the
sequence if and only if, at its end, every one of the 20 items sits in a drop zone of its
own category, marked `placed` and `correct`; it is triggered at most once.  No item is
placed twice: the placed elements display pairwise different names and are pairwise
different objects, and a drag of a placed element onto any zone leaves the state as it is,
because `drop` does not find the element among the unplaced ones. -/
theorem success_iff_all_placed (rand : Nat → Rnd) (s₀ : State) (events : List Event) :
    (0 < triggerCount (initGame rand s₀) events ↔
      ∀ acid ∈ aminoAcids, PlacedCorrectly (run (initGame rand s₀) events) acid) ∧
    triggerCount (initGame rand s₀) events ≤ 1 ∧
    (placedNames (run (initGame rand s₀) events)).Nodup ∧
    ((placedElements (run (initGame rand s₀) events)).map Element.id).Nodup ∧
    (∀ el ∈ placedElements (run (initGame rand s₀) events), ∀ zone,
      step (run (initGame rand s₀) events) (Event.dragDrop el.textContent zone)
          = run (initGame rand s₀) events ∧
      drop (run (initGame rand s₀) events) (dragStart el) zone
          = run (initGame rand s₀) events) := by
  have h0 := Inv.init rand s₀
  have h := h0.after_run events
  have htc := triggerCount_eq h0 events
  rw [initGame_placed_length] at htc
  refine ⟨⟨?_, ?_⟩, ?_, h.placedNames_nodup, h.placedIds_nodup,
    fun el hel zone => step_placed_child h hel zone⟩
  · intro hpos
    apply h.placedCorrectly_of_full
    by_contra hne
    rw [htc, if_neg (fun hh => hne hh.2)] at hpos
    exact Nat.lt_irrefl 0 hpos
  · intro hall
    rw [htc, if_pos ⟨by decide, h.full_of_placedCorrectly hall⟩]
    exact Nat.one_pos
  · rw [htc]
    split <;> omega

/-- C7. For every sequence of events after `initGame` in which each of the 20 items is
dropped on a zone of its own category, in any order and interleaved with any other drops
and timer firings, the placed elements are 20 at the end and the success modal is
triggered at exactly one event of the sequence. -/
theorem all_correct_drops_complete (rand : Nat → Rnd) (s₀ : State) (events : List Event)
    (hdrops : ∀ acid ∈ aminoAcids, events.any (correctDropOf s₀.dropZones acid) = true) :
    (placedElements (run (initGame rand s₀) events)).length = 20 ∧
    triggerCount (initGame rand s₀) events = 1 := by
  have h0 := Inv.init rand s₀
  have h := h0.after_run events
  have hfull : (placedElements (run (initGame rand s₀) events)).length = 20 := by
    apply h.all_placed_of_names
    intro acid hacid
    apply run_correct h0 hacid
    have hf : correctDropOf (initGame rand s₀).dropZones acid = correctDropOf s₀.dropZones acid :=
      funext (correctDropOf_congr (initGame_categories rand s₀) acid)
    rw [hf]
    exact hdrops acid hacid
  refine ⟨hfull, ?_⟩
  rw [triggerCount_eq h0 events, initGame_placed_length, if_pos ⟨by decide, hfull⟩]

theorem all_correct_drops_complete_witness :
    (∀ acid ∈ aminoAcids,
      sampleSession.any (correctDropOf State.loaded.dropZones acid) = true) ∧
    (placedElements (run (initGame (fun _ => Rnd.zero) State.loaded) sampleSession)).length = 20 ∧
    triggerCount (initGame (fun _ => Rnd.zero) State.loaded) sampleSession = 1 :=
  ⟨by decide,
   all_correct_drops_complete (fun _ => Rnd.zero) State.loaded sampleSession (by decide)⟩

end ClassificationGame

/-! ## Further theorems about the matching game -/

namespace MemoryGame

theorem count_eraseIdx_add {α : Type} [DecidableEq α] (a : α) :
    ∀ (l : List α) (k : Nat) (b : α), l[k]? = some b →
      (l.eraseIdx k).count a + (if b = a then 1 else 0) = l.count a
  | [], _, _, h => by simp at h
  | x :: xs, 0, b, h => by
      simp only [List.getElem?_cons_zero, Option.some.injEq] at h
      subst h
      simp only [List.eraseIdx_cons_zero, List.count_cons, beq_iff_eq]
  | x :: xs, k + 1, b, h => by
      simp only [List.getElem?_cons_succ] at h
      have ih := count_eraseIdx_add a xs k b h
      simp only [List.eraseIdx_cons_succ, List.count_cons]
      omega

theorem checkMatch_showModal (s : State) :
    (checkMatch s).timers.count Timer.showModal = s.timers.count Timer.showModal := by
  unfold checkMatch
  split
  · split
    · dsimp only
      split <;> simp [List.count_append]
    · rfl
  · rfl

theorem handleTileClick_showModal (s : State) (tile : Nat) :
    (handleTileClick s tile).timers.count Timer.showModal = s.timers.count Timer.showModal := by
  unfold handleTileClick
  split
  · rfl
  · split
    · rfl
    · split
      · rfl
      · dsimp only
        split
        · rw [checkMatch_showModal]; rfl
        · rfl

theorem matchedCallback_timers (acid1 : String) (s : State) :
    (matchedCallback acid1 s).timers
      = (if s.remainingTiles - 3 = 0 then s.timers ++ [Timer.showModal] else s.timers) ∧
    (matchedCallback acid1 s).remainingTiles = s.remainingTiles - 3 := by
  unfold matchedCallback checkGameCompletion
  dsimp only
  by_cases hm : acid1 ∈ s.matchedAminoAcids
  · simp only [hm, not_true_eq_false, if_false, updateGameInfo]
    split <;> exact ⟨rfl, rfl⟩
  · simp only [hm, not_false_eq_true, if_true, updateGameInfo, updateReferenceTable]
    split <;> exact ⟨rfl, rfl⟩

/-- When the callback of `checkGameCompletion` is scheduled.  For every state and every
event (a click or a timer firing), the success modal is triggered at the event if and only if the event is the firing of a pending match callback
of `checkMatch` and `remainingTiles` is 0 after it. -/
theorem modal_triggered_iff (s : State) (e : Event) :
    triggersModal s e = true ↔
      ∃ k acid1, e = Event.fire k ∧ s.timers[k]? = some (Timer.matched acid1) ∧
        (step s e).remainingTiles = 0 := by
  unfold triggersModal
  rw [decide_eq_true_iff]
  cases e with
  | click tile =>
      simp only [step, handleTileClick_showModal, Nat.lt_irrefl, false_iff]
      rintro ⟨k, acid1, h, _⟩
      cases h
  | fire k =>
      simp only [step]
      cases ht : s.timers[k]? with
      | none =>
          simp only [fireTimer, ht, Nat.lt_irrefl, false_iff]
          rintro ⟨k', acid1, h, h', _⟩
          cases h
          rw [ht] at h'
          cases h'
      | some timer =>
          have hcount := count_eraseIdx_add Timer.showModal s.timers k timer ht
          cases timer with
          | matched acid1 =>
              have hfire : fireTimer s k
                  = matchedCallback acid1 { s with timers := s.timers.eraseIdx k } := by
                simp only [fireTimer, ht]
              obtain ⟨h1, h2⟩ := matchedCallback_timers acid1 { s with timers := s.timers.eraseIdx k }
              rw [hfire, h1, h2]
              simp only [reduceCtorEq, if_false, Nat.add_zero] at hcount
              constructor
              · intro hlt
                refine ⟨k, acid1, rfl, ht, ?_⟩
                by_contra hne
                rw [if_neg hne] at hlt
                simp only at hlt
                omega
              · rintro ⟨_, _, _, _, h0⟩
                rw [if_pos h0]
                simp only [List.count_append, List.count_singleton_self]
                omega
          | mismatched =>
              have hfire : fireTimer s k
                  = mismatchedCallback { s with timers := s.timers.eraseIdx k } := by
                simp only [fireTimer, ht]
              rw [hfire]
              simp only [mismatchedCallback, updateGameInfo, reduceCtorEq, if_false, Nat.add_zero] at hcount ⊢
              constructor
              · intro hlt; omega
              · rintro ⟨k', acid1, h, h', _⟩
                cases h
                rw [ht] at h'
                cases h'
          | showModal =>
              have hfire : fireTimer s k
                  = showModalCallback { s with timers := s.timers.eraseIdx k } := by
                simp only [fireTimer, ht]
              rw [hfire]
              simp only [showModalCallback, if_true] at hcount ⊢
              constructor
              · intro hlt; omega
              · rintro ⟨k', acid1, h, h', _⟩
                cases h
                rw [ht] at h'
                cases h'

theorem toggleDifficulty_eq (isHard : Bool) (rand : Nat → Rnd) (s : State) :
    ∃ s', toggleDifficulty isHard rand s = initGame rand s' ∧ s'.isHardMode = isHard := by
  unfold toggleDifficulty
  refine ⟨_, rfl, ?_⟩
  unfold setTableMode
  dsimp only
  split <;> rfl

theorem referenceTiles_fresh :
    ∀ t ∈ referenceTiles, t.matched = false ∧ t.selected = false := by
  decide

theorem initGame_fields (rand : Nat → Rnd) (s : State) :
    (initGame rand s).isHardMode = s.isHardMode ∧
    (initGame rand s).selectedTiles = [] ∧
    (initGame rand s).matchedAminoAcids = [] ∧
    (initGame rand s).remainingTiles = 60 ∧
    (initGame rand s).referenceTableHardMode = s.isHardMode ∧
    (initGame rand s).referenceTableBody = aminoAcids.map (fun acid =>
        { acid := acid.name, className := "pending", nameCell := acid.name,
          code3Cell := acid.code3, code1Cell := acid.code1 }) ∧
    (initGame rand s).successModalShow = false := by
  simp only [initGame, generateReferenceTable, setTableMode, updateGameInfo]
  cases s.isHardMode <;> simp

/-- C12. For every state, every `b` and every outcome of the shuffles, after
`toggleDifficulty(b)` the variable `isHardMode` is `b` and the table is in that mode,
`selectedTiles` and `matchedAminoAcids` are empty, `remainingTiles` is 60, the grid holds
60 tiles none of which is matched or selected, the reference table has 20 rows, every row
has class `pending`, and the success modal is hidden. -/
theorem toggleDifficulty_restarts (b : Bool) (rand : Nat → Rnd) (s : State) :
    (toggleDifficulty b rand s).isHardMode = b ∧
    (toggleDifficulty b rand s).referenceTableHardMode = b ∧
    (toggleDifficulty b rand s).selectedTiles = [] ∧
    (toggleDifficulty b rand s).matchedAminoAcids = [] ∧
    (toggleDifficulty b rand s).remainingTiles = 60 ∧
    (toggleDifficulty b rand s).grid.length = 60 ∧
    (∀ t ∈ (toggleDifficulty b rand s).grid, t.matched = false ∧ t.selected = false) ∧
    (toggleDifficulty b rand s).referenceTableBody.length = 20 ∧
    (∀ row ∈ (toggleDifficulty b rand s).referenceTableBody, row.className = "pending") ∧
    (toggleDifficulty b rand s).successModalShow = false := by
  obtain ⟨s', heq, hmode⟩ := toggleDifficulty_eq b rand s
  obtain ⟨h1, h2, h3, h4, h5, h6, h7⟩ := initGame_fields rand s'
  have hperm := initGame_grid_perm rand s'
  rw [heq]
  refine ⟨h1.trans hmode, h5.trans hmode, h2, h3, h4, hperm.length_eq.trans rfl, ?_, ?_, ?_, h7⟩
  · intro t ht
    exact referenceTiles_fresh t (hperm.mem_iff.1 ht)
  · rw [h6, List.length_map]; rfl
  · intro row hrow
    rw [h6] at hrow
    obtain ⟨acid, _, rfl⟩ := List.mem_map.1 hrow
    rfl

end MemoryGame

/-! ## Further theorems about the classification game -/

namespace ClassificationGame

/-- C13. Every entry of `aminoAcids` has a category tag among `A`, `B`, `C`, `D`, `E`; the
five categories hold 7, 3, 5, 3 and 2 entries, so each is used; and these counts sum to
the 20 entries of the table. -/
theorem aminoAcids_categories :
    (∀ acid ∈ aminoAcids, acid.category ∈ ["A", "B", "C", "D", "E"]) ∧
    ["A", "B", "C", "D", "E"].map categoryCount = [7, 3, 5, 3, 2] ∧
    (["A", "B", "C", "D", "E"].map categoryCount).sum = aminoAcids.length ∧
    aminoAcids.length = 20 := by
  decide

end ClassificationGame

/-! ## Theorems about the structure models -/

open Three

namespace Script

theorem alpha_totalResidues : AlphaHelix.totalResidues = 10 := by
  have h : ⌊(3 : ℚ) * 3.6⌋ = 10 := by
    rw [Int.floor_eq_iff]; norm_num
  simp only [AlphaHelix.totalResidues, jsFloor, AlphaHelix.turns, AlphaHelix.residuesPerTurn, h]
  rfl

theorem super_totalResidues : SuperSecondary.totalResidues = 7 := by
  have h : ⌊(2 : ℚ) * 3.6⌋ = 7 := by
    rw [Int.floor_eq_iff]; norm_num
  simp only [SuperSecondary.totalResidues, jsFloor, SuperSecondary.turns,
    SuperSecondary.residuesPerTurn, h]
  rfl

end Script

namespace AlphaHelix

theorem turns_eq : turns = 5 := by
  norm_num [turns, totalAminoAcids, aminoAcidsPerTurn]

theorem totalHeight_eq : totalHeight = 27 := by
  norm_num [totalHeight, totalAminoAcids, aminoAcidHeight]

theorem backbonePoints_getElem? (M : JSMath) (i : Nat) (hi : i ≤ 180) :
    (backbonePoints M)[i]? = some (backbonePoint M i) := by
  unfold backbonePoints
  rw [List.getElem?_map, List.getElem?_range (by simp only [segments, totalAminoAcids]; omega)]
  rfl

theorem backbonePoint_eq (M : JSMath) (i : Nat) :
    backbonePoint M i
      = { x := 2.3 * M.cos (2 * M.PI * 5 * (i / 180))
          y := 27 * (i / 180 - 1 / 2)
          z := 2.3 * M.sin (2 * M.PI * 5 * (i / 180)) } := by
  simp only [backbonePoint, backboneAngle, turns_eq, totalHeight_eq, radius, segments,
    totalAminoAcids]
  norm_num

theorem jsRound_natCast_mul (i : Nat) : jsRound (i * segmentsPerAminoAcid) = (10 * i : ℤ) := by
  have hseg : segmentsPerAminoAcid = 10 := by
    norm_num [segmentsPerAminoAcid, segments, totalAminoAcids]
  unfold jsRound
  rw [hseg, Int.floor_eq_iff]
  push_cast
  constructor <;> linarith

theorem residueParameter_eq (i : Nat) : residueParameter i = i / 18 := by
  unfold residueParameter
  simp only [jsRound_natCast_mul, segments, totalAminoAcids]
  push_cast
  ring

theorem residuePosition_eq (C : CatmullRomCurve3) (M : JSMath) (i : Nat) (hi : i ≤ 18) :
    residuePosition C M i = backbonePoint M (10 * i) := by
  unfold residuePosition
  have hlen : (backbonePoints M).length = 181 := by
    simp [backbonePoints, segments, totalAminoAcids]
  have hparam : residueParameter i
      = ((10 * i : Nat) : ℚ) / ((backbonePoints M).length - 1 : ℚ) := by
    rw [residueParameter_eq, hlen]
    push_cast
    ring
  rw [hparam]
  exact C.getPoint_knot _ _ _ (backbonePoints_getElem? M (10 * i) (by omega))

end AlphaHelix

/-- C14. In `beta-turn.js` the pointer moves over the backbone of the turn, a line, and
then to a place where the ray hits nothing: the tooltip is shown by the first move and is
still shown after the second, because the line, whose material has no emissive colour,
never became the hovered object.  The same happens in `super-secondary.js` with the line
of the α-helix.  The `mouseleave` listener of the same file hides the tooltip in that
state, and so does the `mousemove` listener of `alpha-helix.js` after a move over a line of
its scene. -/
theorem tooltip_stays_after_line :
    BetaTurn.viewport.scene.children[0]?.map (fun o => (o.type, o.info))
      = some ("Line", some "β转角骨架：连接两个β链的转角结构，通常由4个氨基酸残基组成") ∧
    (BetaTurn.mousemove BetaTurn.viewport [0]).tooltipDisplay = "block" ∧
    (BetaTurn.mousemove (BetaTurn.mousemove BetaTurn.viewport [0]) []).tooltipDisplay
      = "block" ∧
    (BetaTurn.mouseleave (BetaTurn.mousemove BetaTurn.viewport [0])).tooltipDisplay
      = "none" ∧
    SuperSecondary.viewport.scene.children[1]?.map (fun o => (o.type, o.info))
      = some ("Line", some "α螺旋：连接两条β链的螺旋结构，是βαβ单元的核心组成部分") ∧
    (SuperSecondary.mousemove (SuperSecondary.mousemove SuperSecondary.viewport [1])
      []).tooltipDisplay = "block" ∧
    AlphaHelix.viewport.scene.children[37]?.map (fun o => o.type) = some "Line" ∧
    (AlphaHelix.mousemove AlphaHelix.viewport [37]).tooltipDisplay = "block" ∧
    (AlphaHelix.mousemove (AlphaHelix.mousemove AlphaHelix.viewport [37]) []).tooltipDisplay
      = "none" := by
  decide

/-- C16. Three builders of `script.js` assign no `userData`: none of the 80 objects that
`createBetaSheet` adds to the scene, none of the 14 of `createBetaTurn` and none of the 22
of `createSuperSecondaryStructure` has a category label or a description.  The builders of
the same names in `beta-sheet.js`, `beta-turn.js` and `super-secondary.js` and the two
`createAlphaHelix` give every object a category label and a non-empty description. -/
theorem script_builders_assign_no_userData :
    (Script.createBetaSheet Scene.empty).children.length = 80 ∧
    (∀ o ∈ (Script.createBetaSheet Scene.empty).children, o.userData = none ∧ o.info = none) ∧
    (Script.createBetaTurn Scene.empty).children.length = 14 ∧
    (∀ o ∈ (Script.createBetaTurn Scene.empty).children, o.userData = none ∧ o.info = none) ∧
    (Script.createSuperSecondaryStructure Scene.empty).children.length = 22 ∧
    (∀ o ∈ (Script.createSuperSecondaryStructure Scene.empty).children,
      o.userData = none ∧ o.info = none) ∧
    (∀ o ∈ (BetaSheet.createBetaSheet Scene.empty).children,
      o.info.isSome ∧ o.userData.map (fun u => decide (u.type = "")) = some false) ∧
    (∀ o ∈ (BetaTurn.createBetaTurn Scene.empty).children,
      o.info.isSome ∧ o.userData.map (fun u => decide (u.type = "")) = some false) ∧
    (∀ o ∈ (SuperSecondary.createSuperSecondaryStructure Scene.empty).children,
      o.info.isSome ∧ o.userData.map (fun u => decide (u.type = "")) = some false) ∧
    (∀ o ∈ (AlphaHelix.createAlphaHelix Scene.empty).children,
      o.info.isSome ∧ o.userData.map (fun u => decide (u.type = "")) = some false) ∧
    (∀ o ∈ (Script.createAlphaHelix Scene.empty).children,
      o.info.isSome ∧ o.userData.map (fun u => decide (u.type = "")) = some false) := by
  unfold Script.createSuperSecondaryStructure Script.createAlphaHelix
  rw [Script.super_totalResidues, Script.alpha_totalResidues]
  decide

namespace SuperSecondary

theorem helixPoints_getElem? (M : JSMath) (i : Nat) (hi : i ≤ 50) :
    (helixPoints M)[i]? = some (helixPoint M i) := by
  unfold helixPoints segments
  rw [List.getElem?_map, List.getElem?_range (by omega)]
  rfl

end SuperSecondary

namespace Script.SuperSecondary

theorem script_helixPoints_getElem? (M : JSMath) (i : Nat) (hi : i ≤ 50) :
    (helixPoints M)[i]? = some (helixPoint M i) := by
  unfold helixPoints segments
  rw [List.getElem?_map, List.getElem?_range (by omega)]
  rfl

end Script.SuperSecondary

/-- C18. The points of the polyline tagged as the α-helix in `super-secondary.js`, and of
the same polyline in `script.js`, for every `Math` object: there are 51 of them, point `i`
is `(0, 6·(i/50 − 1/2), sin θ_i)` with `θ_i = 2π·2·i/50`, so all of them lie in the plane
`x = 0` and the square of the distance from the y axis is `sin² θ_i`, not
`alphaRadius² = 1`; point 0 is `(0, −3, 0)`, on the y axis itself. -/
theorem composite_helix_is_planar (M : JSMath) :
    (SuperSecondary.helixPoints M).length = 51 ∧
    (∀ i : Nat, i ≤ 50 → ∃ p : Vector3, (SuperSecondary.helixPoints M)[i]? = some p ∧
      p = { x := 0, y := 6 * ((i : ℚ) / 50 - 1 / 2),
            z := M.sin (2 * M.PI * 2 * ((i : ℚ) / 50)) } ∧
      p.distanceSqToYAxis = M.sin (2 * M.PI * 2 * ((i : ℚ) / 50)) ^ 2) ∧
    (SuperSecondary.helixPoints M)[0]? = some { x := 0, y := -3, z := 0 } ∧
    (∀ p, (SuperSecondary.helixPoints M)[0]? = some p →
      p.distanceSqToYAxis = 0 ∧ p.distanceSqToYAxis ≠ SuperSecondary.alphaRadius ^ 2) ∧
    SuperSecondary.alphaRadius = 1 ∧
    (Script.SuperSecondary.helixPoints M).length = 51 ∧
    (∀ i : Nat, i ≤ 50 → ∃ p : Vector3, (Script.SuperSecondary.helixPoints M)[i]? = some p ∧
      p = { x := 0, y := 6 * ((i : ℚ) / 50 - 1 / 2),
            z := M.sin (2 * M.PI * 2 * ((i : ℚ) / 50)) } ∧
      p.distanceSqToYAxis = M.sin (2 * M.PI * 2 * ((i : ℚ) / 50)) ^ 2) ∧
    (Script.SuperSecondary.helixPoints M)[0]? = some { x := 0, y := -3, z := 0 } ∧
    (∀ p, (Script.SuperSecondary.helixPoints M)[0]? = some p →
      p.distanceSqToYAxis = 0 ∧ p.distanceSqToYAxis ≠ Script.SuperSecondary.alphaRadius ^ 2) ∧
    Script.SuperSecondary.alphaRadius = 1 := by
  have h1 : ∀ i : Nat, SuperSecondary.helixPoint M i =
      { x := 0, y := 6 * ((i : ℚ) / 50 - 1 / 2),
        z := M.sin (2 * M.PI * 2 * ((i : ℚ) / 50)) } := by
    intro i
    simp only [SuperSecondary.helixPoint, SuperSecondary.alphaHeight,
      SuperSecondary.alphaRadius, SuperSecondary.turns, SuperSecondary.segments]
    norm_num
  have h2 : ∀ i : Nat, Script.SuperSecondary.helixPoint M i =
      { x := 0, y := 6 * ((i : ℚ) / 50 - 1 / 2),
        z := M.sin (2 * M.PI * 2 * ((i : ℚ) / 50)) } := by
    intro i
    simp only [Script.SuperSecondary.helixPoint, Script.SuperSecondary.alphaHeight,
      Script.SuperSecondary.alphaRadius, Script.SuperSecondary.turns,
      Script.SuperSecondary.segments]
    norm_num
  have h10 : SuperSecondary.helixPoint M 0 = { x := 0, y := -3, z := 0 } := by
    rw [h1]; norm_num [M.sin_zero]
  have h20 : Script.SuperSecondary.helixPoint M 0 = { x := 0, y := -3, z := 0 } := by
    rw [h2]; norm_num [M.sin_zero]
  refine ⟨by simp [SuperSecondary.helixPoints, SuperSecondary.segments], ?_, ?_, ?_, rfl,
    by simp [Script.SuperSecondary.helixPoints, Script.SuperSecondary.segments], ?_, ?_, ?_,
    rfl⟩
  · intro i hi
    refine ⟨_, SuperSecondary.helixPoints_getElem? M i hi, h1 i, ?_⟩
    rw [h1]; simp [Vector3.distanceSqToYAxis]
  · rw [SuperSecondary.helixPoints_getElem? M 0 (by omega), h10]
  · intro p hp
    rw [SuperSecondary.helixPoints_getElem? M 0 (by omega), h10] at hp
    cases hp
    norm_num [Vector3.distanceSqToYAxis, SuperSecondary.alphaRadius]
  · intro i hi
    refine ⟨_, Script.SuperSecondary.script_helixPoints_getElem? M i hi, h2 i, ?_⟩
    rw [h2]; simp [Vector3.distanceSqToYAxis]
  · rw [Script.SuperSecondary.script_helixPoints_getElem? M 0 (by omega), h20]
  · intro p hp
    rw [Script.SuperSecondary.script_helixPoints_getElem? M 0 (by omega), h20] at hp
    cases hp
    norm_num [Vector3.distanceSqToYAxis, Script.SuperSecondary.alphaRadius]

namespace Script

/-- C20. The residues of `createAlphaHelix` in `script.js`: `Math.floor(3 * 3.6) = 10`
residues are placed, residue `i` at the angle `2π·3·i/10`, so consecutive residues are
separated by `3/10` of a turn for every `Math` object, which is not `1/3.6` of a turn, and
the number of residues divided by the number of turns is `10/3`, not the `3.6` of the
constant `residuesPerTurn`, of the comment and of the tooltips. -/
theorem script_residues_per_turn (M : JSMath) (i : Nat) :
    AlphaHelix.totalResidues = 10 ∧
    AlphaHelix.residueAngle M i = 2 * M.PI * (3 / 10 * i) ∧
    AlphaHelix.residueAngle M (i + 1) - AlphaHelix.residueAngle M i = 2 * M.PI * (3 / 10) ∧
    (3 / 10 : ℚ) ≠ 1 / AlphaHelix.residuesPerTurn ∧
    (AlphaHelix.totalResidues : ℚ) / AlphaHelix.turns = 10 / 3 ∧
    (AlphaHelix.totalResidues : ℚ) / AlphaHelix.turns ≠ AlphaHelix.residuesPerTurn ∧
    AlphaHelix.residuesPerTurn = 3.6 ∧
    (createAlphaHelix Scene.empty).children[1]?.map (fun o => o.info)
      = some (some "氨基酸残基：每个螺旋周期包含3.6个氨基酸残基") := by
  have hang : ∀ j : Nat, AlphaHelix.residueAngle M j = 2 * M.PI * (3 / 10 * j) := by
    intro j
    simp only [AlphaHelix.residueAngle, AlphaHelix.residueParameter, alpha_totalResidues,
      AlphaHelix.turns]
    push_cast
    ring
  refine ⟨alpha_totalResidues, hang i, ?_, ?_, ?_, ?_, rfl, ?_⟩
  · rw [hang, hang]; push_cast; ring
  · norm_num [AlphaHelix.residuesPerTurn]
  · rw [alpha_totalResidues]; norm_num [AlphaHelix.turns]
  · rw [alpha_totalResidues]; norm_num [AlphaHelix.turns, AlphaHelix.residuesPerTurn]
  · unfold createAlphaHelix
    rw [alpha_totalResidues]
    decide

end Script

namespace AlphaHelix

theorem alpha_resetHighlight_children (v : Viewport) :
    (resetHighlight v).scene.children = v.scene.children := by
  unfold resetHighlight
  cases v.intersectedObject <;> rfl

theorem alpha_resetHighlight_materials (v : Viewport) (k : Nat) (m : Material)
    (h : v.scene.materials[k]? = some m) :
    ∃ m1, (resetHighlight v).scene.materials[k]? = some m1 := by
  have hk : k < v.scene.materials.length := (List.getElem?_eq_some_iff.1 h).1
  unfold resetHighlight
  cases v.intersectedObject with
  | none => exact ⟨m, h⟩
  | some intersectedObject =>
      dsimp only
      cases v.scene.children[intersectedObject]? with
      | none => exact ⟨m, h⟩
      | some object =>
          dsimp only
          have hlen : k < (v.scene.materials.modify
              (fun material =>
                match material.originalColor with
                | some originalColor =>
                    if originalColor = 0 then material
                    else { material with color := originalColor }
                | none => material) object.material).length := by
            rw [List.length_modify]; exact hk
          exact ⟨_, List.getElem?_eq_getElem hlen⟩

end AlphaHelix

namespace BetaTurn

theorem emissive_resetHighlight_children (v : Viewport) :
    (resetHighlight v).scene.children = v.scene.children := by
  unfold resetHighlight
  cases v.intersectedObject <;> rfl

theorem emissive_resetHighlight_materials (v : Viewport) (k : Nat) (m : Material)
    (h : v.scene.materials[k]? = some m) :
    ∃ m1, (resetHighlight v).scene.materials[k]? = some m1 ∧
      m1.emissive.isSome = m.emissive.isSome := by
  unfold resetHighlight
  cases v.intersectedObject with
  | none => exact ⟨m, h, rfl⟩
  | some hoveredObject =>
      dsimp only
      cases v.scene.children[hoveredObject]? with
      | none => exact ⟨m, h, rfl⟩
      | some object =>
          dsimp only
          rw [List.getElem?_modify, h]
          by_cases hk : object.material = k
          · simp only [hk, if_true, Option.map_some']
            refine ⟨_, rfl, ?_⟩
            cases hm : m.emissive <;> simp [hm]
          · simp only [hk, if_false, Option.map_some']
            exact ⟨m, rfl, rfl⟩

end BetaTurn

namespace Script

theorem alphaHelixViewport_children :
    alphaHelixViewport.scene.children[0]? = some
      { type := "Line", material := 0,
        userData := some { type := "backbone",
                           info := "螺旋骨架：右手螺旋结构，每3.6个氨基酸完成一个完整螺旋周期" },
        currentHex := none } ∧
    alphaHelixViewport.scene.materials[0]? = some (lineBasicMaterial 0x1a237e) ∧
    alphaHelixViewport.scene.children[1]? = some
      { type := "Mesh", material := 1,
        userData := some { type := "residue",
                           info := "氨基酸残基：每个螺旋周期包含3.6个氨基酸残基" },
        currentHex := none } ∧
    alphaHelixViewport.scene.materials[1]? = some (meshPhongMaterial 0x3f51b5) := by
  unfold alphaHelixViewport createAlphaHelix
  rw [alpha_totalResidues]
  decide

end Script

/-- C15. In the α-helix scene of `script.js` the pointer is over the line of the backbone,
child 0, which is the nearest primitive with a description: the tooltip shows its
description, and the line is not highlighted, because its material has no emissive colour
and the listener highlights only where there is one; the scene is as before.  The same
listener highlights a mesh, child 1, and the listener of `alpha-helix.js` highlights a line
of its scene, child 37.  In `alpha-helix.js` the pointer over the first residue, child 1,
also highlights the second residue, child 2, which shares its material. -/
theorem script_line_not_highlighted :
    Script.alphaHelixViewport.scene.children[0]?.map Object3D.type = some "Line" ∧
    nearestDescribed Script.alphaHelixViewport [0] = some 0 ∧
    (Script.mousemove Script.alphaHelixViewport [0]).tooltipDisplay = "block" ∧
    (Script.mousemove Script.alphaHelixViewport [0]).tooltipTextContent
      = "螺旋骨架：右手螺旋结构，每3.6个氨基酸完成一个完整螺旋周期" ∧
    Script.isHighlighted (Script.mousemove Script.alphaHelixViewport [0]) 0 = false ∧
    (Script.mousemove Script.alphaHelixViewport [0]).scene = Script.alphaHelixViewport.scene ∧
    Script.alphaHelixViewport.scene.children[1]?.map Object3D.type = some "Mesh" ∧
    Script.isHighlighted (Script.mousemove Script.alphaHelixViewport [1]) 1 = true ∧
    AlphaHelix.viewport.scene.children[37]?.map Object3D.type = some "Line" ∧
    nearestDescribed AlphaHelix.viewport [37] = some 37 ∧
    AlphaHelix.isHighlighted (AlphaHelix.mousemove AlphaHelix.viewport [37]) 37 = true ∧
    nearestDescribed AlphaHelix.viewport [1] = some 1 ∧
    AlphaHelix.isHighlighted AlphaHelix.viewport 2 = false ∧
    AlphaHelix.isHighlighted (AlphaHelix.mousemove AlphaHelix.viewport [1]) 1 = true ∧
    AlphaHelix.isHighlighted (AlphaHelix.mousemove AlphaHelix.viewport [1]) 2 = true := by
  unfold Script.alphaHelixViewport Script.createAlphaHelix
  rw [Script.alpha_totalResidues]
  decide

/-- What the two listeners do with the nearest hit.  For every state of the shell of `alpha-helix.js` and of the shell of
`script.js` and every pointer move whose nearest hit is a primitive with a non-empty
description: that primitive is the nearest one with a description, the tooltip is shown
with exactly its description, and it becomes the intersected object; `alpha-helix.js`
gives its material the highlight colour, and `script.js` highlights it exactly when its
material has an emissive colour. -/
theorem nearest_hit_shown (va vs : Viewport) (first : Nat) (rest : List Nat)
    (objectA objectS : Object3D) (infoA infoS : String) (materialA materialS : Material)
    (hoa : va.scene.children[first]? = some objectA) (hia : objectA.info = some infoA)
    (hma : va.scene.materials[objectA.material]? = some materialA)
    (hos : vs.scene.children[first]? = some objectS) (his : objectS.info = some infoS)
    (hms : vs.scene.materials[objectS.material]? = some materialS) :
    nearestDescribed va (first :: rest) = some first ∧
    (AlphaHelix.mousemove va (first :: rest)).tooltipDisplay = "block" ∧
    (AlphaHelix.mousemove va (first :: rest)).tooltipTextContent = infoA ∧
    (AlphaHelix.mousemove va (first :: rest)).intersectedObject = some first ∧
    AlphaHelix.isHighlighted (AlphaHelix.mousemove va (first :: rest)) first = true ∧
    nearestDescribed vs (first :: rest) = some first ∧
    (Script.mousemove vs (first :: rest)).tooltipDisplay = "block" ∧
    (Script.mousemove vs (first :: rest)).tooltipTextContent = infoS ∧
    (Script.mousemove vs (first :: rest)).intersectedObject = some first ∧
    Script.isHighlighted (Script.mousemove vs (first :: rest)) first
      = materialS.emissive.isSome := by
  have hnd : ∀ (v : Viewport) (o : Object3D) (i : String),
      v.scene.children[first]? = some o → o.info = some i →
      nearestDescribed v (first :: rest) = some first := by
    intro v o i ho hi
    simp [nearestDescribed, ho, hi]
  have hoa1 : (AlphaHelix.resetHighlight va).scene.children[first]? = some objectA := by
    rw [AlphaHelix.alpha_resetHighlight_children]; exact hoa
  obtain ⟨ma1, hma1⟩ := AlphaHelix.alpha_resetHighlight_materials va _ _ hma
  have hos1 : (BetaTurn.resetHighlight vs).scene.children[first]? = some objectS := by
    rw [BetaTurn.emissive_resetHighlight_children]; exact hos
  obtain ⟨ms1, hms1, hem⟩ := BetaTurn.emissive_resetHighlight_materials vs _ _ hms
  refine ⟨hnd va _ _ hoa hia, ?_, ?_, ?_, ?_, hnd vs _ _ hos his, ?_, ?_, ?_, ?_⟩
  · simp only [AlphaHelix.mousemove, hoa1, hia]
  · simp only [AlphaHelix.mousemove, hoa1, hia]
  · simp only [AlphaHelix.mousemove, hoa1, hia]
  · simp [AlphaHelix.mousemove, hoa1, hia, AlphaHelix.isHighlighted,
      List.getElem?_modify, hma1]
  · simp only [Script.mousemove, hos1, his]
  · simp only [Script.mousemove, hos1, his]
  · simp only [Script.mousemove, hos1, his, hms1]
    cases hm : ms1.emissive <;> rfl
  · rw [← hem]
    simp only [Script.mousemove, hos1, his, hms1, Script.isHighlighted]
    cases hm : ms1.emissive with
    | none =>
        simp only [hos1, hms1, hm]
        rfl
    | some e =>
        simp only [List.getElem?_modify, hos1, hms1, if_true, Option.map_some',
          Option.isSome_some]
        simp [hms1]

/-- The lemma `nearest_hit_shown` at the scenes of the two files, for a ray that hits the
first residue and then the backbone. -/
theorem nearest_hit_shown_witness :
    AlphaHelix.viewport.scene.children[1]? = some
      { type := "Mesh", material := 1,
        userData := some
          { type := "residue",
            info := "氨基酸残基 1：构成蛋白质的基本单元，在α螺旋中每3.6个残基完成一个完整螺旋周期。" },
        currentHex := none } ∧
    AlphaHelix.viewport.scene.materials[1]? = some (meshPhongMaterial 0xe74c3c) ∧
    Script.alphaHelixViewport.scene.children[1]? = some
      { type := "Mesh", material := 1,
        userData := some { type := "residue",
                           info := "氨基酸残基：每个螺旋周期包含3.6个氨基酸残基" },
        currentHex := none } ∧
    Script.alphaHelixViewport.scene.materials[1]? = some (meshPhongMaterial 0x3f51b5) ∧
    (AlphaHelix.mousemove AlphaHelix.viewport [1, 0]).tooltipTextContent
      = "氨基酸残基 1：构成蛋白质的基本单元，在α螺旋中每3.6个残基完成一个完整螺旋周期。" ∧
    AlphaHelix.isHighlighted (AlphaHelix.mousemove AlphaHelix.viewport [1, 0]) 1 = true ∧
    (Script.mousemove Script.alphaHelixViewport [1, 0]).tooltipTextContent
      = "氨基酸残基：每个螺旋周期包含3.6个氨基酸残基" ∧
    Script.isHighlighted (Script.mousemove Script.alphaHelixViewport [1, 0]) 1 = true :=
  have h := nearest_hit_shown AlphaHelix.viewport Script.alphaHelixViewport 1 [0]
    { type := "Mesh", material := 1,
      userData := some
        { type := "residue",
          info := "氨基酸残基 1：构成蛋白质的基本单元，在α螺旋中每3.6个残基完成一个完整螺旋周期。" },
      currentHex := none }
    { type := "Mesh", material := 1,
      userData := some { type := "residue",
                         info := "氨基酸残基：每个螺旋周期包含3.6个氨基酸残基" },
      currentHex := none }
    "氨基酸残基 1：构成蛋白质的基本单元，在α螺旋中每3.6个残基完成一个完整螺旋周期。"
    "氨基酸残基：每个螺旋周期包含3.6个氨基酸残基"
    (meshPhongMaterial 0xe74c3c) (meshPhongMaterial 0x3f51b5)
    (by decide) (by decide) (by decide)
    Script.alphaHelixViewport_children.2.2.1 (by decide)
    Script.alphaHelixViewport_children.2.2.2
  ⟨by decide, by decide, Script.alphaHelixViewport_children.2.2.1,
    Script.alphaHelixViewport_children.2.2.2, h.2.2.1, h.2.2.2.2.1, h.2.2.2.2.2.2.2.1,
    h.2.2.2.2.2.2.2.2.2⟩

/-! ## Theorems about the counter and the shuffle of the matching game -/

namespace MemoryGame

/-- C25. Two sessions from `initGame`.  The three tiles of 天冬酰胺 are clicked, the third is
deselected and selected again while the first match callback is pending, and the two
pending match callbacks fire: `remainingTiles` is 54, while 57 tiles of the grid are not
matched and `matchedAminoAcids` has one entry, so that `60 − 3 · 1 = 57`.  With twenty
such double clicks and twenty-one firings `remainingTiles` is `−3`. -/
theorem counter_out_of_step :
    staleSession 1 2
      = [Event.click 0, Event.click 2, Event.click 4, Event.click 4, Event.click 4,
         Event.fire 0, Event.fire 0] ∧
    (run State.start (staleSession 1 2)).remainingTiles = 54 ∧
    unmatchedCount (run State.start (staleSession 1 2)) = 57 ∧
    (run State.start (staleSession 1 2)).matchedAminoAcids = ["天冬酰胺"] ∧
    60 - 3 * ((run State.start (staleSession 1 2)).matchedAminoAcids.length : Int) = 57 ∧
    (run State.start (staleSession 20 21)).remainingTiles = -3 ∧
    unmatchedCount (run State.start (staleSession 20 21)) = 57 := by
  decide

end MemoryGame

namespace MemoryGame

theorem floorMul_lt (r : Rnd) (n : Nat) (hn : 0 < n) : r.floorMul n < n := by
  unfold Rnd.floorMul
  have hden : 0 < r.den := Nat.lt_of_le_of_lt (Nat.zero_le _) r.lt
  rw [Nat.div_lt_iff_lt_mul hden]
  exact Nat.mul_comm r.num n ▸ Nat.mul_lt_mul_of_pos_left r.lt hn

theorem shuffleChoices_bound (rand : Nat → Rnd) :
    ∀ (i k : Nat), ∀ p ∈ shuffleChoices rand i k, p.2 ≤ p.1 ∧ 0 < p.1 ∧ p.1 ≤ i
  | 0, _, p, hp => by simp [shuffleChoices] at hp
  | i + 1, k, p, hp => by
      simp only [shuffleChoices, List.mem_cons] at hp
      rcases hp with rfl | hp
      · have := floorMul_lt (rand k) (i + 1 + 1) (by omega)
        exact ⟨by dsimp only; omega, by omega, Nat.le_refl _⟩
      · have := shuffleChoices_bound rand i (k + 1) p hp
        exact ⟨this.1, this.2.1, by omega⟩

theorem shuffleLoop_eq_foldl {α : Type} (rand : Nat → Rnd) :
    ∀ (i k : Nat) (a : List α),
      shuffleLoop rand i k a = (shuffleChoices rand i k).foldl (fun a p => swap a p.1 p.2) a
  | 0, _, _ => rfl
  | i + 1, k, a => by
      simp only [shuffleLoop, shuffleChoices, List.foldl_cons]
      exact shuffleLoop_eq_foldl rand i (k + 1) _

theorem shuffleLoopInStore_spec {α : Type} (rand : Nat → Rnd) (newArray : Nat) :
    ∀ (i k : Nat) (store : List (List α)) (a : List α), store[newArray]? = some a →
      (shuffleLoopInStore rand newArray i k store)[newArray]? = some (shuffleLoop rand i k a) ∧
      ∀ m, m ≠ newArray → (shuffleLoopInStore rand newArray i k store)[m]? = store[m]?
  | 0, _, _, _, h => ⟨h, fun _ _ => rfl⟩
  | i + 1, k, store, a, h => by
      have hmod : (store.modify (fun a => swap a (i + 1) ((rand k).floorMul (i + 1 + 1)))
          newArray)[newArray]? = some (swap a (i + 1) ((rand k).floorMul (i + 1 + 1))) := by
        rw [List.getElem?_modify, h]; simp
      have ih := shuffleLoopInStore_spec rand newArray i (k + 1) _ _ hmod
      refine ⟨ih.1, fun m hm => ?_⟩
      have := ih.2 m hm
      simp only [shuffleLoopInStore]
      rw [this, List.getElem?_modify]
      simp [Ne.symm hm]

/-- C26. For every array, every stream of outcomes of `Math.random()` and every store in
which `array` refers to the array `a`: each index `j` the loop of `shuffleArray` chooses
is at most the loop variable `i`, which is positive and below the length; the loop is the
sequence of the swaps of these pairs; the array returned has the elements of `a`, each as
often, and the length of `a`; it is a new array object, and every array object of the
store, the argument among them, is as before. -/
theorem shuffleArray_permutes_copy {α : Type} (rand : Nat → Rnd) (store : List (List α))
    (array : Nat) (a : List α) (harray : store[array]? = some a) :
    (∀ p ∈ shuffleChoices rand (a.length - 1) 0, p.2 ≤ p.1 ∧ 0 < p.1 ∧ p.1 < a.length) ∧
    shuffleArray rand a
      = (shuffleChoices rand (a.length - 1) 0).foldl (fun a p => swap a p.1 p.2) a ∧
    (shuffleArray rand a).Perm a ∧
    (shuffleArray rand a).length = a.length ∧
    (shuffleArrayInStore rand store array).2 = store.length ∧
    (shuffleArrayInStore rand store array).1[(shuffleArrayInStore rand store array).2]?
      = some (shuffleArray rand a) ∧
    (shuffleArrayInStore rand store array).1[array]? = some a ∧
    ∀ m, m < store.length → (shuffleArrayInStore rand store array).1[m]? = store[m]? := by
  have hlt : array < store.length := (List.getElem?_eq_some_iff.1 harray).1
  have hget : store.getD array [] = a := by
    rw [List.getD_eq_getElem?_getD, harray]; rfl
  have hnew : (store ++ [a])[store.length]? = some a := by simp
  have hspec := shuffleLoopInStore_spec rand store.length (a.length - 1) 0 (store ++ [a]) a hnew
  have hold : ∀ m, m < store.length →
      (shuffleArrayInStore rand store array).1[m]? = store[m]? := by
    intro m hm
    simp only [shuffleArrayInStore, hget]
    rw [hspec.2 m (by omega), List.getElem?_append_left hm]
  refine ⟨?_, shuffleLoop_eq_foldl rand _ 0 a, shuffleArray_perm rand a,
    (shuffleArray_perm rand a).length_eq, rfl, ?_, ?_, hold⟩
  · intro p hp
    have := shuffleChoices_bound rand _ 0 p hp
    exact ⟨this.1, this.2.1, by omega⟩
  · simp only [shuffleArrayInStore, hget]
    exact hspec.1
  · rw [hold array hlt]; exact harray

/-- The claim C26 for a store with two arrays and the stream whose outcomes are all `0`. -/
theorem shuffleArray_permutes_copy_witness :
    (shuffleArrayInStore (fun _ => Rnd.zero) [[1, 2, 3], [4, 5]] 0).1[0]? = some [1, 2, 3] ∧
    (shuffleArrayInStore (fun _ => Rnd.zero) [[1, 2, 3], [4, 5]] 0).1[2]?
      = some (shuffleArray (fun _ => Rnd.zero) [1, 2, 3]) ∧
    shuffleArray (fun _ => Rnd.zero) [1, 2, 3] = [2, 3, 1] :=
  have h := shuffleArray_permutes_copy (fun _ => Rnd.zero) [[1, 2, 3], [4, 5]] 0 [1, 2, 3] rfl
  ⟨h.2.2.2.2.2.2.1, h.2.2.2.2.2.1, by decide⟩

end MemoryGame

/-! ## The lookup of the classification game -/

namespace ClassificationGame

/-- C27. The 20 names of `aminoAcids` are pairwise distinct.  In every state of a session
and for every unplaced item element `target` on which a drag starts, the lookup of `drop`
among the unplaced elements by the text that `dragStart` stored returns `target` itself,
and the category that `dragStart` stored is the category of the element found. -/
theorem drop_lookup_finds_dragged (s : State) (hs : Reachable s) (target : Element)
    (htarget : target ∈ unplacedElements s) :
    (aminoAcids.map AminoAcid.name).Nodup ∧
    (unplacedElements s).find? (fun el => el.textContent = (dragStart target).textPlain)
      = some target ∧
    ∀ draggedElement,
      (unplacedElements s).find? (fun el => el.textContent = (dragStart target).textPlain)
        = some draggedElement →
      draggedElement = target ∧ (dragStart target).category = draggedElement.category := by
  have hinv := hs.inv
  have hpool : target ∈ s.aminoAcidsContainer := by
    rw [hinv.unplaced_eq] at htarget; exact htarget
  have hfind := hinv.find_pool hpool
  refine ⟨aminoAcids_names_nodup, hfind, ?_⟩
  intro draggedElement hd
  have hd1 : (unplacedElements s).find?
      (fun x => decide (x.textContent = target.textContent)) = some draggedElement := hd
  rw [hfind] at hd1
  cases hd1
  exact ⟨rfl, rfl⟩

/-- The claim C27 at the start of a session, for the first element of the pool. -/
theorem drop_lookup_finds_dragged_witness :
    State.start.aminoAcidsContainer.head? = some
      { id := 0, textContent := "甘氨酸", category := "A", title := "甘氨酸(α-氨基乙酸)",
        correct := false, placed := false, incorrect := false } ∧
    (unplacedElements State.start).find? (fun el => el.textContent = "甘氨酸") = some
      { id := 0, textContent := "甘氨酸", category := "A", title := "甘氨酸(α-氨基乙酸)",
        correct := false, placed := false, incorrect := false } :=
  ⟨by decide,
   (drop_lookup_finds_dragged State.start (Reachable.init _ _)
      { id := 0, textContent := "甘氨酸", category := "A", title := "甘氨酸(α-氨基乙酸)",
        correct := false, placed := false, incorrect := false } (by decide)).2.1⟩

end ClassificationGame

/-! ## Theorems about the geometry of the structure models -/

namespace AlphaHelix

theorem hydrogenBondLoop_eq (residues : List Vector3) (f : Nat → HydrogenBond) :
    ∀ (n i : Nat), (∀ j, j < n → hydrogenBond residues (i + j) = some (f (i + j))) →
      hydrogenBondLoop residues n i = some ((List.range n).map fun j => f (i + j))
  | 0, _, _ => rfl
  | n + 1, i, h => by
      have h0 := h 0 (by omega)
      have ih := hydrogenBondLoop_eq residues f n (i + 1)
        (fun j hj => by have := h (j + 1) (by omega); rwa [show i + 1 + j = i + (j + 1) by omega])
      simp only [hydrogenBondLoop]
      rw [Nat.add_zero] at h0
      rw [h0, ih]
      simp only [Option.map_some', List.range_succ_eq_map, List.map_cons, List.map_map,
        Nat.add_zero]
      congr 2
      apply List.map_congr_left
      intro j _
      simp only [Function.comp, Nat.succ_eq_add_one]
      rw [show i + 1 + j = i + (j + 1) by omega]

theorem residuePositions_getElem? (C : CatmullRomCurve3) (M : JSMath) (i : Nat) (hi : i < 18) :
    (residuePositions C M)[i]? = some (residuePosition C M i) := by
  unfold residuePositions totalAminoAcids
  rw [List.getElem?_map, List.getElem?_range hi]
  rfl

end AlphaHelix

/-- C21. The hydrogen bonds of the two `createAlphaHelix`, for every curve and every `Math`
object.  In `alpha-helix.js` the loop over the 18 residues makes `18 − 4 = 14` bonds without
reading outside the array `residues`; bond `k` (for `k` from 0 to 13) joins the positions of
the residues `k` and `k + 4`, and its tooltip prints `k + 1` and `k + 5`, the 1-based
numbers of these two residues; 14 objects of the scene are tagged `hbond`.  In `script.js`
the loop over the 10 residues makes `10 − 4 = 6` bonds; bond `k` (for `k` from 0 to 5) joins
the positions of the residues `k` and `k + 4`, and `k + 4` is below 10; 6 objects of the
scene are tagged `hbond`. -/
theorem hydrogen_bonds_join_k_and_k_plus_4 (C : CatmullRomCurve3) (M : JSMath) :
    (AlphaHelix.residuePositions C M).length = 18 ∧
    (∃ hbonds, AlphaHelix.hydrogenBonds (AlphaHelix.residuePositions C M) = some hbonds ∧
      hbonds.length = 18 - 4 ∧
      ∀ k, k < 14 →
        k + 4 < (AlphaHelix.residuePositions C M).length ∧
        (AlphaHelix.residuePositions C M)[k]? = some (AlphaHelix.residuePosition C M k) ∧
        (AlphaHelix.residuePositions C M)[k + 4]?
          = some (AlphaHelix.residuePosition C M (k + 4)) ∧
        hbonds[k]? = some
          { start := AlphaHelix.residuePosition C M k
            end_ := AlphaHelix.residuePosition C M (k + 4)
            info := "氢键：氨基酸" ++ toString (k + 1) ++ "的C=O与氨基酸" ++ toString (k + 4 + 1) ++
              "的N-H形成氢键，稳定α螺旋结构。" }) ∧
    ((AlphaHelix.createAlphaHelix Scene.empty).children.filter fun object =>
      object.userData.map UserData.type = some "hbond").length = 14 ∧
    Script.AlphaHelix.totalResidues = 10 ∧
    (Script.AlphaHelix.hydrogenBonds M).length = 10 - 4 ∧
    (∀ k, k < 6 →
      k + 4 < Script.AlphaHelix.totalResidues ∧
      (Script.AlphaHelix.hydrogenBonds M)[k]? = some
        [Script.AlphaHelix.residuePosition M k, Script.AlphaHelix.residuePosition M (k + 4)]) ∧
    ((Script.createAlphaHelix Scene.empty).children.filter fun object =>
      object.userData.map UserData.type = some "hbond").length = 6 := by
  have hlen : (AlphaHelix.residuePositions C M).length = 18 := by
    simp [AlphaHelix.residuePositions, AlphaHelix.totalAminoAcids]
  have hbond : ∀ j, j < 14 →
      AlphaHelix.hydrogenBond (AlphaHelix.residuePositions C M) (4 + j) = some
        ((fun i => ({ start := AlphaHelix.residuePosition C M (i - 4)
                      end_ := AlphaHelix.residuePosition C M i
                      info := "氢键：氨基酸" ++ toString (i - 3) ++ "的C=O与氨基酸" ++
                        toString (i + 1) ++ "的N-H形成氢键，稳定α螺旋结构。" } :
                    AlphaHelix.HydrogenBond)) (4 + j)) := by
    intro j hj
    unfold AlphaHelix.hydrogenBond
    rw [AlphaHelix.residuePositions_getElem? C M (4 + j - 4) (by omega),
      AlphaHelix.residuePositions_getElem? C M (4 + j) (by omega)]
  have hloop := AlphaHelix.hydrogenBondLoop_eq (AlphaHelix.residuePositions C M)
    (fun i => ({ start := AlphaHelix.residuePosition C M (i - 4)
                 end_ := AlphaHelix.residuePosition C M i
                 info := "氢键：氨基酸" ++ toString (i - 3) ++ "的C=O与氨基酸" ++
                   toString (i + 1) ++ "的N-H形成氢键，稳定α螺旋结构。" } :
               AlphaHelix.HydrogenBond)) 14 4 hbond
  have hbonds : AlphaHelix.hydrogenBonds (AlphaHelix.residuePositions C M)
      = AlphaHelix.hydrogenBondLoop (AlphaHelix.residuePositions C M) 14 4 := by
    unfold AlphaHelix.hydrogenBonds
    rw [hlen]
  refine ⟨hlen, ⟨_, hbonds.trans hloop, ?_, ?_⟩, by decide, Script.alpha_totalResidues, ?_, ?_, ?_⟩
  · simp
  · intro k hk
    refine ⟨by omega, AlphaHelix.residuePositions_getElem? C M k (by omega),
      AlphaHelix.residuePositions_getElem? C M (k + 4) (by omega), ?_⟩
    rw [List.getElem?_map, List.getElem?_range hk]
    simp only [Option.map_some']
    rw [show 4 + k = k + 4 by omega, Nat.add_sub_cancel, show k + 4 - 3 = k + 1 by omega]
  · simp [Script.AlphaHelix.hydrogenBonds, Script.alpha_totalResidues]
  · intro k hk
    refine ⟨by rw [Script.alpha_totalResidues]; omega, ?_⟩
    unfold Script.AlphaHelix.hydrogenBonds
    rw [Script.alpha_totalResidues, List.getElem?_map, List.getElem?_range (by omega)]
    simp only [Option.map_some', Script.AlphaHelix.hbondPoints,
      Script.AlphaHelix.residuePosition, Script.AlphaHelix.residueAngle,
      Script.AlphaHelix.residueParameter]
    push_cast
    rfl
  · unfold Script.createAlphaHelix
    rw [Script.alpha_totalResidues]
    decide

namespace BetaSheet

theorem residuePosition_y (M : JSMath) (i j : Nat) :
    (residuePosition M i j).y = 0.5 * M.sin (j * M.PI / 7) := by
  simp only [residuePosition, residueRippleY, residuesPerStrand]
  norm_num
  ring

theorem residueX_add (j : Nat) : residueX j + width / 2 = width * (j / 7) := by
  simp only [residueX, residueSpacing, width, residuesPerStrand]
  push_cast
  ring

theorem rippleHeight_residueX (M : JSMath) (i j : Nat) :
    rippleHeight M width (reverse i) (residueX j)
      = (if i % 2 = 1 then -1 else 1) * 0.5 * M.sin (j * M.PI / 7) := by
  have hsin1 : M.sin ((residueX j + width / 2) / width * M.PI) = M.sin (j * M.PI / 7) := by
    congr 1
    rw [residueX_add]
    simp only [width]
    ring
  simp only [rippleHeight, hsin1, reverse]
  by_cases h : i % 2 = 1
  · simp [h]; ring
  · simp [h]; ring

end BetaSheet

/-- C22. The residues of `createBetaSheet` in `beta-sheet.js`, for every `Math` object, every
strand `i` and every residue `j`: the y coordinate of the residue is `0.5 · sin(jπ/7)`
whatever the strand, and the height that `applyRippleEffect` writes at the x coordinate of
the residue is `s_i · 0.5 · sin(π · (x + width/2)/width)`, which is `0.5 · sin(jπ/7)` on
the strands with even `i` and `−0.5 · sin(jπ/7)` on the reversed strands with odd `i`.  So
on a reversed strand the residue is at the height of the pleat only where `sin(jπ/7) = 0`;
for the rational `Math` object, residue 1 of strand 1 is above the plane and the pleat of
its strand below, and the sine of the real numbers is positive at `jπ/7` for `j` from 1
to 6. -/
theorem residues_ignore_reversed_pleat (M : JSMath) (i j : Nat) :
    (BetaSheet.residuePosition M i j).x = BetaSheet.residueX j ∧
    (BetaSheet.residuePosition M i j).y = 0.5 * M.sin (j * M.PI / 7) ∧
    BetaSheet.rippleHeight M BetaSheet.width (BetaSheet.reverse i) (BetaSheet.residueX j)
      = (if i % 2 = 1 then -1 else 1) * 0.5 *
          M.sin (M.PI * (BetaSheet.residueX j + BetaSheet.width / 2) / BetaSheet.width) ∧
    (∀ vertex : Vector3, vertex.x = BetaSheet.residueX j →
      (BetaSheet.applyRippleEffect M [vertex] BetaSheet.width (BetaSheet.reverse i)).map
          Vector3.y
        = [BetaSheet.rippleHeight M BetaSheet.width (BetaSheet.reverse i)
            (BetaSheet.residueX j)]) ∧
    (i % 2 = 0 →
      (BetaSheet.residuePosition M i j).y
        = BetaSheet.rippleHeight M BetaSheet.width (BetaSheet.reverse i)
            (BetaSheet.residueX j)) ∧
    (i % 2 = 1 →
      (BetaSheet.residuePosition M i j).y
        = -BetaSheet.rippleHeight M BetaSheet.width (BetaSheet.reverse i)
            (BetaSheet.residueX j) ∧
      ((BetaSheet.residuePosition M i j).y
          = BetaSheet.rippleHeight M BetaSheet.width (BetaSheet.reverse i)
              (BetaSheet.residueX j)
        ↔ M.sin (j * M.PI / 7) = 0)) ∧
    0 < (BetaSheet.residuePosition JSMath.rational 1 1).y ∧
    BetaSheet.rippleHeight JSMath.rational BetaSheet.width (BetaSheet.reverse 1)
      (BetaSheet.residueX 1) < 0 ∧
    (1 ≤ j → j ≤ 6 → 0 < Real.sin (j * Real.pi / 7)) := by
  have hy := BetaSheet.residuePosition_y M i j
  have hripple := BetaSheet.rippleHeight_residueX M i j
  have hsin2 : M.sin (M.PI * (BetaSheet.residueX j + BetaSheet.width / 2) / BetaSheet.width)
      = M.sin (j * M.PI / 7) := by
    congr 1
    rw [BetaSheet.residueX_add]
    simp only [BetaSheet.width]
    ring
  refine ⟨rfl, hy, by rw [hripple, hsin2], ?_, ?_, ?_, ?_, ?_, ?_⟩
  · intro vertex hx
    simp [BetaSheet.applyRippleEffect, hx]
  · intro h
    have h1 : ¬ i % 2 = 1 := by omega
    rw [hy, hripple]
    simp [h1]
  · intro h
    rw [hy, hripple]
    simp only [h, if_true]
    refine ⟨by ring, ?_⟩
    constructor
    · intro he
      linarith
    · intro he
      rw [he]
      ring
  · rw [BetaSheet.residuePosition_y]
    norm_num [JSMath.rational]
  · rw [BetaSheet.rippleHeight_residueX]
    norm_num [JSMath.rational]
  · intro h1 h6
    have hj1 : (1 : ℝ) ≤ j := by exact_mod_cast h1
    have hj6 : (j : ℝ) ≤ 6 := by exact_mod_cast h6
    apply Real.sin_pos_of_pos_of_lt_pi
    · have := Real.pi_pos
      positivity
    · have := Real.pi_pos
      rw [div_lt_iff₀ (by norm_num)]
      nlinarith

/-! ## Theorems about the summary tables -/

namespace SpecialAminoAcids

theorem JSNumber.le_transitive {a b c : JSNumber} (hab : a.le b) (hbc : b.le c) : a.le c := by
  cases a <;> cases b <;> cases c <;> simp only [JSNumber.le] at *
  exact hab.trans hbc

theorem JSNumber.sub_isPositive_true {a b : JSNumber} (ha : a.isNaN = false)
    (hb : b.isNaN = false) (h : (a.sub b).isPositive = true) : b.le a := by
  cases a <;> cases b <;>
    simp_all [JSNumber.sub, JSNumber.isPositive, JSNumber.le, JSNumber.isNaN]
  exact le_of_lt h

theorem JSNumber.sub_isPositive_false {a b : JSNumber} (ha : a.isNaN = false)
    (hb : b.isNaN = false) (h : (a.sub b).isPositive = false) : a.le b := by
  cases a <;> cases b <;>
    simp_all [JSNumber.sub, JSNumber.isPositive, JSNumber.le, JSNumber.isNaN]

theorem sortInsert_spec {α : Type} (comparefn : α → α → Option JSNumber) (S : α → Prop)
    (r : α → α → Prop) (hr : ∀ a b c, r a b → r b c → r a c)
    (hcmp : ∀ y x, S y → S x → ∃ v, comparefn y x = some v ∧
      (v.isPositive = true → r x y) ∧ (v.isPositive = false → r y x))
    (x : α) (hx : S x) :
    ∀ sorted : List α, (∀ y ∈ sorted, S y) → sorted.Pairwise (fun a b => r b a) →
      ∃ l, sortInsert comparefn x sorted = some l ∧ l.Perm (x :: sorted) ∧
        l.Pairwise (fun a b => r b a)
  | [], _, _ => ⟨[x], rfl, List.Perm.refl _, List.pairwise_singleton _ _⟩
  | y :: ys, hS, hsorted => by
      obtain ⟨v, hv, hpos, hneg⟩ := hcmp y x (hS y (List.mem_cons_self _ _)) hx
      rw [List.pairwise_cons] at hsorted
      simp only [sortInsert, hv]
      cases hp : v.isPositive
      · refine ⟨x :: y :: ys, by simp, List.Perm.refl _, ?_⟩
        rw [List.pairwise_cons, List.pairwise_cons]
        refine ⟨?_, hsorted⟩
        intro z hz
        rcases List.mem_cons.1 hz with rfl | hz
        · exact hneg hp
        · exact hr _ _ _ (hsorted.1 z hz) (hneg hp)
      · obtain ⟨l, hl, hperm, hpair⟩ := sortInsert_spec comparefn S r hr hcmp x hx ys
          (fun z hz => hS z (List.mem_cons_of_mem _ hz)) hsorted.2
        refine ⟨y :: l, by simp [hl], ?_, ?_⟩
        · exact (List.Perm.cons y hperm).trans (List.Perm.swap x y ys)
        · rw [List.pairwise_cons]
          refine ⟨?_, hpair⟩
          intro z hz
          rcases List.mem_cons.1 (hperm.subset hz) with rfl | hz
          · exact hpos hp
          · exact hsorted.1 z hz

theorem sortLoop_spec {α : Type} (comparefn : α → α → Option JSNumber) (S : α → Prop)
    (r : α → α → Prop) (hr : ∀ a b c, r a b → r b c → r a c)
    (hcmp : ∀ y x, S y → S x → ∃ v, comparefn y x = some v ∧
      (v.isPositive = true → r x y) ∧ (v.isPositive = false → r y x)) :
    ∀ rest sorted : List α, (∀ y ∈ rest, S y) → (∀ y ∈ sorted, S y) →
      sorted.Pairwise (fun a b => r b a) →
      ∃ l, sortLoop comparefn rest sorted = some l ∧ l.Perm (sorted.reverse ++ rest) ∧
        l.Pairwise r
  | [], sorted, _, _, hsorted =>
      ⟨sorted.reverse, rfl, by simp, List.pairwise_reverse.2 hsorted⟩
  | x :: rest, sorted, hrest, hS, hsorted => by
      obtain ⟨ins, hins, hperm, hpair⟩ := sortInsert_spec comparefn S r hr hcmp x
        (hrest x (List.mem_cons_self _ _)) sorted hS hsorted
      have hSins : ∀ y ∈ ins, S y := by
        intro y hy
        rcases List.mem_cons.1 (hperm.subset hy) with rfl | hy
        · exact hrest y (List.mem_cons_self _ _)
        · exact hS y hy
      obtain ⟨l, hl, hlperm, hlpair⟩ := sortLoop_spec comparefn S r hr hcmp rest ins
        (fun y hy => hrest y (List.mem_cons_of_mem _ hy)) hSins hpair
      refine ⟨l, by simp [sortLoop, hins, hl], ?_, hlpair⟩
      refine hlperm.trans ?_
      have h1 : ins.reverse.Perm (x :: sorted.reverse) :=
        (List.reverse_perm ins).trans (hperm.trans (List.Perm.cons x (List.reverse_perm sorted).symm))
      have h2 : (ins.reverse ++ rest).Perm (x :: sorted.reverse ++ rest) := h1.append_right rest
      refine h2.trans ?_
      simp only [List.cons_append]
      exact List.perm_middle.symm

theorem sort_spec {α : Type} (comparefn : α → α → Option JSNumber) (S : α → Prop)
    (r : α → α → Prop) (hr : ∀ a b c, r a b → r b c → r a c)
    (hcmp : ∀ y x, S y → S x → ∃ v, comparefn y x = some v ∧
      (v.isPositive = true → r x y) ∧ (v.isPositive = false → r y x))
    (array : List α) (harray : ∀ y ∈ array, S y) :
    ∃ l, sort comparefn array = some l ∧ l.Perm array ∧ l.Pairwise r := by
  obtain ⟨l, hl, hperm, hpair⟩ := sortLoop_spec comparefn S r hr hcmp array [] harray
    (fun _ h => absurd h (List.not_mem_nil _)) List.Pairwise.nil
  exact ⟨l, hl, by simpa using hperm, hpair⟩

theorem compareRows_numeric (B : Builtins) (sortDirection : String) (columnIndex : Nat)
    (rowA rowB : List String)
    (hA : ∃ text, rowA[columnIndex]? = some text ∧ (B.parseFloat (B.trim text)).isNaN = false)
    (hB : ∃ text, rowB[columnIndex]? = some text ∧ (B.parseFloat (B.trim text)).isNaN = false) :
    compareRows B sortDirection columnIndex rowA rowB
      = some (if sortDirection = "asc"
          then (cellNumber B columnIndex rowA).sub (cellNumber B columnIndex rowB)
          else (cellNumber B columnIndex rowB).sub (cellNumber B columnIndex rowA)) ∧
    (cellNumber B columnIndex rowA).isNaN = false ∧
    (cellNumber B columnIndex rowB).isNaN = false := by
  obtain ⟨ta, hta, hna⟩ := hA
  obtain ⟨tb, htb, hnb⟩ := hB
  simp [compareRows, cellNumber, hta, htb, hna, hnb]

/-- C24. For every table, every column and all built-in functions `trim`, `parseFloat` and
`localeCompare`: when every body row has a cell in the column and `parseFloat` of its
trimmed text is not `NaN`, `sortTable` returns; the direction is `desc` when it was `asc`
and `asc` otherwise, the column is recorded, the body rows are the rows of before in
another order; when the direction is set to `asc` they are in non-decreasing numeric order
of the column, and when it is set to `desc` in non-increasing numeric order. -/
theorem sortTable_numeric_order (B : Builtins) (table : Table) (columnIndex : Nat)
    (hnum : ∀ row ∈ table.rows, ∃ text, row[columnIndex]? = some text ∧
      (B.parseFloat (B.trim text)).isNaN = false) :
    ∃ sorted, sortTable B table columnIndex = some sorted ∧
      sorted.sortDirection
        = some (if table.sortDirection = some "asc" then "desc" else "asc") ∧
      sorted.sortColumn = some columnIndex ∧
      sorted.rows.Perm table.rows ∧
      (sorted.sortDirection = some "asc" →
        sorted.rows.Pairwise fun rowA rowB =>
          (cellNumber B columnIndex rowA).le (cellNumber B columnIndex rowB)) ∧
      (sorted.sortDirection = some "desc" →
        sorted.rows.Pairwise fun rowA rowB =>
          (cellNumber B columnIndex rowB).le (cellNumber B columnIndex rowA)) := by
  by_cases hdir : table.sortDirection = some "asc"
  · obtain ⟨l, hl, hperm, hpair⟩ := sort_spec (compareRows B "desc" columnIndex)
      (fun row => ∃ text, row[columnIndex]? = some text ∧
        (B.parseFloat (B.trim text)).isNaN = false)
      (fun rowA rowB => (cellNumber B columnIndex rowB).le (cellNumber B columnIndex rowA))
      (fun a b c hab hbc => JSNumber.le_transitive hbc hab)
      (fun y x hy hx => by
        obtain ⟨hc, hny, hnx⟩ := compareRows_numeric B "desc" columnIndex y x hy hx
        refine ⟨_, hc, ?_, ?_⟩
        · intro hp
          simp only [show ¬ ("desc" = "asc") by decide, if_false] at hp
          exact JSNumber.sub_isPositive_true hnx hny hp
        · intro hp
          simp only [show ¬ ("desc" = "asc") by decide, if_false] at hp
          exact JSNumber.sub_isPositive_false hnx hny hp)
      table.rows hnum
    refine ⟨{ sortDirection := some "desc", sortColumn := some columnIndex, rows := l },
      by simp only [sortTable, hdir, if_true, hl], ?_, rfl, hperm, ?_, ?_⟩
    · simp [hdir]
    · intro h
      simp at h
    · intro _
      exact hpair
  · obtain ⟨l, hl, hperm, hpair⟩ := sort_spec (compareRows B "asc" columnIndex)
      (fun row => ∃ text, row[columnIndex]? = some text ∧
        (B.parseFloat (B.trim text)).isNaN = false)
      (fun rowA rowB => (cellNumber B columnIndex rowA).le (cellNumber B columnIndex rowB))
      (fun a b c hab hbc => JSNumber.le_transitive hab hbc)
      (fun y x hy hx => by
        obtain ⟨hc, hny, hnx⟩ := compareRows_numeric B "asc" columnIndex y x hy hx
        refine ⟨_, hc, ?_, ?_⟩
        · intro hp
          simp only [if_true] at hp
          exact JSNumber.sub_isPositive_true hny hnx hp
        · intro hp
          simp only [if_true] at hp
          exact JSNumber.sub_isPositive_false hny hnx hp)
      table.rows hnum
    refine ⟨{ sortDirection := some "asc", sortColumn := some columnIndex, rows := l },
      by simp only [sortTable, hdir, if_false, hl], ?_, rfl, hperm, ?_, ?_⟩
    · simp [hdir]
    · intro _
      exact hpair
    · intro h
      simp at h

/-- The claim C24 for a table of three rows whose second column holds the numbers 10, 9
and 2, sorted for the first time. -/
theorem sortTable_numeric_order_witness :
    (∀ row ∈ [["b", "10"], ["a", "9"], ["c", "2"]],
      ∃ text, row[1]? = some text ∧
        (Builtins.digits.parseFloat (Builtins.digits.trim text)).isNaN = false) ∧
    ∃ sorted,
      sortTable Builtins.digits
        { sortDirection := none, sortColumn := none,
          rows := [["b", "10"], ["a", "9"], ["c", "2"]] } 1 = some sorted ∧
      sorted.sortDirection = some "asc" ∧
      sorted.rows.Perm [["b", "10"], ["a", "9"], ["c", "2"]] ∧
      sorted.rows.Pairwise fun rowA rowB =>
        (cellNumber Builtins.digits 1 rowA).le (cellNumber Builtins.digits 1 rowB) :=
  have hnum : ∀ row ∈ [["b", "10"], ["a", "9"], ["c", "2"]],
      ∃ text, row[1]? = some text ∧
        (Builtins.digits.parseFloat (Builtins.digits.trim text)).isNaN = false := by
    intro row hrow
    simp only [List.mem_cons, List.mem_singleton, List.not_mem_nil, or_false] at hrow
    rcases hrow with rfl | rfl | rfl
    · exact ⟨"10", rfl, by decide⟩
    · exact ⟨"9", rfl, by decide⟩
    · exact ⟨"2", rfl, by decide⟩
  have h := sortTable_numeric_order Builtins.digits
    { sortDirection := none, sortColumn := none,
      rows := [["b", "10"], ["a", "9"], ["c", "2"]] } 1 hnum
  ⟨hnum, h.elim fun sorted hs => ⟨sorted, hs.1, hs.2.1, hs.2.2.2.1, hs.2.2.2.2.1 hs.2.1⟩⟩

end SpecialAminoAcids

/-! ## Stale callbacks and the success modal -/

namespace MemoryGame

/-- C11. A session from `initGame` in which the success modal is triggered at an event that
is no successful match.  After `staleCompletion` the tiles of nineteen acids are matched,
the three tiles of 精氨酸 (positions 55, 57, 59) are not, nothing is selected,
`remainingTiles` is 3 and the second match callback of 丙氨酸 is pending.  Its firing marks
no tile, leaves `remainingTiles` equal to 0 and triggers the success modal, with three
tiles unmatched and only nineteen entries in `matchedAminoAcids`; the modal callback then
shows the modal. -/
theorem modal_triggered_by_stale_callback :
    (run State.start staleCompletion).remainingTiles = 3 ∧
    unmatchedCount (run State.start staleCompletion) = 3 ∧
    (run State.start staleCompletion).selectedTiles = [] ∧
    (run State.start staleCompletion).timers = [Timer.matched "丙氨酸"] ∧
    ((run State.start staleCompletion).grid.filter fun tile => !tile.matched).map Tile.acid
      = ["精氨酸", "精氨酸", "精氨酸"] ∧
    triggersModal (run State.start staleCompletion) (Event.fire 0) = true ∧
    (step (run State.start staleCompletion) (Event.fire 0)).grid
      = (run State.start staleCompletion).grid ∧
    (step (run State.start staleCompletion) (Event.fire 0)).remainingTiles = 0 ∧
    unmatchedCount (step (run State.start staleCompletion) (Event.fire 0)) = 3 ∧
    (step (run State.start staleCompletion) (Event.fire 0)).matchedAminoAcids.length = 19 ∧
    (step (run State.start staleCompletion) (Event.fire 0)).timers = [Timer.showModal] ∧
    (run State.start (staleCompletion ++ [Event.fire 0, Event.fire 0])).successModalShow
      = true ∧
    unmatchedCount (run State.start (staleCompletion ++ [Event.fire 0, Event.fire 0])) = 3 := by
  decide

end MemoryGame

namespace ClassificationGame

/-- C6. A session in which the success modal is shown with no item placed.  After
`sampleSession` all 20 items are placed and the callback of `checkGameCompletion` is
pending (behind the callback of a wrong drop).  A click on the reset button calls
`initGame`, which empties the zones and hides the modal and leaves the callbacks pending;
when the callback fires in the new session, the modal is shown while no item is placed and
all 20 are in the pool.  The new session is a state produced by `initGame`, and no drop
has happened in it. -/
theorem modal_shown_after_reset :
    (placedElements (run State.start sampleSession)).length = 20 ∧
    (run State.start sampleSession).timers = [Timer.removeIncorrect 8, Timer.showModal] ∧
    (run State.start sampleSession).successModalShow = false ∧
    (initGame (fun _ => Rnd.zero) (run State.start sampleSession)).timers
      = [Timer.removeIncorrect 8, Timer.showModal] ∧
    (initGame (fun _ => Rnd.zero) (run State.start sampleSession)).successModalShow = false ∧
    placedElements (initGame (fun _ => Rnd.zero) (run State.start sampleSession)) = [] ∧
    (step (initGame (fun _ => Rnd.zero) (run State.start sampleSession))
      (Event.fire 1)).successModalShow = true ∧
    placedElements (step (initGame (fun _ => Rnd.zero) (run State.start sampleSession))
      (Event.fire 1)) = [] ∧
    (step (initGame (fun _ => Rnd.zero) (run State.start sampleSession))
      (Event.fire 1)).aminoAcidsContainer.length = 20 ∧
    triggerCount (initGame (fun _ => Rnd.zero) (run State.start sampleSession))
      [Event.fire 1] = 0 := by
  decide

end ClassificationGame

/-! ## Theorems about the positions in double arithmetic -/

namespace Float64.AlphaHelix

theorem backbonePoints_length (M : Math) : (backbonePoints M).length = 181 := by
  simp [backbonePoints, segments, totalAminoAcids]

theorem backbonePoints_get (M : Math) (i : Nat) (hi : i ≤ 180) :
    (backbonePoints M)[i]? = some (backbonePoint M i) := by
  unfold backbonePoints
  rw [List.getElem?_map, List.getElem?_range (by simp only [segments, totalAminoAcids]; omega)]
  rfl

theorem backboneHeight_facts :
    totalHeight = 27 ∧ turns = 5 ∧ Double.ofNat segments = 180 ∧
    backboneHeight 0 = -13.5 ∧ backboneHeight 180 = 13.5 ∧
    backboneAngle 0 = 0 ∧ backboneAngle 180 = 5 * (2 * PI) ∧
    radius * 1 = 2.3 ∧ radius * 0 = 0 ∧
    (∀ i, i < 180 → backboneHeight i < backboneHeight (i + 1)) ∧
    (∀ i, i ≤ 180 → -13.5 ≤ backboneHeight i ∧ backboneHeight i ≤ 13.5) ∧
    (∀ i, i ≤ 180 → (backboneHeight i).Near (27 * ((i : Int) - 90)) 180 48) ∧
    (∀ i, i ≤ 180 → ((backboneHeight i).IsRatio (27 * ((i : Int) - 90)) 180 ↔
      i ∈ [0, 5, 10, 15, 20, 25, 35, 40, 45, 50, 65, 70, 90, 130, 135, 140, 145, 170, 175,
        180])) := by
  decide!

end Float64.AlphaHelix

/-- C17, the claim as stated fails. In double arithmetic the height of control point 30 of
the backbone of `alpha-helix.js` is `-9.000000000000002`, while the formula of the claim,
`H · (i/180 − 1/2)` with `H = 27`, gives `27 · (30/180 − 1/2) = −9`, which is a double. -/
theorem backbone_height_30_rounded :
    (Float64.AlphaHelix.backbonePoints Float64.Math.series)[30]?.map Float64.Vector3.y
      = some (-9.000000000000002) ∧
    Float64.AlphaHelix.backboneHeight 30 = -9.000000000000002 ∧
    ¬ (Float64.AlphaHelix.backboneHeight 30).IsRatio (27 * (30 - 90)) 180 ∧
    Float64.Double.IsRatio (-9) (27 * (30 - 90)) 180 ∧
    Float64.AlphaHelix.backboneHeight 30 < -9 := by
  decide!

/-- C17, amended. The backbone of `createAlphaHelix` in `alpha-helix.js`, in double
arithmetic and for every `Math` object: it has 181 control points, and for every `i` from 0
to 180 point `i` is `(r · cos θ_i, H · (i/180 − 0.5), r · sin θ_i)` with every operation
rounded, `r = 2.3`, `H = 18 · 1.5 = 27`, `turns = 18/3.6 = 5` and
`θ_i = 2 · Math.PI · turns · (i/180)`.  The heights grow strictly with `i`, from exactly
−13.5 at `i = 0` to exactly 13.5 at `i = 180`; they differ from `27 · (i/180 − 1/2)` by at
most `2⁻⁴⁸` and are equal to it at 20 of the 181 indices.  `θ_0` is 0 and `θ_180` is
`5 · (2 · Math.PI)`.  Point 0 is `(2.3, −13.5, 0)`, at distance `r` from the y axis. -/
theorem backbone_points_in_doubles (M : Float64.Math) :
    (Float64.AlphaHelix.backbonePoints M).length = 181 ∧
    (∀ i, i ≤ 180 →
      (Float64.AlphaHelix.backbonePoints M)[i]? = some
        { x := Float64.AlphaHelix.radius * M.cos (Float64.AlphaHelix.backboneAngle i)
          y := Float64.AlphaHelix.totalHeight * (Float64.Double.ofNat i / 180 - 0.5)
          z := Float64.AlphaHelix.radius * M.sin (Float64.AlphaHelix.backboneAngle i) } ∧
      Float64.AlphaHelix.backboneAngle i
        = 2 * Float64.PI * Float64.AlphaHelix.turns * (Float64.Double.ofNat i / 180)) ∧
    Float64.AlphaHelix.radius = 2.3 ∧
    Float64.AlphaHelix.totalHeight = 27 ∧
    Float64.AlphaHelix.turns = 5 ∧
    Float64.AlphaHelix.backboneHeight 0 = -13.5 ∧
    Float64.AlphaHelix.backboneHeight 180 = 13.5 ∧
    (∀ i, i < 180 →
      Float64.AlphaHelix.backboneHeight i < Float64.AlphaHelix.backboneHeight (i + 1)) ∧
    (∀ i, i ≤ 180 →
      -13.5 ≤ Float64.AlphaHelix.backboneHeight i ∧
      Float64.AlphaHelix.backboneHeight i ≤ 13.5) ∧
    (∀ i, i ≤ 180 →
      (Float64.AlphaHelix.backboneHeight i).Near (27 * ((i : Int) - 90)) 180 48) ∧
    (∀ i, i ≤ 180 →
      ((Float64.AlphaHelix.backboneHeight i).IsRatio (27 * ((i : Int) - 90)) 180 ↔
        i ∈ [0, 5, 10, 15, 20, 25, 35, 40, 45, 50, 65, 70, 90, 130, 135, 140, 145, 170, 175,
          180])) ∧
    Float64.AlphaHelix.backboneAngle 0 = 0 ∧
    Float64.AlphaHelix.backboneAngle 180 = 5 * (2 * Float64.PI) ∧
    (Float64.AlphaHelix.backbonePoints M)[0]? = some { x := 2.3, y := -13.5, z := 0 } := by
  obtain ⟨hH, hturns, hseg, h0, h180, ha0, ha180, hr1, hr0, hmono, hrange, hnear, hexact⟩ :=
    Float64.AlphaHelix.backboneHeight_facts
  refine ⟨Float64.AlphaHelix.backbonePoints_length M, ?_, rfl, hH, hturns, h0, h180, hmono,
    hrange, hnear, hexact, ha0, ha180, ?_⟩
  · intro i hi
    refine ⟨?_, ?_⟩
    · rw [Float64.AlphaHelix.backbonePoints_get M i hi]
      simp only [Float64.AlphaHelix.backbonePoint, Float64.AlphaHelix.backboneHeight,
        Float64.AlphaHelix.backboneParameter, hseg]
    · simp only [Float64.AlphaHelix.backboneAngle, Float64.AlphaHelix.backboneParameter, hseg]
  · rw [Float64.AlphaHelix.backbonePoints_get M 0 (by omega)]
    simp only [Float64.AlphaHelix.backbonePoint, ha0, M.cos_zero, M.sin_zero, hr1, hr0, h0]

namespace Float64

theorem backbonePoints_length_sub (M : Math) :
    ((AlphaHelix.backbonePoints M).length - 1) = 180 := by
  simp [AlphaHelix.backbonePoints, AlphaHelix.segments, AlphaHelix.totalAminoAcids]

theorem residueParameter_facts :
    (∀ i, i < 18 → AlphaHelix.residueParameter i = AlphaHelix.sidechainParameter i) ∧
    (∀ i, i < 18 → i ≠ 11 →
      Double.ofNat 180 * AlphaHelix.residueParameter i
          - Double.ofNat (Double.floor (Double.ofNat 180 * AlphaHelix.residueParameter i)) = 0 ∧
      Double.floor (Double.ofNat 180 * AlphaHelix.residueParameter i) = 10 * i) ∧
    Double.ofNat 180 * AlphaHelix.residueParameter 11 = 110.00000000000001 ∧
    (110 : Double) < 110.00000000000001 ∧
    Double.floor (Double.ofNat 180 * AlphaHelix.residueParameter 11) = 110 ∧
    (∀ i, i < 17 →
      NearUnits ((AlphaHelix.backboneHeight (10 * (i + 1))).units
        - (AlphaHelix.backboneHeight (10 * i)).units) 3 2 48 ∧
      ((AlphaHelix.backboneHeight (10 * (i + 1))).units
          - (AlphaHelix.backboneHeight (10 * i)).units = (1.5 : Double).units
        ↔ i ∈ [0, 1, 4, 13]) ∧
      NearUnits ((AlphaHelix.backboneAngle (10 * (i + 1))).units
        - (AlphaHelix.backboneAngle (10 * i)).units) (20 * PI.units) (36 * unit) 47) ∧
    AlphaHelix.pitchPerTurn = AlphaHelix.aminoAcidsPerTurn * AlphaHelix.aminoAcidHeight ∧
    AlphaHelix.totalHeight / AlphaHelix.turns = AlphaHelix.pitchPerTurn ∧
    AlphaHelix.pitchPerTurn = 5.4 ∧
    AlphaHelix.segmentsPerAminoAcid = 10 := by
  decide!

theorem residuePosition_knot (C : CatmullRomCurve3) (M : Math) (i : Nat) (hi : i < 18)
    (h11 : i ≠ 11) :
    AlphaHelix.residuePosition C M i = AlphaHelix.backbonePoint M (10 * i) := by
  obtain ⟨hw, hf⟩ := residueParameter_facts.2.1 i hi h11
  have hget : (AlphaHelix.backbonePoints M)[10 * i]? = some (AlphaHelix.backbonePoint M (10 * i)) := by
    unfold AlphaHelix.backbonePoints
    rw [List.getElem?_map, List.getElem?_range
      (by simp only [AlphaHelix.segments, AlphaHelix.totalAminoAcids]; omega)]
    rfl
  unfold AlphaHelix.residuePosition
  apply C.getPoint_knot
  · rw [backbonePoints_length_sub]; exact hw
  · rw [backbonePoints_length_sub, hf]
    simp [AlphaHelix.backbonePoints, AlphaHelix.segments, AlphaHelix.totalAminoAcids]
    omega
  · rw [backbonePoints_length_sub, hf]; exact hget

end Float64

/-- C19, the claim as stated fails. In double arithmetic the residues 2 and 3 of
`alpha-helix.js` are at the control points 20 and 30 of the backbone, whose heights are
`-10.5` and `-9.000000000000002`: the rise from one to the other is not 1.5, as
`-10.5 + 1.5 = -9`.  And residue 11 is not at a control point: for its parameter `t` the
product `180 * t` is `110.00000000000001`. -/
theorem residue_rise_rounded :
    (Float64.AlphaHelix.residuePosition Float64.CatmullRomCurve3.polyline
      Float64.Math.series 2).y = -10.5 ∧
    (Float64.AlphaHelix.residuePosition Float64.CatmullRomCurve3.polyline
      Float64.Math.series 3).y = -9.000000000000002 ∧
    Float64.AlphaHelix.backboneHeight 20 = -10.5 ∧
    Float64.AlphaHelix.backboneHeight 30 = -9.000000000000002 ∧
    (-9.000000000000002 : Float64.Double).units - (-10.5 : Float64.Double).units
      ≠ (1.5 : Float64.Double).units ∧
    (-10.5 : Float64.Double) + 1.5 = -9 ∧
    (-9.000000000000002 : Float64.Double) ≠ -9 ∧
    Float64.Double.ofNat 180 * Float64.AlphaHelix.residueParameter 11
      = 110.00000000000001 ∧
    (110.00000000000001 : Float64.Double) ≠ 110 := by
  decide!

/-- C19, amended. The residues of `createAlphaHelix` in `alpha-helix.js`, in double
arithmetic, for every `Math` object and every curve that returns a control point where the
weight of `getPoint` is zero.  There are 18 residues; residue `i` is taken at the parameter
`Math.round(i * 10) / 180`, which is the parameter `i / 18` of its side chain.  Every
residue except residue 11 is exactly at control point `10 i` of the backbone; for residue
11 the product `180 * t` is `110.00000000000001`, so it lies between the control points 110
and 111.  From control point `10 i` to control point `10 (i + 1)` the height grows by 1.5
up to `2⁻⁴⁸`, exactly by 1.5 only for `i` among 0, 1, 4 and 13, and the angle grows by
`2 · Math.PI / 3.6` up to `2⁻⁴⁷`.  The declared pitch 5.4 is `3.6 * 1.5` and
`totalHeight / turns`. -/
theorem residue_spacing_in_doubles (C : Float64.CatmullRomCurve3) (M : Float64.Math) :
    (Float64.AlphaHelix.residuePositions C M).length = 18 ∧
    (∀ i, i < 18 →
      (Float64.AlphaHelix.residuePositions C M)[i]?
        = some (Float64.AlphaHelix.residuePosition C M i) ∧
      Float64.AlphaHelix.residueParameter i = Float64.AlphaHelix.sidechainParameter i) ∧
    (∀ i, i < 18 → i ≠ 11 →
      Float64.AlphaHelix.residuePosition C M i = Float64.AlphaHelix.backbonePoint M (10 * i) ∧
      (Float64.AlphaHelix.residuePosition C M i).y
        = Float64.AlphaHelix.backboneHeight (10 * i)) ∧
    Float64.Double.ofNat 180 * Float64.AlphaHelix.residueParameter 11
      = 110.00000000000001 ∧
    (110 : Float64.Double) < 110.00000000000001 ∧
    Float64.Double.floor (Float64.Double.ofNat 180 * Float64.AlphaHelix.residueParameter 11)
      = 110 ∧
    (∀ i, i < 17 →
      Float64.NearUnits ((Float64.AlphaHelix.backboneHeight (10 * (i + 1))).units
        - (Float64.AlphaHelix.backboneHeight (10 * i)).units) 3 2 48 ∧
      ((Float64.AlphaHelix.backboneHeight (10 * (i + 1))).units
          - (Float64.AlphaHelix.backboneHeight (10 * i)).units
            = (1.5 : Float64.Double).units
        ↔ i ∈ [0, 1, 4, 13]) ∧
      Float64.NearUnits ((Float64.AlphaHelix.backboneAngle (10 * (i + 1))).units
        - (Float64.AlphaHelix.backboneAngle (10 * i)).units)
        (20 * Float64.PI.units) (36 * Float64.unit) 47) ∧
    Float64.AlphaHelix.pitchPerTurn
      = Float64.AlphaHelix.aminoAcidsPerTurn * Float64.AlphaHelix.aminoAcidHeight ∧
    Float64.AlphaHelix.totalHeight / Float64.AlphaHelix.turns
      = Float64.AlphaHelix.pitchPerTurn ∧
    Float64.AlphaHelix.pitchPerTurn = 5.4 := by
  obtain ⟨hside, _, h11, hlt, hfloor, hstep, hp1, hp2, hp3, _⟩ := Float64.residueParameter_facts
  refine ⟨by simp [Float64.AlphaHelix.residuePositions, Float64.AlphaHelix.totalAminoAcids],
    ?_, ?_, h11, hlt, hfloor, hstep, hp1, hp2, hp3⟩
  · intro i hi
    refine ⟨?_, hside i hi⟩
    unfold Float64.AlphaHelix.residuePositions Float64.AlphaHelix.totalAminoAcids
    rw [List.getElem?_map, List.getElem?_range hi]
    rfl
  · intro i hi hne
    have h := Float64.residuePosition_knot C M i hi hne
    exact ⟨h, by rw [h]; rfl⟩

namespace BetaTurn

theorem turnParameter_values :
    turnParameter 0 = 0.3 ∧
    turnParameter 1 = 0.43333333333333335 ∧
    turnParameter 2 = 0.5666666666666667 ∧
    turnParameter 3 = 0.7000000000000001 ∧
    turnParameter 3 ≠ 0.7 ∧
    (0.7 : Float64.Double) < turnParameter 3 ∧
    (turnParameter 1).units - (turnParameter 0).units
      ≠ (turnParameter 2).units - (turnParameter 1).units ∧
    (turnParameter 2).units - (turnParameter 1).units
      ≠ (turnParameter 3).units - (turnParameter 2).units ∧
    turnParameter 1 - turnParameter 0 = 0.13333333333333336 ∧
    turnParameter 2 - turnParameter 1 = 0.1333333333333333 ∧
    turnParameter 3 - turnParameter 2 = 0.13333333333333341 ∧
    (∀ i, i < 3 → turnParameter i < turnParameter (i + 1)) := by
  decide!

end BetaTurn

/-- C23. The model of `createBetaTurn` in `beta-turn.js`, in double arithmetic and for
every curve method `getPoint`.  `turnPoints` has 4 entries, entry `i` is the point of the
curve at `t_i = 0.3 + (i * 0.4 / 3)`.  The parameters are `0.3`, `0.43333333333333335`,
`0.5666666666666667` and `0.7000000000000001`: the last is above `0.7`, and the three steps
between them are three different numbers.  Every residue is at its point; the hydrogen bond
joins entry 0 and entry 3, the positions of the first and of the fourth residue; a side
chain is made for every residue except the third; and the scene has 9 objects, 1 backbone,
4 residues, 3 side chains and 1 hydrogen bond. -/
theorem beta_turn_last_parameter_above_range (getPoint : Float64.Double → Float64.Vector3) :
    BetaTurn.turnParameter 0 = 0.3 ∧
    BetaTurn.turnParameter 1 = 0.43333333333333335 ∧
    BetaTurn.turnParameter 2 = 0.5666666666666667 ∧
    BetaTurn.turnParameter 3 = 0.7000000000000001 ∧
    BetaTurn.turnParameter 3 ≠ 0.7 ∧
    (0.7 : Float64.Double) < BetaTurn.turnParameter 3 ∧
    (BetaTurn.turnParameter 1).units - (BetaTurn.turnParameter 0).units
      ≠ (BetaTurn.turnParameter 2).units - (BetaTurn.turnParameter 1).units ∧
    (BetaTurn.turnParameter 2).units - (BetaTurn.turnParameter 1).units
      ≠ (BetaTurn.turnParameter 3).units - (BetaTurn.turnParameter 2).units ∧
    BetaTurn.turnParameter 1 - BetaTurn.turnParameter 0 = 0.13333333333333336 ∧
    BetaTurn.turnParameter 2 - BetaTurn.turnParameter 1 = 0.1333333333333333 ∧
    BetaTurn.turnParameter 3 - BetaTurn.turnParameter 2 = 0.13333333333333341 ∧
    (BetaTurn.turnPoints getPoint).length = 4 ∧
    (∀ i, i < 4 →
      (BetaTurn.turnPoints getPoint)[i]? = some (getPoint (BetaTurn.turnParameter i)) ∧
      BetaTurn.residuePosition (getPoint (BetaTurn.turnParameter i))
        = getPoint (BetaTurn.turnParameter i) ∧
      ((BetaTurn.sideChainPosition (getPoint (BetaTurn.turnParameter i)) i).isSome = true
        ↔ i ≠ 2)) ∧
    BetaTurn.hydrogenBondPoints (BetaTurn.turnPoints getPoint)
      = [some (BetaTurn.residuePosition (getPoint (BetaTurn.turnParameter 0))),
         some (BetaTurn.residuePosition (getPoint (BetaTurn.turnParameter 3)))] ∧
    (BetaTurn.createBetaTurn Three.Scene.empty).children.length = 9 ∧
    (BetaTurn.createBetaTurn Three.Scene.empty).children.map
        (fun object => object.userData.map Three.UserData.type)
      = [some "backbone", some "residue", some "sideChain", some "residue", some "sideChain",
         some "residue", some "residue", some "sideChain", some "hydrogenBond"] := by
  obtain ⟨h0, h1, h2, h3, hne, hlt, hs1, hs2, hd1, hd2, hd3, _⟩ := BetaTurn.turnParameter_values
  have hpt : ∀ i, i < 4 →
      (BetaTurn.turnPoints getPoint)[i]? = some (getPoint (BetaTurn.turnParameter i)) := by
    intro i hi
    unfold BetaTurn.turnPoints BetaTurn.turnResidues
    rw [List.getElem?_map, List.getElem?_range hi]
    rfl
  refine ⟨h0, h1, h2, h3, hne, hlt, hs1, hs2, hd1, hd2, hd3,
    by simp [BetaTurn.turnPoints, BetaTurn.turnResidues], ?_, ?_, by decide, by decide⟩
  · intro i hi
    refine ⟨hpt i hi, rfl, ?_⟩
    unfold BetaTurn.sideChainPosition
    by_cases h : i = 2
    · simp [h]
    · simp [h]
  · unfold BetaTurn.hydrogenBondPoints
    rw [hpt 0 (by omega), hpt 3 (by omega)]
    rfl
